import Mathlib

/-!
# The allocation facade of `pim` (`src/allocator/allocator.cpp`)

A shallow embedding of the allocator facade (`PadRequest`, `Alloc`, `Realloc`,
`Free`), of the registry lifecycle (`Init`, `Update`, `Shutdown`) and of the
Pool strategy (`src/allocator/pool_allocator.h`), over an explicit machine
state.

Conventions of the embedding:

* `i32` is the subtype of `Int` of 32-bit signed values; its arithmetic wraps
  modulo `2^32` (two's complement).
* Addresses (`void*`, `Header*`) are natural numbers, `0` is the null pointer.
  `hdr + 1` on a `Header*` is `hdr + sizeof(Header)`, `((Header*)prev) - 1` is
  `prev - sizeof(Header)`.
* `ASSERT(e)` aborts the call when `e` is false: a facade call returns
  `Except Fault _`, and each `Fault` names the assertion that failed.
* Memory is typed: `Memory.hdr a` is the `Header` stored at address `a`,
  `Memory.byte a` is the payload byte stored at address `a`.
* The strategies behind the table `ms_tables` are parameters (`Env.ms_tables`):
  a strategy sees its own `UAllocator` value and the memory.
* `State.log` is a ghost call log: the facade appends one `Event` for every
  strategy call, every Header stamp, every tracker notification and every call
  of the platform allocator it makes. `Pool.log` is the same for a Pool: lock
  and unlock, calls of the free-list, payload copies.
* The platform allocator is a parameter of `Init`; the free-list of the Pool is
  a parameter (`HeapOps`).
* `memcpy` on two ranges that overlap is undefined behaviour: the model has no
  result for it, and a call that reaches it ends in `Fault.memcpy_overlap`.
-/

namespace Allocator

/-! ## 32-bit signed integers -/

/-- Reduce an integer to the 32-bit signed range, two's complement. -/
def wrapI32 (x : Int) : Int := (x + 2147483648) % 4294967296 - 2147483648

/-- The C type `i32`. -/
abbrev i32 : Type := { x : Int // -2147483648 ≤ x ∧ x ≤ 2147483647 }

/-- Conversion to `i32`, wrapping. -/
def i32.ofInt (x : Int) : i32 := ⟨wrapI32 x, by unfold wrapI32; omega⟩

instance (n : Nat) : OfNat i32 n := ⟨i32.ofInt n⟩

/-- `a + b` on `i32`. -/
def i32.add (a b : i32) : i32 := i32.ofInt (a.val + b.val)

/-- `a - b` on `i32`. -/
def i32.sub (a b : i32) : i32 := i32.ofInt (a.val - b.val)

/-- `a * b` on `i32`. -/
def i32.mul (a b : i32) : i32 := i32.ofInt (a.val * b.val)

/-- `a / b` on `i32`: C division truncates toward zero. -/
def i32.div (a b : i32) : i32 := i32.ofInt (Int.tdiv a.val b.val)

/-- The cast `(u32)a`. -/
def i32.toU32 (a : i32) : Nat := (a.val % 4294967296).toNat

/-! ## Constants of the facade -/

/-- `static constexpr i32 Alignment = 16;` -/
def Alignment : i32 := 16

/-- Modelled from the spec: `sizeof(Header)`; the declaration of `Header`
(`allocator/allocator_vtable.h`) is missing. The code uses four `i32` fields
of it (`size`, `type`, `c`, `d`) and asserts statically that `PadBytes` is a
multiple of the alignment: 16 bytes. -/
def sizeofHeader : Nat := 16

/-- `static constexpr i32 PadBytes = sizeof(Header);` -/
def PadBytes : i32 := i32.ofInt sizeofHeader

/-- `NumAllocators = NELEM(ms_tables)`: the table has five rows. -/
def NumAllocators : i32 := 5

/-- Modelled from the spec: the enumerators of `AllocType`, whose declaration
is missing; their order is the order of the rows of `ms_tables` and of the
comments of `ms_capacities`. -/
def Alloc_Stdlib : i32 := 0

/-- Row 1 of `ms_tables`: `Linear::Table`. -/
def Alloc_Linear : i32 := 1

/-- Row 2 of `ms_tables`: `Stack::Table`. -/
def Alloc_Stack : i32 := 2

/-- Row 3 of `ms_tables`: `Pool::Table`. -/
def Alloc_Pool : i32 := 3

/-- Row 4 of `ms_tables`: the second `Stdlib::Table`, "debug uses stdlib". -/
def Alloc_Debug : i32 := 4

/-- The table `ms_capacities`. -/
def ms_capacities (i : Nat) : i32 :=
  match i with
  | 0 => 0
  | 1 => i32.ofInt (1 <<< 20)
  | 2 => i32.ofInt (1 <<< 20)
  | 3 => i32.ofInt (64 <<< 20)
  | _ => 0

/-- The table `ms_isPerFrame`. -/
def ms_isPerFrame (i : Nat) : Bool :=
  match i with
  | 0 => false
  | 1 => true
  | 2 => false
  | 3 => false
  | _ => false

/-! ## Data model -/

/-- The `Header` that precedes every user pointer. -/
structure Header where
  size : i32
  type : i32
  c : i32
  d : i32
deriving DecidableEq

/-- Typed memory: the Header stored at an address, the byte stored at an
address. -/
structure Memory where
  hdr : Nat → Header
  byte : Nat → Nat

/-- The assignments `hdr->size = size; hdr->type = type;`. -/
def Memory.stamp (m : Memory) (hdr : Nat) (size type : i32) : Memory :=
  { m with hdr := Function.update m.hdr hdr { m.hdr hdr with size := size, type := type } }

/-- Modelled from the spec: the capability set of a strategy, "{init, alloc,
realloc, free, clear, shutdown}" (the `VTable` of `allocator_vtable.h`, which
is missing). Each capability receives the strategy's
`UAllocator` value and the memory; `Alloc` and `Realloc` return a `Header*`. -/
structure VTable (σ : Type) where
  Init : σ → Memory → Nat → i32 → σ × Memory
  Shutdown : σ → Memory → σ × Memory
  Clear : σ → Memory → σ × Memory
  Alloc : σ → Memory → i32 → Nat × σ × Memory
  Realloc : σ → Memory → Nat → i32 → Nat × σ × Memory
  Free : σ → Memory → Nat → σ × Memory

/-- An entry of the leak ledger. -/
structure LeakEntry where
  address : Nat
  size : i32
deriving DecidableEq

/-- Ghost call log of the facade. -/
inductive Event where
  | stratAlloc (iType : i32) (want : i32)
  | stratRealloc (iType : i32) (hdr : Nat) (want : i32)
  | stratFree (iType : i32) (hdr : Nat)
  | stamp (hdr : Nat) (size : i32) (type : i32)
  | OnAlloc (hdr : Nat) (want : i32)
  | OnRealloc (hdr : Nat) (newHdr : Nat) (want : i32)
  | OnFree (hdr : Nat)
  | malloc (capacity : i32) (memory : Nat)
  | free (memory : Nat)
  | stratInit (i : Nat) (memory : Nat) (capacity : i32)
  | stratClear (i : Nat)
  | stratShutdown (i : Nat)
  | ListLeaks (entries : List LeakEntry)
deriving DecidableEq

/-- The assertions of the facade and of the Pool, one name for each; the last
one, `memcpy_overlap`, is not an assertion: it names the undefined behaviour of
a `memcpy` whose two ranges overlap. -/
inductive Fault where
  | PadRequest_positive
  | Alloc_ValidAllocator
  | Alloc_want
  | Alloc_hdr
  | Alloc_IsAligned
  | Realloc_ValidAllocator
  | Realloc_want
  | Realloc_has
  | Realloc_ValidAllocator_iType
  | Realloc_init_or_Stdlib
  | Realloc_newHdr
  | Realloc_IsAligned
  | Free_IsAligned
  | Free_size
  | Free_ValidAllocator
  | Init_ms_init
  | Update_ms_init
  | Shutdown_ms_init
  | Pool_Free_offset
  | Pool_Free_size
  | Pool_Free_address
  | memcpy_overlap
deriving DecidableEq

/-- The statics of `allocator.cpp` (`ms_allocators`, `ms_allocations`,
`ms_init`, `ms_tracker`), the memory, and the ghost call log. -/
structure State (σ : Type) where
  ms_allocators : Nat → σ
  ms_allocations : Nat → Nat
  ms_init : Bool
  ms_tracker : List LeakEntry
  mem : Memory
  log : List Event

/-- What the facade is compiled against: the strategy table `ms_tables` and the
compile-time switch `ENABLE_LEAK_TRACKER`. -/
structure Env (σ : Type) where
  ms_tables : Nat → VTable σ
  ENABLE_LEAK_TRACKER : Bool

/-! ## The leak tracker -/

/-- Modelled from the spec: `LeakTracker::OnAlloc` (`allocator/leak_tracker.h`
is missing); a ledger entry is "created on alloc". -/
def OnAlloc (t : List LeakEntry) (hdr : Nat) (want : i32) : List LeakEntry :=
  { address := hdr, size := want } :: t

/-- Modelled from the spec: `LeakTracker::OnFree`; a ledger entry is "removed
on free". -/
def OnFree (t : List LeakEntry) (hdr : Nat) : List LeakEntry :=
  t.filter (fun e => e.address ≠ hdr)

/-- Modelled from the spec: `LeakTracker::OnRealloc`; the entry of the old
block is removed and an entry for the new block is created. -/
def OnRealloc (t : List LeakEntry) (hdr newHdr : Nat) (want : i32) : List LeakEntry :=
  OnAlloc (OnFree t hdr) newHdr want

/-! ## Helpers of the facade -/

/-- `IsAligned(usize x)`: `!(x & mask)` with `mask = Alignment - 1`. -/
def IsAligned (x : Nat) : Bool := (x &&& (Alignment.val.toNat - 1)) == 0

/-- `InRange(i32 iType)`: `(u32)iType < (u32)NumAllocators`. -/
def InRange (iType : i32) : Bool := decide (iType.toU32 < NumAllocators.toU32)

/-- `ValidAllocator(i32 iType)`. -/
def ValidAllocator {σ : Type} (s : State σ) (iType : i32) : Bool :=
  InRange iType && (s.ms_init || (iType == Alloc_Stdlib) || (iType == Alloc_Debug))

/-- Modelled from the spec: `MultipleOf(x, y)` of `common/round.h`, which is
missing: "round up to alignment", computed in `i32` as
`((x + (y - 1)) / y) * y`. -/
def MultipleOf (x y : i32) : i32 :=
  i32.mul (i32.div (i32.add x (i32.sub y 1)) y) y

/-- `PadRequest(i32 reqBytes)`. -/
def PadRequest (reqBytes : i32) : Except Fault i32 :=
  let reqBytes := i32.add reqBytes PadBytes
  let reqBytes := MultipleOf reqBytes Alignment
  if reqBytes.val > 0 then .ok reqBytes else .error Fault.PadRequest_positive

/-- Index of a row of `ms_tables` / `ms_allocators`. -/
def row (iType : i32) : Nat := iType.val.toNat

/-! ## The facade -/

/-- Lines 150-165 of `Alloc`: the body of `if (want > 0)` once `want` has been
padded. The strategy of row `type` is called with the padded `want`, the
result is asserted non-null, stamped, asserted aligned and reported to the
tracker. -/
def AllocDispatch {σ : Type} (env : Env σ) (s : State σ) (type : i32) (want : i32) :
    Except Fault (Nat × State σ) :=
  let r := (env.ms_tables (row type)).Alloc (s.ms_allocators (row type)) s.mem want
  let hdr := r.1
  if hdr = 0 then .error Fault.Alloc_hdr
  else if IsAligned (hdr + sizeofHeader) = false then .error Fault.Alloc_IsAligned
  else
    let tracked := env.ENABLE_LEAK_TRACKER && (type != Alloc_Debug)
    .ok (hdr + sizeofHeader,
      { s with
        ms_allocators := Function.update s.ms_allocators (row type) r.2.1
        mem := r.2.2.stamp hdr want type
        ms_tracker := if tracked then OnAlloc s.ms_tracker hdr want else s.ms_tracker
        log := s.log ++ [Event.stratAlloc type want, Event.stamp hdr want type]
          ++ (if tracked then [Event.OnAlloc hdr want] else []) })

/-- `void* Alloc(AllocType type, i32 want)`. -/
def Alloc {σ : Type} (env : Env σ) (s : State σ) (type : i32) (want : i32) :
    Except Fault (Nat × State σ) :=
  if ValidAllocator s type = false then .error Fault.Alloc_ValidAllocator
  else if ¬ (want.val ≥ 0) then .error Fault.Alloc_want
  else if want.val > 0 then
    match PadRequest want with
    | .error f => .error f
    | .ok want => AllocDispatch env s type want
  else .ok (0, s)

/-- `void Free(void* prev)`. -/
def Free {σ : Type} (env : Env σ) (s : State σ) (prev : Nat) : Except Fault (State σ) :=
  if prev ≠ 0 then
    if IsAligned prev = false then .error Fault.Free_IsAligned
    else
      let hdr := prev - sizeofHeader
      let size := (s.mem.hdr hdr).size
      if ¬ (size.val > 0) then .error Fault.Free_size
      else
        let iType := (s.mem.hdr hdr).type
        if ValidAllocator s iType = false then .error Fault.Free_ValidAllocator
        else
          let r := (env.ms_tables (row iType)).Free (s.ms_allocators (row iType)) s.mem hdr
          let tracked := env.ENABLE_LEAK_TRACKER && (iType != Alloc_Debug)
          .ok { s with
                ms_allocators := Function.update s.ms_allocators (row iType) r.1
                mem := r.2
                ms_tracker := if tracked then OnFree s.ms_tracker hdr else s.ms_tracker
                log := s.log ++ [Event.stratFree iType hdr]
                  ++ (if tracked then [Event.OnFree hdr] else []) }
  else .ok s

/-- Lines 195-217 of `Realloc`: the body of `if (want != has)` once `want` has
been padded. The kind is read from the Header, asserted valid, and the
strategy of that row is called with the old Header and the padded `want`; the
result is asserted non-null, stamped, asserted aligned and reported to the
tracker. -/
def ReallocDispatch {σ : Type} (env : Env σ) (s : State σ) (hdr : Nat) (want : i32) :
    Except Fault (Nat × State σ) :=
  let iType := (s.mem.hdr hdr).type
  if ValidAllocator s iType = false then .error Fault.Realloc_ValidAllocator_iType
  else if ¬ (s.ms_init = true ∨ iType = Alloc_Stdlib) then .error Fault.Realloc_init_or_Stdlib
  else
    let r := (env.ms_tables (row iType)).Realloc (s.ms_allocators (row iType)) s.mem hdr want
    let newHdr := r.1
    if newHdr = 0 then .error Fault.Realloc_newHdr
    else if IsAligned (newHdr + sizeofHeader) = false then .error Fault.Realloc_IsAligned
    else
      let tracked := env.ENABLE_LEAK_TRACKER && (iType != Alloc_Debug)
      .ok (newHdr + sizeofHeader,
        { s with
          ms_allocators := Function.update s.ms_allocators (row iType) r.2.1
          mem := r.2.2.stamp newHdr want iType
          ms_tracker :=
            if tracked then OnRealloc s.ms_tracker hdr newHdr want else s.ms_tracker
          log := s.log ++ [Event.stratRealloc iType hdr want, Event.stamp newHdr want iType]
            ++ (if tracked then [Event.OnRealloc hdr newHdr want] else []) })

/-- `void* Realloc(AllocType type, void* prev, i32 want)`. -/
def Realloc {σ : Type} (env : Env σ) (s : State σ) (type : i32) (prev : Nat) (want : i32) :
    Except Fault (Nat × State σ) :=
  if ValidAllocator s type = false then .error Fault.Realloc_ValidAllocator
  else if ¬ (want.val ≥ 0) then .error Fault.Realloc_want
  else if prev = 0 then Alloc env s type want
  else if want.val = 0 then
    match Free env s prev with
    | .error f => .error f
    | .ok s1 => .ok (0, s1)
  else
    let hdr := prev - sizeofHeader
    let has := i32.sub (s.mem.hdr hdr).size PadBytes
    if ¬ (has.val > 0) then .error Fault.Realloc_has
    else if want ≠ has then
      match PadRequest want with
      | .error f => .error f
      | .ok want => ReallocDispatch env s hdr want
    else .ok (prev, s)

/-! ## Calls in sequence -/

/-- One call of the facade. -/
inductive Op where
  | Alloc (type : i32) (want : i32)
  | Realloc (type : i32) (prev : Nat) (want : i32)
  | Free (prev : Nat)

/-- Perform one call and keep the state it leaves. -/
def step {σ : Type} (env : Env σ) (s : State σ) : Op → Except Fault (State σ)
  | Op.Alloc type want =>
    match Alloc env s type want with
    | .error f => .error f
    | .ok r => .ok r.2
  | Op.Realloc type prev want =>
    match Realloc env s type prev want with
    | .error f => .error f
    | .ok r => .ok r.2
  | Op.Free prev => Free env s prev

/-- Perform a sequence of calls, stopping at the first failed assertion. -/
def run {σ : Type} (env : Env σ) (s : State σ) : List Op → Except Fault (State σ)
  | [] => .ok s
  | op :: ops =>
    match step env s op with
    | .error f => .error f
    | .ok s1 => run env s1 ops

/-! ## Lifecycle of the registry -/

/-- The values of `i` in `for (i32 i = 0; i < NumAllocators; ++i)`. -/
def rows : List Nat := List.range NumAllocators.val.toNat

/-- Lines 99-102 of `Init`: the body of the loop, for row `i`. `malloc i n` is
the address the platform allocator answers with when row `i` asks for `n`
bytes (null when it fails). -/
def InitRow {σ : Type} (env : Env σ) (malloc : Nat → i32 → Nat) (s : State σ) (i : Nat) :
    State σ :=
  let capacity := ms_capacities i
  let memory := if capacity.val > 0 then malloc i capacity else 0
  let r := (env.ms_tables i).Init (s.ms_allocators i) s.mem memory capacity
  { s with
    ms_allocations := Function.update s.ms_allocations i memory
    ms_allocators := Function.update s.ms_allocators i r.1
    mem := r.2
    log := s.log ++ (if capacity.val > 0 then [Event.malloc capacity memory] else [])
      ++ [Event.stratInit i memory capacity] }

/-- `void Init()`. -/
def Init {σ : Type} (env : Env σ) (malloc : Nat → i32 → Nat) (s : State σ) :
    Except Fault (State σ) :=
  if ¬ (s.ms_init = false) then .error Fault.Init_ms_init
  else .ok { rows.foldl (InitRow env malloc) s with ms_init := true }

/-- Lines 112-115 of `Update`: the body of the loop, for row `i`. -/
def UpdateRow {σ : Type} (env : Env σ) (s : State σ) (i : Nat) : State σ :=
  if ms_isPerFrame i = true then
    let r := (env.ms_tables i).Clear (s.ms_allocators i) s.mem
    { s with
      ms_allocators := Function.update s.ms_allocators i r.1
      mem := r.2
      log := s.log ++ [Event.stratClear i] }
  else s

/-- `void Update()`. -/
def Update {σ : Type} (env : Env σ) (s : State σ) : Except Fault (State σ) :=
  if ¬ (s.ms_init = true) then .error Fault.Update_ms_init
  else .ok (rows.foldl (UpdateRow env) s)

/-- Lines 124-130 of `Shutdown`: the body of the loop, for row `i`. -/
def ShutdownRow {σ : Type} (env : Env σ) (s : State σ) (i : Nat) : State σ :=
  let r := (env.ms_tables i).Shutdown (s.ms_allocators i) s.mem
  let memory := s.ms_allocations i
  { s with
    ms_allocators := Function.update s.ms_allocators i r.1
    mem := r.2
    ms_allocations := Function.update s.ms_allocations i 0
    log := s.log ++ [Event.stratShutdown i]
      ++ (if memory ≠ 0 then [Event.free memory] else []) }

/-- Modelled from the spec: `LeakTracker::ListLeaks` (`allocator/leak_tracker.h`
is missing), which "drains and reports any allocations still outstanding":
the ledger it leaves behind. -/
def ListLeaks (_t : List LeakEntry) : List LeakEntry := []

/-- `void Shutdown()`. -/
def Shutdown {σ : Type} (env : Env σ) (s : State σ) : Except Fault (State σ) :=
  if ¬ (s.ms_init = true) then .error Fault.Shutdown_ms_init
  else
    let s1 := rows.foldl (ShutdownRow env) s
    .ok { s1 with
          ms_init := false
          ms_tracker :=
            if env.ENABLE_LEAK_TRACKER = true then ListLeaks s1.ms_tracker else s1.ms_tracker
          log := s1.log
            ++ (if env.ENABLE_LEAK_TRACKER = true then [Event.ListLeaks s1.ms_tracker] else []) }

/-! ## The Pool strategy (`src/allocator/pool_allocator.h`) -/

/-- The rows of `ms_tables`, by the name of the strategy each row holds. -/
inductive Strategy where
  | Stdlib
  | Linear
  | Stack
  | Pool
deriving DecidableEq

/-- The table `ms_tables`, by strategy name: `Stdlib::Table`, `Linear::Table`,
`Stack::Table`, `Pool::Table`, `Stdlib::Table`. -/
def ms_tables_names (i : Nat) : Strategy :=
  match i with
  | 0 => Strategy.Stdlib
  | 1 => Strategy.Linear
  | 2 => Strategy.Stack
  | 3 => Strategy.Pool
  | _ => Strategy.Stdlib

/-- Modelled from the spec: `HeapItem` of `containers/heap.h`, which is
missing: a free-list entry `{offset, size}`. -/
structure HeapItem where
  offset : i32
  size : i32
deriving DecidableEq

/-- Modelled from the spec: the free-list `Heap` of `containers/heap.h`, which
is missing; its member functions are parameters over the type `H` of heap
values. `Alloc` answers with the chosen range, or with an item of offset `-1`
when no range is large enough; `Free` reinserts a range. -/
structure HeapOps (H : Type) where
  Init : H → i32 → i32 → H
  Reset : H → H
  Clear : H → H
  Alloc : H → i32 → HeapItem × H
  Free : H → HeapItem → H

/-- Modelled from the spec: `Slice<u8>` of `containers/slice.h`, which is
missing: a pointer and a length. -/
structure Slice where
  ptr : Nat
  len : i32

/-- `Slice::begin()`. -/
def Slice.begin (s : Slice) : Nat := s.ptr

/-- `Slice::size()`. -/
def Slice.size (s : Slice) : i32 := s.len

/-- One past the last byte of a slice. -/
def Slice.stop (s : Slice) : Nat := s.ptr + s.len.val.toNat

/-- Modelled from the spec: `Slice::Subslice(offset, size)`, the `size` bytes
that start `offset` bytes into the slice. -/
def Slice.Subslice (s : Slice) (offset size : i32) : Slice :=
  { ptr := s.ptr + offset.val.toNat, len := size }

/-- Modelled from the spec: `Slice::Tail(n)`, the slice without its first `n`
bytes ("everything after the Header"). -/
def Slice.Tail (s : Slice) (n : Nat) : Slice :=
  { ptr := s.ptr + n, len := i32.sub s.len (i32.ofInt n) }

/-- Modelled from the spec: `Overlaps(a, b)`, the two byte ranges alias. -/
def Overlaps (a b : Slice) : Bool := decide (a.begin < b.stop) && decide (b.begin < a.stop)

/-- Modelled from the spec: `Min(a, b)` of `common/minmax.h`, which is
missing. -/
def Min (a b : i32) : i32 := if a.val < b.val then a else b

/-- Modelled from the spec: `Header::AsSlice()`, the `size` bytes of the
block that start at its Header. -/
def Header.AsSlice (m : Memory) (hdr : Nat) : Slice :=
  { ptr := hdr, len := (m.hdr hdr).size }

/-- The payload copy of `memmove(dst, src, n)`: every byte is read from the
memory as it was before the call. -/
def memmove (m : Memory) (dst src : Nat) (n : i32) : Memory :=
  { m with
    byte := fun a =>
      if dst ≤ a ∧ a < dst + n.val.toNat then m.byte (src + (a - dst)) else m.byte a }

/-- The payload copy of `memcpy(dst, src, n)`. The C library leaves the
behaviour undefined when `[dst, dst + n)` and `[src, src + n)` overlap: the
model has no result then. On ranges that do not overlap every byte is read from
the memory as it was before the call. -/
def memcpy (m : Memory) (dst src : Nat) (n : i32) : Option Memory :=
  if dst < src + n.val.toNat ∧ src < dst + n.val.toNat then none
  else some (memmove m dst src n)

/-- Ghost call log of a Pool. -/
inductive PoolEvent where
  | lock
  | unlock
  | heapAlloc (reqBytes : i32) (item : HeapItem)
  | heapFree (item : HeapItem)
  | memmove (dst src : Nat) (n : i32)
  | memcpy (dst src : Nat) (n : i32)
  | mutexOpen (handle : Nat)
  | mutexClose (handle : Nat)
  | heapInit (bytes : i32)
  | heapReset
  | heapClear
deriving DecidableEq

/-- `struct Pool`: the mutex (by its handle), the region `m_memory`, the
free-list `m_heap`, and the ghost call log. -/
structure Pool (H : Type) where
  m_mutex : Nat
  m_memory : Slice
  m_heap : H
  log : List PoolEvent

/-- `Header* Pool::_Alloc(i32 reqBytes)`. -/
def Pool._Alloc {H : Type} (ops : HeapOps H) (p : Pool H) (m : Memory) (reqBytes : i32) :
    Nat × Pool H × Memory :=
  let r := ops.Alloc p.m_heap reqBytes
  let item := r.1
  let offset := item.offset
  let size := item.size
  let p1 := { p with m_heap := r.2, log := p.log ++ [PoolEvent.heapAlloc reqBytes item] }
  if offset.val = -1 then (0, p1, m)
  else
    let allocation := p.m_memory.Subslice offset size
    let pNew := allocation.begin
    (pNew, p1,
      { m with
        hdr := Function.update m.hdr pNew { m.hdr pNew with size := size, c := size, d := offset }
            })

/-- `void Pool::_Free(Header* prev)`. -/
def Pool._Free {H : Type} (ops : HeapOps H) (p : Pool H) (m : Memory) (prev : Nat) :
    Except Fault (Pool H) :=
  let size := (m.hdr prev).c
  let offset := (m.hdr prev).d
  if ¬ (offset.val ≥ 0) then .error Fault.Pool_Free_offset
  else if ¬ (size.val ≥ (m.hdr prev).size.val) then .error Fault.Pool_Free_size
  else if ¬ (p.m_memory.begin + offset.val.toNat = prev) then .error Fault.Pool_Free_address
  else
    let item : HeapItem := { offset := offset, size := size }
    .ok { p with m_heap := ops.Free p.m_heap item, log := p.log ++ [PoolEvent.heapFree item] }

/-- `Header* Pool::_Realloc(Header* pOld, i32 reqBytes)`. The call has no
result when an assertion of `_Free` fails or when the `memcpy` of line 91 is
reached with ranges that overlap. -/
def Pool._Realloc {H : Type} (ops : HeapOps H) (p : Pool H) (m : Memory) (pOld : Nat)
    (reqBytes : i32) : Except Fault (Nat × Pool H × Memory) :=
  match Pool._Free ops p m pOld with
  | .error f => .error f
  | .ok p1 =>
    let r := Pool._Alloc ops p1 m reqBytes
    let pNew := r.1
    if pNew = 0 then .ok (0, r.2.1, r.2.2)
    else if pNew ≠ pOld then
      let oldSlice := (Header.AsSlice r.2.2 pOld).Tail sizeofHeader
      let newSlice := (Header.AsSlice r.2.2 pNew).Tail sizeofHeader
      let cpySize := Min newSlice.size oldSlice.size
      if Overlaps newSlice oldSlice = true then
        .ok (pNew,
          { r.2.1 with
            log := r.2.1.log ++ [PoolEvent.memmove newSlice.begin oldSlice.begin cpySize] },
          memmove r.2.2 newSlice.begin oldSlice.begin cpySize)
      else
        match memcpy r.2.2 newSlice.begin oldSlice.begin cpySize with
        | none => .error Fault.memcpy_overlap
        | some m1 =>
          .ok (pNew,
            { r.2.1 with
              log := r.2.1.log ++ [PoolEvent.memcpy newSlice.begin oldSlice.begin cpySize] },
            m1)
    else .ok (pNew, r.2.1, r.2.2)

/-- `Header* Pool::Alloc(i32 reqBytes)`: `_Alloc` under the lock guard. -/
def Pool.Alloc {H : Type} (ops : HeapOps H) (p : Pool H) (m : Memory) (reqBytes : i32) :
    Nat × Pool H × Memory :=
  let r := Pool._Alloc ops { p with log := p.log ++ [PoolEvent.lock] } m reqBytes
  (r.1, { r.2.1 with log := r.2.1.log ++ [PoolEvent.unlock] }, r.2.2)

/-- `void Pool::Free(Header* prev)`: `_Free` under the lock guard. -/
def Pool.Free {H : Type} (ops : HeapOps H) (p : Pool H) (m : Memory) (prev : Nat) :
    Except Fault (Pool H) :=
  match Pool._Free ops { p with log := p.log ++ [PoolEvent.lock] } m prev with
  | .error f => .error f
  | .ok p1 => .ok { p1 with log := p1.log ++ [PoolEvent.unlock] }

/-- `Header* Pool::Realloc(Header* pOld, i32 reqBytes)`: `_Realloc` under the
lock guard. -/
def Pool.Realloc {H : Type} (ops : HeapOps H) (p : Pool H) (m : Memory) (pOld : Nat)
    (reqBytes : i32) : Except Fault (Nat × Pool H × Memory) :=
  match Pool._Realloc ops { p with log := p.log ++ [PoolEvent.lock] } m pOld reqBytes with
  | .error f => .error f
  | .ok r => .ok (r.1, { r.2.1 with log := r.2.1.log ++ [PoolEvent.unlock] }, r.2.2)

/-- `void Pool::Init(void* memory, i32 bytes)`. Modelled from the spec:
`OS::Mutex` (`os/thread.h`) is missing; the Pool holds the mutex by value,
`Open` stores in it the handle the system hands out (`handle`), and `Close`
releases the handle the member holds when it is called. -/
def Pool.Init {H : Type} (ops : HeapOps H) (handle : Nat) (p : Pool H) (memory : Nat)
    (bytes : i32) : Pool H :=
  { m_mutex := handle
    m_memory := { ptr := memory, len := bytes }
    m_heap := ops.Init p.m_heap Alloc_Stdlib bytes
    log := p.log ++ [PoolEvent.mutexOpen handle, PoolEvent.heapInit bytes] }

/-- `void Pool::Shutdown()`: `m_heap.Reset()`, then `memset(this, 0,
sizeof(*this))`, then `m_mutex.Close()`. `zero` is the free-list value whose
bytes are all zero. -/
def Pool.Shutdown {H : Type} (ops : HeapOps H) (zero : H) (p : Pool H) : Pool H :=
  let p1 : Pool H := { p with m_heap := ops.Reset p.m_heap, log := p.log ++ [PoolEvent.heapReset] }
  let p2 : Pool H :=
    { p1 with m_mutex := 0, m_memory := { ptr := 0, len := 0 }, m_heap := zero }
  { p2 with log := p2.log ++ [PoolEvent.mutexClose p2.m_mutex] }

/-- `void Pool::Clear()`: `m_heap.Clear()` under the lock guard. -/
def Pool.Clear {H : Type} (ops : HeapOps H) (p : Pool H) : Pool H :=
  { p with
    m_heap := ops.Clear p.m_heap
    log := p.log ++ [PoolEvent.lock, PoolEvent.heapClear, PoolEvent.unlock] }

/-! ## A concrete instance

A bump strategy and a registry state, used to evaluate the facade on concrete
inputs. -/

/-- A bump strategy over the region `[base, base + capacity)`: the
`UAllocator` value is the cursor; `Alloc` and `Realloc` hand out the bytes at
the cursor, or null when the region is exhausted; `Realloc` carries the old
Header over; `Free` reclaims nothing. -/
def bumpTable (base capacity : Nat) : VTable Nat where
  Init := fun _ m _ _ => (0, m)
  Shutdown := fun _ m => (0, m)
  Clear := fun _ m => (0, m)
  Alloc := fun head m want =>
    if head + want.val.toNat ≤ capacity then (base + head, head + want.val.toNat, m)
    else (0, head, m)
  Realloc := fun head m hdr want =>
    if head + want.val.toNat ≤ capacity then
      (base + head, head + want.val.toNat,
        { m with hdr := Function.update m.hdr (base + head) (m.hdr hdr) })
    else (0, head, m)
  Free := fun head m _ => (head, m)

/-- Five bump strategies over disjoint regions of 4096 bytes, tracker
compiled in. -/
def sampleEnv : Env Nat :=
  { ms_tables := fun i => bumpTable (65536 * (i + 1)) 4096
    ENABLE_LEAK_TRACKER := true }

/-- An initialized registry with empty regions and zeroed memory. -/
def sampleState : State Nat :=
  { ms_allocators := fun _ => 0
    ms_allocations := fun i => 65536 * (i + 1)
    ms_init := true
    ms_tracker := []
    mem := { hdr := fun _ => { size := 0, type := 0, c := 0, d := 0 }, byte := fun _ => 0 }
    log := [] }

/-- The sample registry after one block of 48 bytes (32 usable) has been
handed out by the Linear row: its Header is at 131072, its user pointer is
131088. -/
def sampleStateLive : State Nat :=
  { sampleState with
    ms_allocators := Function.update sampleState.ms_allocators 1 48
    mem := sampleState.mem.stamp 131072 48 Alloc_Linear
    ms_tracker := [{ address := 131072, size := 48 }]
    log := [Event.stratAlloc Alloc_Linear 48, Event.stamp 131072 48 Alloc_Linear,
      Event.OnAlloc 131072 48] }

/-- The sample registry before `Init`: not initialized, every region slot
null. -/
def sampleStateStart : State Nat :=
  { sampleState with ms_allocations := fun _ => 0, ms_init := false }

/-- A platform allocator that answers the request of row `i` with the address
`65536 * (i + 1)`. -/
def sampleMalloc (i : Nat) (_n : i32) : Nat := 65536 * (i + 1)

/-- The sample registry before `Init`, with one live Debug block of 48 bytes
(32 usable): its Header is at 327680, its user pointer is 327696. -/
def sampleStateDebug : State Nat :=
  { sampleStateStart with
    ms_allocators := Function.update sampleState.ms_allocators 4 48
    mem := sampleState.mem.stamp 327680 48 Alloc_Debug
    log := [Event.stratAlloc Alloc_Debug 48, Event.stamp 327680 48 Alloc_Debug] }

/-- A first-fit free-list over a list of ranges: `Alloc` hands out the first
range that is large enough, whole, or an item of offset `-1`; `Free` puts the
range back in front. -/
def listHeap : HeapOps (List HeapItem) where
  Init := fun _ _ bytes => [{ offset := 0, size := bytes }]
  Reset := fun _ => []
  Clear := fun h => h
  Alloc := fun h reqBytes =>
    match h.find? (fun it => decide (reqBytes.val ≤ it.size.val)) with
    | some it => (it, h.erase it)
    | none => ({ offset := i32.ofInt (-1), size := i32.ofInt (-1) }, h)
  Free := fun h item => item :: h

/-- A Pool over the 64 bytes at address 4096, all of them handed out as one
block. -/
def samplePool : Pool (List HeapItem) :=
  { m_mutex := 1
    m_memory := { ptr := 4096, len := 64 }
    m_heap := []
    log := [] }

/-- Memory with the Header of the block of `samplePool`: committed size 64,
region offset 0, logical size 48, kind Pool. -/
def samplePoolMemory : Memory :=
  { hdr := Function.update (fun _ => { size := 0, type := 0, c := 0, d := 0 }) 4096
      { size := 48, type := Alloc_Pool, c := 64, d := 0 }
    byte := fun _ => 0 }

/-- A Pool over the 64 bytes at address 4096, all of them free. -/
def samplePoolFree : Pool (List HeapItem) :=
  { samplePool with m_heap := [{ offset := 0, size := 64 }] }

/-- A strategy that keeps the Region and the capacity it was initialized with
and forgets them at shutdown; it hands out no block. -/
def regionTable : VTable (Nat × i32) where
  Init := fun _ m memory capacity => ((memory, capacity), m)
  Shutdown := fun _ m => ((0, 0), m)
  Clear := fun u m => (u, m)
  Alloc := fun u m _ => (0, u, m)
  Realloc := fun u m _ _ => (0, u, m)
  Free := fun u m _ => (u, m)

/-- Five rows of `regionTable`, tracker compiled in. -/
def regionEnv : Env (Nat × i32) :=
  { ms_tables := fun _ => regionTable
    ENABLE_LEAK_TRACKER := true }

/-- A registry over `regionEnv` before `Init`: not initialized, every region
slot null, every strategy value `(7, 7)`. -/
def regionStateStart : State (Nat × i32) :=
  { ms_allocators := fun _ => (7, 7)
    ms_allocations := fun _ => 0
    ms_init := false
    ms_tracker := []
    mem := { hdr := fun _ => { size := 0, type := 0, c := 0, d := 0 }, byte := fun _ => 0 }
    log := [] }

/-- The sample registry, initialized, with one live Debug block of 48 bytes
(32 usable): its Header is at 327680, its user pointer is 327696. -/
def sampleStateDebugLive : State Nat :=
  { sampleState with
    ms_allocators := Function.update sampleState.ms_allocators 4 48
    mem := sampleState.mem.stamp 327680 48 Alloc_Debug
    log := [Event.stratAlloc Alloc_Debug 48, Event.stamp 327680 48 Alloc_Debug] }

/-- Five bump strategies whose regions start 8 bytes past a multiple of 16:
the user pointer of every block they hand out is misaligned. -/
def sampleEnvSkew : Env Nat :=
  { ms_tables := fun i => bumpTable (65536 * (i + 1) + 8) 4096
    ENABLE_LEAK_TRACKER := true }

end Allocator

/-! # Integer helpers of `src/math/scalar.h` -/

namespace Scalar

open Allocator

/-- `a & b` on `i32`: the bits of the two's complement representations. -/
def i32_and (a b : i32) : i32 := i32.ofInt (Int.ofNat (a.toU32 &&& b.toU32))

/-- `x >> n` on `i32`: the arithmetic shift. -/
def i32_shr (x : i32) (n : Nat) : i32 := i32.ofInt (x.val / 2 ^ n)

/-- `-x` on `i32`. -/
def i32_neg (x : i32) : i32 := i32.ofInt (-x.val)

/-- `i32 i1_abs(i32 x)`: `x & 0x7fffffff`. -/
def i1_abs (x : i32) : i32 := i32_and x 0x7fffffff

/-- `i32 i1_distance(i32 a, i32 b)`. -/
def i1_distance (a b : i32) : i32 := i1_abs (i32.sub b a)

/-- One step of `i1_log2`: `if (x >= (1 << k)) { y += k; x >>= k; }`. -/
def log2_step (k : Nat) (yx : i32 × i32) : i32 × i32 :=
  if yx.2.val ≥ (1 <<< k : Int) then (i32.add yx.1 (i32.ofInt k), i32_shr yx.2 k) else yx

/-- `i32 i1_log2(i32 x)`. -/
def i1_log2 (x : i32) : i32 :=
  let y : i32 := i32_neg (if x.val = 0 then 1 else 0)
  (log2_step 1 (log2_step 2 (log2_step 4 (log2_step 8 (log2_step 16 (y, x)))))).1

end Scalar

/-! # The command buffer of `src/common/cmd.c` -/

namespace Cmd

open Allocator

/-- What stops a call on a command buffer: a failed `ASSERT`, a write through
a null pointer, an access outside the bytes reserved for the block. -/
inductive CFault where
  | cbuf_reserve_size
  | null_pointer
  | out_of_bounds
deriving DecidableEq

/-- `cbuf_t`: `ptr` is the block `buf->ptr` points to, by its bytes (`none` for
NULL); the length of the list is the number of bytes reserved for it. -/
structure cbuf_t where
  ptr : Option (List Nat)
  length : i32
  allocator : i32
deriving DecidableEq

/-- Modelled from the spec: `pim_realloc(allocator, ptr, bytes)`, whose
definition is missing: "`ptr == null` behaves as `Alloc`; `bytes == 0` behaves
as `Free` and returns null"; otherwise the block has `bytes` bytes and keeps
the bytes it held, up to the smaller size. The bytes it did not hold are
`junk`. -/
def pim_realloc (junk : Nat) (_allocator : i32) (ptr : Option (List Nat)) (bytes : i32) :
    Option (List Nat) :=
  if bytes.val ≤ 0 then none
  else some (((ptr.getD []) ++ List.replicate bytes.val.toNat junk).take bytes.val.toNat)

/-- Modelled from the spec: `StrLen(text)`, whose definition is missing; a text
is given by its bytes before the terminating NUL. -/
def StrLen (text : List Nat) : i32 := i32.ofInt text.length

/-- `pimmove(ptr + dst, ptr + src, n)` inside a block: `memmove`, every byte is
read from the block as it was before the call. No byte is accessed when `n` is
0. -/
def pimmove (ptr : Option (List Nat)) (dst src : Nat) (n : Nat) :
    Except CFault (Option (List Nat)) :=
  if n = 0 then .ok ptr
  else
    match ptr with
    | none => .error CFault.null_pointer
    | some block =>
      if dst + n > block.length ∨ src + n > block.length then .error CFault.out_of_bounds
      else .ok (some ((List.range block.length).map (fun i =>
        if dst ≤ i ∧ i < dst + n then block.getD (src + (i - dst)) 0 else block.getD i 0)))

/-- `pimcpy(ptr + dst, text, n)`: `memcpy` of the first `n` bytes of a text
into a block. No byte is accessed when `n` is 0. -/
def pimcpy (ptr : Option (List Nat)) (dst : Nat) (text : List Nat) (n : Nat) :
    Except CFault (Option (List Nat)) :=
  if n = 0 then .ok ptr
  else
    match ptr with
    | none => .error CFault.null_pointer
    | some block =>
      if dst + n > block.length then .error CFault.out_of_bounds
      else .ok (some ((List.range block.length).map (fun i =>
        if dst ≤ i ∧ i < dst + n then text.getD (i - dst) 0 else block.getD i 0)))

/-- The assignment `ptr[i] = v`. -/
def store (ptr : Option (List Nat)) (i : Nat) (v : Nat) : Except CFault (Option (List Nat)) :=
  match ptr with
  | none => .error CFault.null_pointer
  | some block =>
    if i < block.length then .ok (some (block.set i v)) else .error CFault.out_of_bounds

/-- `void cbuf_reserve(cbuf_t* buf, i32 size)`. -/
def cbuf_reserve (junk : Nat) (buf : cbuf_t) (size : i32) : Except CFault cbuf_t :=
  if ¬ (size.val ≥ 0) then .error CFault.cbuf_reserve_size
  else if size.val > buf.length.val then
    .ok { buf with ptr := pim_realloc junk buf.allocator buf.ptr (i32.add size 1) }
  else .ok buf

/-- `void cbuf_pushfront(cbuf_t* buf, const char* text)`. -/
def cbuf_pushfront (junk : Nat) (buf : cbuf_t) (text : List Nat) : Except CFault cbuf_t :=
  let textLen := StrLen text
  let bufLen := buf.length
  let newLen := i32.add bufLen textLen
  match cbuf_reserve junk buf newLen with
  | .error f => .error f
  | .ok buf1 =>
    let ptr := buf1.ptr
    match pimmove ptr bufLen.val.toNat 0 bufLen.val.toNat with
    | .error f => .error f
    | .ok ptr1 =>
      match pimcpy ptr1 0 text textLen.val.toNat with
      | .error f => .error f
      | .ok ptr2 =>
        match store ptr2 newLen.val.toNat 0 with
        | .error f => .error f
        | .ok ptr3 => .ok { buf1 with ptr := ptr3, length := newLen }

/-- The bytes of "ab" and its NUL: a buffer of length 2 over a block of 3
bytes. -/
def sampleBuf : cbuf_t := { ptr := some [97, 98, 0], length := 2, allocator := 0 }

/-- The bytes of "abc" and its NUL: a buffer of length 3 over a block of 4
bytes. -/
def sampleBuf3 : cbuf_t := { ptr := some [97, 98, 99, 0], length := 3, allocator := 0 }

end Cmd

namespace Allocator

/-! ## Arithmetic of `i32` and of padding -/

theorem wrapI32_of_range (x : Int) (h1 : -2147483648 ≤ x) (h2 : x ≤ 2147483647) :
    wrapI32 x = x := by
  unfold wrapI32
  omega

theorem wrapI32_range (x : Int) : -2147483648 ≤ wrapI32 x ∧ wrapI32 x ≤ 2147483647 := by
  unfold wrapI32
  omega

theorem IsAligned_iff (x : Nat) : IsAligned x = true ↔ x % 16 = 0 := by
  unfold IsAligned
  have h : (Alignment.val.toNat - 1) = 2 ^ 4 - 1 := by decide
  rw [h, Nat.and_pow_two_sub_one_eq_mod]
  simp

theorem Alignment_val : Alignment.val = 16 := by decide

theorem PadBytes_val : PadBytes.val = 16 := by decide

theorem one_val : (1 : i32).val = 1 := by decide

theorem zero_val : (0 : i32).val = 0 := by decide

theorem padded_val (b : i32) :
    (MultipleOf (i32.add b PadBytes) Alignment).val
      = wrapI32 (wrapI32 (Int.tdiv (wrapI32 (wrapI32 (b.val + 16) + wrapI32 (16 - 1))) 16)
          * 16) := by
  simp only [MultipleOf, i32.add, i32.sub, i32.mul, i32.div, i32.ofInt, PadBytes_val,
    Alignment_val, one_val]

theorem tdiv16_nonneg (t : Int) (h : 0 ≤ t) : Int.tdiv t 16 = t / 16 :=
  Int.tdiv_eq_ediv h (by decide)

theorem tdiv16_neg (t : Int) (h : t < 0) : Int.tdiv t 16 = -((-t) / 16) := by
  have h1 : Int.tdiv (-(-t)) 16 = -(Int.tdiv (-t) 16) := Int.neg_tdiv (-t) 16
  rw [Int.neg_neg] at h1
  rw [h1, Int.tdiv_eq_ediv (by omega) (by decide)]

/-- The padded value: without overflow it is `(b + 31) / 16 * 16`, with
overflow it is not positive. -/
theorem padded_val_cases (b : i32) (hb : 0 < b.val) :
    (b.val + 31 ≤ 2147483647 ∧
        (MultipleOf (i32.add b PadBytes) Alignment).val = (b.val + 31) / 16 * 16) ∨
    (2147483647 < b.val + 31 ∧ (MultipleOf (i32.add b PadBytes) Alignment).val ≤ 0) := by
  rw [padded_val]
  have hr := b.property
  have e2 : wrapI32 (16 - 1) = 15 := by decide
  by_cases h : b.val + 31 ≤ 2147483647
  · left
    refine ⟨h, ?_⟩
    have e1 : wrapI32 (b.val + 16) = b.val + 16 := wrapI32_of_range _ (by omega) (by omega)
    have e3 : wrapI32 (b.val + 16 + 15) = b.val + 31 := by
      rw [wrapI32_of_range _ (by omega) (by omega)]; omega
    rw [e1, e2, e3, tdiv16_nonneg _ (by omega)]
    rw [wrapI32_of_range ((b.val + 31) / 16) (by omega) (by omega)]
    rw [wrapI32_of_range _ (by omega) (by omega)]
  · right
    refine ⟨by omega, ?_⟩
    rw [e2]
    have ht : wrapI32 (wrapI32 (b.val + 16) + 15) < 0 := by
      unfold wrapI32; omega
    have ht2 := wrapI32_range (wrapI32 (b.val + 16) + 15)
    generalize wrapI32 (wrapI32 (b.val + 16) + 15) = t at ht ht2
    rw [tdiv16_neg t ht]
    rw [wrapI32_of_range (-(-t / 16)) (by omega) (by omega)]
    rw [wrapI32_of_range _ (by omega) (by omega)]
    omega

theorem PadRequest_eq (b : i32) :
    PadRequest b =
      if (MultipleOf (i32.add b PadBytes) Alignment).val > 0
      then .ok (MultipleOf (i32.add b PadBytes) Alignment)
      else .error Fault.PadRequest_positive := rfl

/-- Without overflow `PadRequest` passes its assertion. -/
theorem PadRequest_ok (b : i32) (hb : 0 < b.val) (hov : b.val + 31 ≤ 2147483647) :
    ∃ w : i32, PadRequest b = .ok w ∧ w.val = (b.val + 31) / 16 * 16 := by
  rcases padded_val_cases b hb with ⟨_, h⟩ | ⟨h, _⟩
  · refine ⟨MultipleOf (i32.add b PadBytes) Alignment, ?_, h⟩
    rw [PadRequest_eq, if_pos]
    rw [h]; omega
  · omega

/-- When `PadRequest` passes its assertion on a positive request, there was no
overflow and the value is the request plus the Header, rounded up. -/
theorem PadRequest_ok_inv (b w : i32) (hb : 0 < b.val) (h : PadRequest b = .ok w) :
    b.val + 31 ≤ 2147483647 ∧ w.val = (b.val + 31) / 16 * 16 := by
  rw [PadRequest_eq] at h
  rcases padded_val_cases b hb with ⟨h1, h2⟩ | ⟨_, h2⟩
  · refine ⟨h1, ?_⟩
    split at h
    · cases h; exact h2
    · cases h
  · rw [if_neg (by omega)] at h
    cases h

/-- A padded size satisfies the size part of the Header invariant. -/
theorem PadRequest_ok_bounds (b w : i32) (hb : 0 < b.val) (h : PadRequest b = .ok w) :
    b.val + 16 ≤ w.val ∧ w.val < b.val + 32 ∧ w.val % 16 = 0 ∧ 17 ≤ w.val := by
  obtain ⟨_, h2⟩ := PadRequest_ok_inv b w hb h
  omega

/-! ## The facade: auxiliary facts -/

theorem InRange_bounds (t : i32) (h : InRange t = true) : 0 ≤ t.val ∧ t.val < 5 := by
  have hr := t.property
  have h5 : NumAllocators.toU32 = 5 := by decide
  unfold InRange at h
  rw [h5] at h
  simp only [decide_eq_true_eq, i32.toU32] at h
  omega

theorem ValidAllocator_bounds {σ : Type} (s : State σ) (t : i32)
    (h : ValidAllocator s t = true) : 0 ≤ t.val ∧ t.val < 5 := by
  unfold ValidAllocator at h
  rw [Bool.and_eq_true] at h
  exact InRange_bounds t h.1

theorem stamp_hdr_same (m : Memory) (hdr : Nat) (size type : i32) :
    ((m.stamp hdr size type).hdr hdr).size = size ∧
      ((m.stamp hdr size type).hdr hdr).type = type := by
  simp [Memory.stamp]

/-- What a successful `AllocDispatch` leaves behind. -/
theorem AllocDispatch_ok {σ : Type} (env : Env σ) (s : State σ) (type w : i32) (p : Nat)
    (s1 : State σ) (h : AllocDispatch env s type w = .ok (p, s1)) :
    p = ((env.ms_tables (row type)).Alloc (s.ms_allocators (row type)) s.mem w).1
          + sizeofHeader ∧
      IsAligned p = true ∧
      (s1.mem.hdr (p - sizeofHeader)).size = w ∧ (s1.mem.hdr (p - sizeofHeader)).type = type ∧
      s1.log = s.log ++ [Event.stratAlloc type w, Event.stamp (p - sizeofHeader) w type]
        ++ (if (env.ENABLE_LEAK_TRACKER && (type != Alloc_Debug)) = true
            then [Event.OnAlloc (p - sizeofHeader) w] else []) := by
  unfold AllocDispatch at h
  simp only at h
  split at h
  · cases h
  · split at h
    · cases h
    · rename_i h1 h2
      simp only [Except.ok.injEq, Prod.mk.injEq] at h
      obtain ⟨hp, hs⟩ := h
      subst hp
      subst hs
      rw [Bool.not_eq_false] at h2
      rw [Nat.add_sub_cancel]
      exact ⟨rfl, h2, (stamp_hdr_same _ _ _ _).1, (stamp_hdr_same _ _ _ _).2, rfl⟩

/-- What a successful `ReallocDispatch` leaves behind. -/
theorem ReallocDispatch_ok {σ : Type} (env : Env σ) (s : State σ) (hdr : Nat) (w : i32)
    (p : Nat) (s1 : State σ) (h : ReallocDispatch env s hdr w = .ok (p, s1)) :
    ValidAllocator s (s.mem.hdr hdr).type = true ∧
      p = ((env.ms_tables (row (s.mem.hdr hdr).type)).Realloc
            (s.ms_allocators (row (s.mem.hdr hdr).type)) s.mem hdr w).1 + sizeofHeader ∧
      IsAligned p = true ∧
      (s1.mem.hdr (p - sizeofHeader)).size = w ∧
      (s1.mem.hdr (p - sizeofHeader)).type = (s.mem.hdr hdr).type ∧
      s1.log = s.log ++ [Event.stratRealloc (s.mem.hdr hdr).type hdr w,
          Event.stamp (p - sizeofHeader) w (s.mem.hdr hdr).type]
        ++ (if (env.ENABLE_LEAK_TRACKER && ((s.mem.hdr hdr).type != Alloc_Debug)) = true
            then [Event.OnRealloc hdr (p - sizeofHeader) w] else []) := by
  unfold ReallocDispatch at h
  simp only at h
  split at h
  · cases h
  · split at h
    · cases h
    · split at h
      · cases h
      · split at h
        · cases h
        · rename_i h1 h2 h3 h4
          simp only [Except.ok.injEq, Prod.mk.injEq] at h
          obtain ⟨hp, hs⟩ := h
          subst hp
          subst hs
          rw [Bool.not_eq_false] at h1 h4
          rw [Nat.add_sub_cancel]
          exact ⟨h1, rfl, h4, (stamp_hdr_same _ _ _ _).1, (stamp_hdr_same _ _ _ _).2, rfl⟩

/-- The ways in which `Alloc` returns. -/
theorem Alloc_ok_cases {σ : Type} (env : Env σ) (s : State σ) (type want : i32) (p : Nat)
    (s1 : State σ) (h : Alloc env s type want = .ok (p, s1)) :
    ValidAllocator s type = true ∧
      ((want.val = 0 ∧ p = 0 ∧ s1 = s) ∨
        (0 < want.val ∧ ∃ w, PadRequest want = .ok w ∧
          AllocDispatch env s type w = .ok (p, s1))) := by
  unfold Alloc at h
  split at h
  · cases h
  · rename_i hv
    rw [Bool.not_eq_false] at hv
    refine ⟨hv, ?_⟩
    split at h
    · cases h
    · rename_i h0
      split at h
      · rename_i hpos
        right
        refine ⟨hpos, ?_⟩
        split at h
        · cases h
        · rename_i w hw
          exact ⟨w, hw, h⟩
      · rename_i hpos
        left
        simp only [Except.ok.injEq, Prod.mk.injEq] at h
        refine ⟨by omega, h.1.symm, h.2.symm⟩

/-- The ways in which `Free` returns. -/
theorem Free_ok_cases {σ : Type} (env : Env σ) (s : State σ) (prev : Nat) (s1 : State σ)
    (h : Free env s prev = .ok s1) :
    (prev = 0 ∧ s1 = s) ∨
      (prev ≠ 0 ∧ s1.log = s.log ++ [Event.stratFree (s.mem.hdr (prev - sizeofHeader)).type
          (prev - sizeofHeader)]
        ++ (if (env.ENABLE_LEAK_TRACKER &&
              ((s.mem.hdr (prev - sizeofHeader)).type != Alloc_Debug)) = true
            then [Event.OnFree (prev - sizeofHeader)] else [])) := by
  unfold Free at h
  split at h
  · rename_i hp
    right
    refine ⟨hp, ?_⟩
    split at h
    · cases h
    · simp only at h
      split at h
      · cases h
      · split at h
        · cases h
        · simp only [Except.ok.injEq] at h
          subst h
          rfl
  · rename_i hp
    left
    simp only [Except.ok.injEq] at h
    exact ⟨not_not.1 hp, h.symm⟩

/-- The ways in which `Realloc` returns. -/
theorem Realloc_ok_cases {σ : Type} (env : Env σ) (s : State σ) (type : i32) (prev : Nat)
    (want : i32) (p : Nat) (s1 : State σ) (h : Realloc env s type prev want = .ok (p, s1)) :
    (prev = 0 ∧ Alloc env s type want = .ok (p, s1)) ∨
      (prev ≠ 0 ∧ want.val = 0 ∧ p = 0 ∧ Free env s prev = .ok s1) ∨
      (prev ≠ 0 ∧ 0 < want.val ∧
        want = i32.sub (s.mem.hdr (prev - sizeofHeader)).size PadBytes ∧ p = prev ∧ s1 = s) ∨
      (prev ≠ 0 ∧ 0 < want.val ∧
        want ≠ i32.sub (s.mem.hdr (prev - sizeofHeader)).size PadBytes ∧
        ∃ w, PadRequest want = .ok w ∧
          ReallocDispatch env s (prev - sizeofHeader) w = .ok (p, s1)) := by
  unfold Realloc at h
  split at h
  · cases h
  · split at h
    · cases h
    · rename_i h0
      split at h
      · rename_i hp
        exact Or.inl ⟨hp, h⟩
      · rename_i hp
        right
        split at h
        · rename_i hz
          left
          split at h
          · cases h
          · rename_i s2 hf
            simp only [Except.ok.injEq, Prod.mk.injEq] at h
            obtain ⟨h1, h2⟩ := h
            subst h1
            subst h2
            exact ⟨hp, hz, rfl, hf⟩
        · rename_i hz
          right
          have hpos : 0 < want.val := by omega
          simp only at h
          split at h
          · cases h
          · split at h
            · rename_i hne
              right
              refine ⟨hp, hpos, hne, ?_⟩
              split at h
              · cases h
              · rename_i w hw
                exact ⟨w, hw, h⟩
            · rename_i heq
              left
              simp only [Except.ok.injEq, Prod.mk.injEq] at h
              exact ⟨hp, hpos, not_not.1 heq, h.1.symm, h.2.symm⟩

/-- A stamp recorded by a successful `Alloc` is an old one or a valid one. -/
theorem Alloc_stamps {σ : Type} (env : Env σ) (s : State σ) (type want : i32) (p : Nat)
    (s1 : State σ) (h : Alloc env s type want = .ok (p, s1)) (hdr : Nat) (size kind : i32)
    (hm : Event.stamp hdr size kind ∈ s1.log) :
    Event.stamp hdr size kind ∈ s.log ∨
      (17 ≤ size.val ∧ size.val % 16 = 0 ∧ 0 ≤ kind.val ∧ kind.val < 5) := by
  obtain ⟨hv, hc⟩ := Alloc_ok_cases env s type want p s1 h
  rcases hc with ⟨_, _, hs⟩ | ⟨hpos, w, hw, hd⟩
  · left
    rw [hs] at hm
    exact hm
  · obtain ⟨_, _, _, _, hlog⟩ := AllocDispatch_ok env s type w p s1 hd
    rw [hlog] at hm
    have hb := PadRequest_ok_bounds want w hpos hw
    have hk := ValidAllocator_bounds s type hv
    rcases List.mem_append.1 hm with hm | hm
    · rcases List.mem_append.1 hm with hm | hm
      · exact Or.inl hm
      · simp only [List.mem_cons, List.not_mem_nil, or_false] at hm
        rcases hm with hm | hm
        · cases hm
        · cases hm
          right
          omega
    · split at hm
      · simp at hm
      · simp at hm

/-- A successful `Free` records no stamp. -/
theorem Free_stamps {σ : Type} (env : Env σ) (s : State σ) (prev : Nat) (s1 : State σ)
    (h : Free env s prev = .ok s1) (hdr : Nat) (size kind : i32)
    (hm : Event.stamp hdr size kind ∈ s1.log) : Event.stamp hdr size kind ∈ s.log := by
  rcases Free_ok_cases env s prev s1 h with ⟨_, hs⟩ | ⟨_, hlog⟩
  · rw [hs] at hm
    exact hm
  · rw [hlog] at hm
    rcases List.mem_append.1 hm with hm | hm
    · rcases List.mem_append.1 hm with hm | hm
      · exact hm
      · simp at hm
    · split at hm
      · simp at hm
      · simp at hm

/-- A stamp recorded by a successful `Realloc` is an old one or a valid one. -/
theorem Realloc_stamps {σ : Type} (env : Env σ) (s : State σ) (type : i32) (prev : Nat)
    (want : i32) (p : Nat) (s1 : State σ) (h : Realloc env s type prev want = .ok (p, s1))
    (hdr : Nat) (size kind : i32) (hm : Event.stamp hdr size kind ∈ s1.log) :
    Event.stamp hdr size kind ∈ s.log ∨
      (17 ≤ size.val ∧ size.val % 16 = 0 ∧ 0 ≤ kind.val ∧ kind.val < 5) := by
  rcases Realloc_ok_cases env s type prev want p s1 h with
    ⟨_, ha⟩ | ⟨_, _, _, hf⟩ | ⟨_, _, _, _, hs⟩ | ⟨_, hpos, _, w, hw, hd⟩
  · exact Alloc_stamps env s type want p s1 ha hdr size kind hm
  · exact Or.inl (Free_stamps env s prev s1 hf hdr size kind hm)
  · left
    rw [hs] at hm
    exact hm
  · obtain ⟨hv, _, _, _, _, hlog⟩ := ReallocDispatch_ok env s _ w p s1 hd
    rw [hlog] at hm
    have hb := PadRequest_ok_bounds want w hpos hw
    have hk := ValidAllocator_bounds s _ hv
    rcases List.mem_append.1 hm with hm | hm
    · rcases List.mem_append.1 hm with hm | hm
      · exact Or.inl hm
      · simp only [List.mem_cons, List.not_mem_nil, or_false] at hm
        rcases hm with hm | hm
        · cases hm
        · cases hm
          right
          omega
    · split at hm
      · simp at hm
      · simp at hm

/-- A stamp recorded by a successful call is an old one or a valid one. -/
theorem step_stamps {σ : Type} (env : Env σ) (s : State σ) (op : Op) (s1 : State σ)
    (h : step env s op = .ok s1) (hdr : Nat) (size kind : i32)
    (hm : Event.stamp hdr size kind ∈ s1.log) :
    Event.stamp hdr size kind ∈ s.log ∨
      (17 ≤ size.val ∧ size.val % 16 = 0 ∧ 0 ≤ kind.val ∧ kind.val < 5) := by
  cases op with
  | Alloc type want =>
    simp only [step] at h
    split at h
    · cases h
    · rename_i r hr
      simp only [Except.ok.injEq] at h
      subst h
      exact Alloc_stamps env s type want r.1 r.2 hr hdr size kind hm
  | Realloc type prev want =>
    simp only [step] at h
    split at h
    · cases h
    · rename_i r hr
      simp only [Except.ok.injEq] at h
      subst h
      exact Realloc_stamps env s type prev want r.1 r.2 hr hdr size kind hm
  | Free prev =>
    exact Or.inl (Free_stamps env s prev s1 h hdr size kind hm)

/-- The stamps recorded by a successful sequence of calls are old ones or valid
ones. -/
theorem run_stamps {σ : Type} (env : Env σ) (ops : List Op) :
    ∀ (s s1 : State σ), run env s ops = .ok s1 → ∀ (hdr : Nat) (size kind : i32),
      Event.stamp hdr size kind ∈ s1.log →
      Event.stamp hdr size kind ∈ s.log ∨
        (17 ≤ size.val ∧ size.val % 16 = 0 ∧ 0 ≤ kind.val ∧ kind.val < 5) := by
  induction ops with
  | nil =>
    intro s s1 h hdr size kind hm
    simp only [run, Except.ok.injEq] at h
    subst h
    exact Or.inl hm
  | cons op ops ih =>
    intro s s1 h hdr size kind hm
    simp only [run] at h
    split at h
    · cases h
    · rename_i s2 hs2
      rcases ih s2 s1 h hdr size kind hm with h1 | h1
      · exact step_stamps env s op s2 hs2 hdr size kind h1
      · exact Or.inr h1

/-- `Realloc` with a non-null pointer and a request of zero bytes is `Free`. -/
theorem Realloc_zero_eq {σ : Type} (env : Env σ) (s : State σ) (type : i32) (prev : Nat)
    (hv : ValidAllocator s type = true) (hp : prev ≠ 0) :
    Realloc env s type prev 0 =
      Except.map (fun s1 => (0, s1)) (Free env s prev) := by
  simp only [Realloc, hv, hp, zero_val, Bool.true_eq_false, if_false, ge_iff_le, le_refl,
    not_true_eq_false, if_true]
  cases Free env s prev <;> rfl

/-- `Free` of a block that passes its assertions. -/
theorem Free_eq_of_asserts {σ : Type} (env : Env σ) (s : State σ) (prev : Nat)
    (hp : prev ≠ 0) (hal : IsAligned prev = true)
    (hsz : 0 < (s.mem.hdr (prev - sizeofHeader)).size.val)
    (hk : ValidAllocator s (s.mem.hdr (prev - sizeofHeader)).type = true) :
    Free env s prev = .ok
      { s with
        ms_allocators := Function.update s.ms_allocators
          (row (s.mem.hdr (prev - sizeofHeader)).type)
          ((env.ms_tables (row (s.mem.hdr (prev - sizeofHeader)).type)).Free
            (s.ms_allocators (row (s.mem.hdr (prev - sizeofHeader)).type)) s.mem
            (prev - sizeofHeader)).1
        mem := ((env.ms_tables (row (s.mem.hdr (prev - sizeofHeader)).type)).Free
            (s.ms_allocators (row (s.mem.hdr (prev - sizeofHeader)).type)) s.mem
            (prev - sizeofHeader)).2
        ms_tracker :=
          if (env.ENABLE_LEAK_TRACKER &&
              ((s.mem.hdr (prev - sizeofHeader)).type != Alloc_Debug)) = true
          then OnFree s.ms_tracker (prev - sizeofHeader) else s.ms_tracker
        log := s.log ++ [Event.stratFree (s.mem.hdr (prev - sizeofHeader)).type
            (prev - sizeofHeader)]
          ++ (if (env.ENABLE_LEAK_TRACKER &&
                ((s.mem.hdr (prev - sizeofHeader)).type != Alloc_Debug)) = true
              then [Event.OnFree (prev - sizeofHeader)] else []) } := by
  unfold Free
  simp only [hp, hal, hsz, hk, ne_eq, not_false_eq_true, if_true, not_true_eq_false, if_false,
    gt_iff_lt, Bool.true_eq_false]

theorem OnFree_removes (t : List LeakEntry) (hdr : Nat) :
    ∀ e ∈ OnFree t hdr, e.address ≠ hdr := by
  intro e he
  unfold OnFree at he
  simpa using (List.mem_filter.1 he).2

/-- A `ReallocDispatch` that returns has extended the call log. -/
theorem ReallocDispatch_ne {σ : Type} (env : Env σ) (s : State σ) (hdr : Nat) (w : i32)
    (p : Nat) : ReallocDispatch env s hdr w ≠ .ok (p, s) := by
  intro h
  obtain ⟨_, _, _, _, _, hlog⟩ := ReallocDispatch_ok env s hdr w p s h
  have hlen := congrArg List.length hlog
  simp only [List.length_append, List.length_cons, List.length_nil] at hlen
  omega

/-- The usable size recorded by a Header that satisfies the Header invariant. -/
theorem has_val (size : i32) (h : 17 ≤ size.val) :
    (i32.sub size PadBytes).val = size.val - 16 := by
  have hr := size.property
  simp only [i32.sub, i32.ofInt, PadBytes_val]
  exact wrapI32_of_range _ (by omega) (by omega)

/-- Past the fast-path test, `Realloc` does not look at the caller-supplied
kind. -/
theorem Realloc_slow_eq {σ : Type} (env : Env σ) (s : State σ) (type : i32) (prev : Nat)
    (bytes w : i32) (hv : ValidAllocator s type = true) (hp : prev ≠ 0) (hb : 0 < bytes.val)
    (hhas : 0 < (i32.sub (s.mem.hdr (prev - sizeofHeader)).size PadBytes).val)
    (hne : bytes ≠ i32.sub (s.mem.hdr (prev - sizeofHeader)).size PadBytes)
    (hw : PadRequest bytes = .ok w) :
    Realloc env s type prev bytes = ReallocDispatch env s (prev - sizeofHeader) w := by
  have h0 : 0 ≤ bytes.val := by omega
  have h1 : bytes.val ≠ 0 := by omega
  simp [Realloc, hv, h0, h1, hp, hhas, hne, hw]

/-- `AllocDispatch` when the strategy answers with a non-null, aligned
Header. -/
theorem AllocDispatch_eq {σ : Type} (env : Env σ) (s : State σ) (type w : i32) (hdr : Nat)
    (hstrat : ((env.ms_tables (row type)).Alloc (s.ms_allocators (row type)) s.mem w).1 = hdr)
    (hnn : hdr ≠ 0) (hal : IsAligned (hdr + sizeofHeader) = true) :
    ∃ s1 : State σ, AllocDispatch env s type w = .ok (hdr + sizeofHeader, s1) ∧
      s1.ms_allocators = Function.update s.ms_allocators (row type)
        ((env.ms_tables (row type)).Alloc (s.ms_allocators (row type)) s.mem w).2.1 := by
  unfold AllocDispatch
  simp only [hstrat, hnn, hal, if_false]
  exact ⟨_, rfl, rfl⟩

/-- `AllocDispatch` when the strategy answers with null, or with a Header whose
user pointer is not aligned. -/
theorem AllocDispatch_faults {σ : Type} (env : Env σ) (s : State σ) (type w : i32) :
    (((env.ms_tables (row type)).Alloc (s.ms_allocators (row type)) s.mem w).1 = 0 →
      AllocDispatch env s type w = .error Fault.Alloc_hdr) ∧
    (((env.ms_tables (row type)).Alloc (s.ms_allocators (row type)) s.mem w).1 ≠ 0 →
      IsAligned (((env.ms_tables (row type)).Alloc (s.ms_allocators (row type)) s.mem w).1
        + sizeofHeader) = false →
      AllocDispatch env s type w = .error Fault.Alloc_IsAligned) := by
  constructor
  · intro h
    simp [AllocDispatch, h]
  · intro h1 h2
    simp [AllocDispatch, h1, h2]

/-- `Alloc` of a positive size is the dispatch of the padded size. -/
theorem Alloc_pos_eq {σ : Type} (env : Env σ) (s : State σ) (type bytes w : i32)
    (hv : ValidAllocator s type = true) (hb : 0 < bytes.val) (hw : PadRequest bytes = .ok w) :
    Alloc env s type bytes = AllocDispatch env s type w := by
  have h0 : 0 ≤ bytes.val := by omega
  simp [Alloc, hv, hb, h0, hw]

/-- `ReallocDispatch` when its two assertions on the kind pass and the strategy
answers with a non-null, aligned Header. -/
theorem ReallocDispatch_eq {σ : Type} (env : Env σ) (s : State σ) (hdr : Nat) (w : i32)
    (newHdr : Nat) (hk : ValidAllocator s (s.mem.hdr hdr).type = true)
    (hinit : s.ms_init = true ∨ (s.mem.hdr hdr).type = Alloc_Stdlib)
    (hnew : ((env.ms_tables (row (s.mem.hdr hdr).type)).Realloc
      (s.ms_allocators (row (s.mem.hdr hdr).type)) s.mem hdr w).1 = newHdr)
    (hnn : newHdr ≠ 0) (hal : IsAligned (newHdr + sizeofHeader) = true) :
    ∃ s1 : State σ, ReallocDispatch env s hdr w = .ok (newHdr + sizeofHeader, s1) ∧
      s1.ms_allocators = Function.update s.ms_allocators (row (s.mem.hdr hdr).type)
        ((env.ms_tables (row (s.mem.hdr hdr).type)).Realloc
          (s.ms_allocators (row (s.mem.hdr hdr).type)) s.mem hdr w).2.1 := by
  unfold ReallocDispatch
  simp only [hnew, hk, hinit, hnn, hal, if_false, not_true_eq_false, Bool.true_eq_false]
  exact ⟨_, rfl, rfl⟩

/-- `ReallocDispatch` when its two assertions on the kind pass and the strategy
answers with null, or with a Header whose user pointer is not aligned. -/
theorem ReallocDispatch_faults {σ : Type} (env : Env σ) (s : State σ) (hdr : Nat) (w : i32)
    (hk : ValidAllocator s (s.mem.hdr hdr).type = true)
    (hinit : s.ms_init = true ∨ (s.mem.hdr hdr).type = Alloc_Stdlib) :
    (((env.ms_tables (row (s.mem.hdr hdr).type)).Realloc
        (s.ms_allocators (row (s.mem.hdr hdr).type)) s.mem hdr w).1 = 0 →
      ReallocDispatch env s hdr w = .error Fault.Realloc_newHdr) ∧
    (((env.ms_tables (row (s.mem.hdr hdr).type)).Realloc
        (s.ms_allocators (row (s.mem.hdr hdr).type)) s.mem hdr w).1 ≠ 0 →
      IsAligned (((env.ms_tables (row (s.mem.hdr hdr).type)).Realloc
        (s.ms_allocators (row (s.mem.hdr hdr).type)) s.mem hdr w).1 + sizeofHeader) = false →
      ReallocDispatch env s hdr w = .error Fault.Realloc_IsAligned) := by
  constructor
  · intro h
    simp [ReallocDispatch, hk, hinit, h]
  · intro h1 h2
    simp [ReallocDispatch, hk, hinit, h1, h2]

/-! ## The claims about the facade -/

/-- C1. For every valid allocator kind, `Alloc(kind, 0)` returns null and
leaves the whole state as it was: the call log gains no strategy call, no
Header stamp and no tracker notification, and memory is untouched. -/
theorem C1_Alloc_zero_returns_null {σ : Type} (env : Env σ) (s : State σ) (type : i32)
    (hv : ValidAllocator s type = true) :
    Alloc env s type 0 = .ok (0, s) := by
  simp [Alloc, hv, zero_val]

theorem C1_Alloc_zero_returns_null_witness :
    ValidAllocator sampleState Alloc_Linear = true ∧
      Alloc sampleEnv sampleState Alloc_Linear 0 = .ok (0, sampleState) :=
  ⟨by decide, C1_Alloc_zero_returns_null sampleEnv sampleState Alloc_Linear (by decide)⟩

/-- C2 (as stated, refuted). `Alloc(Stdlib, 0)` on the initialized sample
registry: the kind is valid and `0 <= 0 <= capacity(Stdlib) = 0`, yet the call
returns null, stamps nothing (the state is unchanged), and no Header with
`size >= 0 + sizeof(Header)` precedes the returned pointer. -/
theorem C2_counterexample :
    ValidAllocator sampleState Alloc_Stdlib = true ∧
      0 ≤ (0 : i32).val ∧ (0 : i32).val ≤ (ms_capacities (row Alloc_Stdlib)).val ∧
      Alloc sampleEnv sampleState Alloc_Stdlib 0 = .ok (0, sampleState) ∧
      ¬ (∃ (p : Nat) (s1 : State Nat),
          Alloc sampleEnv sampleState Alloc_Stdlib 0 = .ok (p, s1) ∧ IsAligned p = true ∧
          (s1.mem.hdr (p - sizeofHeader)).size.val ≥ (0 : i32).val + PadBytes.val ∧
          (s1.mem.hdr (p - sizeofHeader)).type = Alloc_Stdlib) := by
  have hv : ValidAllocator sampleState Alloc_Stdlib = true := by decide
  have h : Alloc sampleEnv sampleState Alloc_Stdlib 0 = .ok (0, sampleState) := by
    simp [Alloc, hv, zero_val]
  refine ⟨by decide, by decide, by decide, h, ?_⟩
  rintro ⟨p, s1, h1, _, h2, _⟩
  rw [h] at h1
  simp only [Except.ok.injEq, Prod.mk.injEq] at h1
  obtain ⟨hp, hs⟩ := h1
  subst hp
  subst hs
  revert h2
  decide

/-- C2 (amended). For every valid kind and every `bytes > 0` whose padding
does not overflow, `Alloc(kind, bytes)` hands the padded request `w =
PadRequest(bytes) >= bytes + sizeof(Header)` to the strategy of that kind.
Every pointer it returns is non-null and aligned to 16 bytes, it is the user
pointer of the Header the strategy answered with, and that Header reports
`size = w >= bytes + sizeof(Header)` and the requested kind. The call fails
`ASSERT(hdr)` when the strategy answers null, fails `ASSERT(IsAligned(hdr +
1))` when the user pointer of the answer is not aligned, and returns
otherwise. `Alloc(kind, 0)` returns null and leaves the state as it was. -/
theorem C2_Alloc_returns_aligned_stamped_block {σ : Type} (env : Env σ) (s : State σ)
    (type bytes : i32) (hv : ValidAllocator s type = true) (hb : 0 < bytes.val)
    (hov : bytes.val + PadBytes.val + 15 ≤ 2147483647) :
    ∃ w : i32, PadRequest bytes = .ok w ∧ w.val ≥ bytes.val + PadBytes.val ∧
      (∀ (p : Nat) (s1 : State σ), Alloc env s type bytes = .ok (p, s1) →
        p ≠ 0 ∧ IsAligned p = true ∧ p % 16 = 0 ∧
        p = ((env.ms_tables (row type)).Alloc (s.ms_allocators (row type)) s.mem w).1
          + sizeofHeader ∧
        (s1.mem.hdr (p - sizeofHeader)).size = w ∧
        (s1.mem.hdr (p - sizeofHeader)).size.val ≥ bytes.val + PadBytes.val ∧
        (s1.mem.hdr (p - sizeofHeader)).type = type) ∧
      (((env.ms_tables (row type)).Alloc (s.ms_allocators (row type)) s.mem w).1 = 0 →
        Alloc env s type bytes = .error Fault.Alloc_hdr) ∧
      (((env.ms_tables (row type)).Alloc (s.ms_allocators (row type)) s.mem w).1 ≠ 0 →
        IsAligned (((env.ms_tables (row type)).Alloc (s.ms_allocators (row type)) s.mem w).1
          + sizeofHeader) = false →
        Alloc env s type bytes = .error Fault.Alloc_IsAligned) ∧
      (((env.ms_tables (row type)).Alloc (s.ms_allocators (row type)) s.mem w).1 ≠ 0 →
        IsAligned (((env.ms_tables (row type)).Alloc (s.ms_allocators (row type)) s.mem w).1
          + sizeofHeader) = true →
        ∃ s1 : State σ, Alloc env s type bytes
          = .ok (((env.ms_tables (row type)).Alloc (s.ms_allocators (row type)) s.mem w).1
              + sizeofHeader, s1)) ∧
      Alloc env s type 0 = .ok (0, s) := by
  have hP : PadBytes.val = 16 := PadBytes_val
  obtain ⟨w, hw, _⟩ := PadRequest_ok bytes hb (by omega)
  have hbd := PadRequest_ok_bounds bytes w hb hw
  have hA := Alloc_pos_eq env s type bytes w hv hb hw
  obtain ⟨f1, f2⟩ := AllocDispatch_faults env s type w
  refine ⟨w, hw, by omega, ?_, fun h => by rw [hA]; exact f1 h,
    fun h1 h2 => by rw [hA]; exact f2 h1 h2, ?_, ?_⟩
  · intro p s1 h
    rw [hA] at h
    obtain ⟨h1, h2, h3, h4, _⟩ := AllocDispatch_ok env s type w p s1 h
    have hS : sizeofHeader = 16 := rfl
    refine ⟨by omega, h2, (IsAligned_iff _).1 h2, h1, h3, ?_, h4⟩
    rw [h3]
    omega
  · intro hnn hal
    obtain ⟨s1, hs1, _⟩ := AllocDispatch_eq env s type w _ rfl hnn hal
    exact ⟨s1, by rw [hA]; exact hs1⟩
  · simp [Alloc, hv, zero_val]

/-- On the sample registry. `Alloc(Linear, 17)` returns the user pointer 131088
of the block the Linear row answers with, aligned, its Header stamped with 48
and Linear. `Alloc(Linear, 4096)`, which the row answers with null, fails
`ASSERT(hdr)`. With the strategies whose blocks are misaligned,
`Alloc(Linear, 17)` fails `ASSERT(IsAligned(hdr + 1))`. -/
theorem C2_Alloc_returns_aligned_stamped_block_witness :
    (∃ s1 : State Nat, Alloc sampleEnv sampleState Alloc_Linear 17 = .ok (131088, s1) ∧
      IsAligned 131088 = true ∧ 131088 % 16 = 0 ∧
      (s1.mem.hdr (131088 - sizeofHeader)).size = 48 ∧
      (s1.mem.hdr (131088 - sizeofHeader)).size.val ≥ (17 : i32).val + PadBytes.val ∧
      (s1.mem.hdr (131088 - sizeofHeader)).type = Alloc_Linear) ∧
    Alloc sampleEnv sampleState Alloc_Linear 4096 = .error Fault.Alloc_hdr ∧
    Alloc sampleEnvSkew sampleState Alloc_Linear 17 = .error Fault.Alloc_IsAligned := by
  refine ⟨?_, ?_, ?_⟩
  · obtain ⟨w, hw, _, hret, _, _, hex, _⟩ :=
      C2_Alloc_returns_aligned_stamped_block sampleEnv sampleState Alloc_Linear 17 (by decide) (by
          decide) (by decide)
    have e : PadRequest 17 = .ok 48 := rfl
    rw [e] at hw
    cases hw
    obtain ⟨s1, hs1⟩ := hex (by decide) (by decide)
    have hp : ((sampleEnv.ms_tables (row Alloc_Linear)).Alloc
        (sampleState.ms_allocators (row Alloc_Linear)) sampleState.mem 48).1 + sizeofHeader
        = 131088 := by decide
    rw [hp] at hs1
    obtain ⟨_, h2, h3, _, h5, h6, h7⟩ := hret 131088 s1 hs1
    exact ⟨s1, hs1, h2, h3, h5, h6, h7⟩
  · obtain ⟨w, hw, _, _, hnull, _⟩ :=
      C2_Alloc_returns_aligned_stamped_block sampleEnv sampleState Alloc_Linear 4096 (by decide)
          (by decide) (by decide)
    have e : PadRequest 4096 = .ok 4112 := rfl
    rw [e] at hw
    cases hw
    exact hnull (by decide)
  · obtain ⟨w, hw, _, _, _, hmis, _⟩ :=
      C2_Alloc_returns_aligned_stamped_block sampleEnvSkew sampleState Alloc_Linear 17 (by decide)
          (by decide) (by decide)
    have e : PadRequest 17 = .ok 48 := rfl
    rw [e] at hw
    cases hw
    exact hmis (by decide) (by decide)

/-- C4. Header invariant. Every Header stamped by the facade has
`size >= sizeof(Header) + 1`, `size % 16 == 0` and a kind in
`[0, NumAllocators)`: (1) if the stamps recorded so far satisfy this, so do the
stamps recorded after every sequence of `Alloc`/`Realloc`/`Free` calls that
runs to its end; (2) the Header that precedes the pointer returned by a
successful `Alloc` satisfies it; (3) so does the Header that precedes the
pointer returned by a `Realloc` that dispatched to a strategy. -/
theorem C4_Header_invariant {σ : Type} (env : Env σ) (s : State σ) :
    (∀ (ops : List Op) (s1 : State σ),
      (∀ (hdr : Nat) (size kind : i32), Event.stamp hdr size kind ∈ s.log →
        size.val ≥ sizeofHeader + 1 ∧ size.val % Alignment.val = 0 ∧
          0 ≤ kind.val ∧ kind.val < NumAllocators.val) →
      run env s ops = .ok s1 →
      ∀ (hdr : Nat) (size kind : i32), Event.stamp hdr size kind ∈ s1.log →
        size.val ≥ sizeofHeader + 1 ∧ size.val % Alignment.val = 0 ∧
          0 ≤ kind.val ∧ kind.val < NumAllocators.val) ∧
    (∀ (type want : i32) (p : Nat) (s1 : State σ),
      Alloc env s type want = .ok (p, s1) → p ≠ 0 →
      (s1.mem.hdr (p - sizeofHeader)).size.val ≥ sizeofHeader + 1 ∧
        (s1.mem.hdr (p - sizeofHeader)).size.val % Alignment.val = 0 ∧
        0 ≤ (s1.mem.hdr (p - sizeofHeader)).type.val ∧
        (s1.mem.hdr (p - sizeofHeader)).type.val < NumAllocators.val) ∧
    (∀ (type : i32) (prev : Nat) (want : i32) (p : Nat) (s1 : State σ),
      Realloc env s type prev want = .ok (p, s1) → prev ≠ 0 → want.val ≠ 0 →
      want ≠ i32.sub (s.mem.hdr (prev - sizeofHeader)).size PadBytes →
      (s1.mem.hdr (p - sizeofHeader)).size.val ≥ sizeofHeader + 1 ∧
        (s1.mem.hdr (p - sizeofHeader)).size.val % Alignment.val = 0 ∧
        0 ≤ (s1.mem.hdr (p - sizeofHeader)).type.val ∧
        (s1.mem.hdr (p - sizeofHeader)).type.val < NumAllocators.val) := by
  have hA : Alignment.val = 16 := Alignment_val
  have hN : NumAllocators.val = 5 := by decide
  have hS : ((sizeofHeader : Nat) : Int) = 16 := by decide
  rw [hA, hN, hS]
  refine ⟨?_, ?_, ?_⟩
  · intro ops s1 hinv hrun hdr size kind hm
    rcases run_stamps env ops s s1 hrun hdr size kind hm with h | h
    · exact hinv hdr size kind h
    · omega
  · intro type want p s1 h hp
    obtain ⟨hv, hc⟩ := Alloc_ok_cases env s type want p s1 h
    rcases hc with ⟨_, h0, _⟩ | ⟨hpos, w, hw, hd⟩
    · exact absurd h0 hp
    · obtain ⟨_, _, h3, h4, _⟩ := AllocDispatch_ok env s type w p s1 hd
      have hb := PadRequest_ok_bounds want w hpos hw
      have hk := ValidAllocator_bounds s type hv
      rw [h3, h4]
      omega
  · intro type prev want p s1 h hprev hw0 hne
    rcases Realloc_ok_cases env s type prev want p s1 h with
      ⟨h0, _⟩ | ⟨_, h0, _, _⟩ | ⟨_, _, h0, _, _⟩ | ⟨_, hpos, _, w, hw, hd⟩
    · exact absurd h0 hprev
    · exact absurd h0 hw0
    · exact absurd h0 hne
    · obtain ⟨hv, _, _, h3, h4, _⟩ := ReallocDispatch_ok env s _ w p s1 hd
      have hb := PadRequest_ok_bounds want w hpos hw
      have hk := ValidAllocator_bounds s _ hv
      rw [h3, h4]
      omega

/-- The sequence `Alloc(Linear, 17)`, `Realloc(Linear, p, 100)`, `Free(q)` on
the sample registry runs to its end and records two valid stamps. -/
theorem C4_Header_invariant_witness :
    ∃ s1 : State Nat,
      run sampleEnv sampleState
        [Op.Alloc Alloc_Linear 17, Op.Realloc Alloc_Linear 131088 100, Op.Free 131136]
        = .ok s1 ∧
      s1.log = [Event.stratAlloc Alloc_Linear 48, Event.stamp 131072 48 Alloc_Linear,
        Event.OnAlloc 131072 48, Event.stratRealloc Alloc_Linear 131072 128,
        Event.stamp 131120 128 Alloc_Linear, Event.OnRealloc 131072 131120 128,
        Event.stratFree Alloc_Linear 131120, Event.OnFree 131120] ∧
      ∀ (hdr : Nat) (size kind : i32), Event.stamp hdr size kind ∈ s1.log →
        size.val ≥ sizeofHeader + 1 ∧ size.val % Alignment.val = 0 ∧
          0 ≤ kind.val ∧ kind.val < NumAllocators.val := by
  have h : ∃ s1 : State Nat,
      run sampleEnv sampleState
        [Op.Alloc Alloc_Linear 17, Op.Realloc Alloc_Linear 131088 100, Op.Free 131136]
        = .ok s1 ∧
      s1.log = [Event.stratAlloc Alloc_Linear 48, Event.stamp 131072 48 Alloc_Linear,
        Event.OnAlloc 131072 48, Event.stratRealloc Alloc_Linear 131072 128,
        Event.stamp 131120 128 Alloc_Linear, Event.OnRealloc 131072 131120 128,
        Event.stratFree Alloc_Linear 131120, Event.OnFree 131120] := ⟨_, rfl, by decide⟩
  obtain ⟨s1, hrun, hlog⟩ := h
  exact ⟨s1, hrun, hlog,
    (C4_Header_invariant sampleEnv sampleState).1 _ s1 (fun _ _ _ hm => by cases hm) hrun⟩

/-- C5. For every valid kind and every `bytes >= 0`, `Realloc(kind, null, bytes)`
is `Alloc(kind, bytes)`: the same result (pointer or failed assertion) and the
same final state, hence the same stamped Header, strategy call and tracker
notification; in particular `Realloc(kind, null, 0)` returns null. -/
theorem C5_Realloc_null_is_Alloc {σ : Type} (env : Env σ) (s : State σ) (type : i32)
    (bytes : i32) (hv : ValidAllocator s type = true) (hb : 0 ≤ bytes.val) :
    Realloc env s type 0 bytes = Alloc env s type bytes ∧
      Realloc env s type 0 0 = .ok (0, s) := by
  constructor
  · simp [Realloc, hv, hb]
  · simp [Realloc, Alloc, hv, zero_val]

theorem C5_Realloc_null_is_Alloc_witness :
    (Realloc sampleEnv sampleState Alloc_Linear 0 32
        = Alloc sampleEnv sampleState Alloc_Linear 32 ∧
      Realloc sampleEnv sampleState Alloc_Linear 0 0 = .ok (0, sampleState)) ∧
    ∃ s1, Alloc sampleEnv sampleState Alloc_Linear 32 = .ok (131088, s1) :=
  ⟨C5_Realloc_null_is_Alloc sampleEnv sampleState Alloc_Linear 32 (by decide) (by decide),
    ⟨_, rfl⟩⟩

/-- C6. For every valid kind and non-null pointer, `Realloc(kind, ptr, 0)`
returns null and does what `Free(ptr)` does (the same final state, or the same
failed assertion). For a block that passes the assertions of `Free` (aligned
pointer, positive Header size, valid Header kind) the call returns null, the
only strategy called is `Free` of the row named by the Header's kind, whatever
the caller-supplied kind, and, when the tracker is compiled in and the Header's
kind is not Debug, the tracker is notified and the ledger holds no entry for
the block afterwards. -/
theorem C6_Realloc_zero_is_Free {σ : Type} (env : Env σ) (s : State σ) (type : i32)
    (prev : Nat) (hv : ValidAllocator s type = true) (hp : prev ≠ 0) :
    Realloc env s type prev 0 = Except.map (fun s1 => (0, s1)) (Free env s prev) ∧
    (IsAligned prev = true → 0 < (s.mem.hdr (prev - sizeofHeader)).size.val →
      ValidAllocator s (s.mem.hdr (prev - sizeofHeader)).type = true →
      ∃ s1 : State σ, Free env s prev = .ok s1 ∧ Realloc env s type prev 0 = .ok (0, s1) ∧
        s1.ms_allocators = Function.update s.ms_allocators
          (row (s.mem.hdr (prev - sizeofHeader)).type)
          ((env.ms_tables (row (s.mem.hdr (prev - sizeofHeader)).type)).Free
            (s.ms_allocators (row (s.mem.hdr (prev - sizeofHeader)).type)) s.mem
            (prev - sizeofHeader)).1 ∧
        s1.log = s.log ++ [Event.stratFree (s.mem.hdr (prev - sizeofHeader)).type
            (prev - sizeofHeader)]
          ++ (if (env.ENABLE_LEAK_TRACKER &&
                ((s.mem.hdr (prev - sizeofHeader)).type != Alloc_Debug)) = true
              then [Event.OnFree (prev - sizeofHeader)] else []) ∧
        ((env.ENABLE_LEAK_TRACKER &&
            ((s.mem.hdr (prev - sizeofHeader)).type != Alloc_Debug)) = true →
          ∀ e ∈ s1.ms_tracker, e.address ≠ prev - sizeofHeader)) := by
  refine ⟨Realloc_zero_eq env s type prev hv hp, ?_⟩
  intro hal hsz hk
  have hF := Free_eq_of_asserts env s prev hp hal hsz hk
  refine ⟨_, hF, ?_, rfl, rfl, ?_⟩
  · rw [Realloc_zero_eq env s type prev hv hp, hF]
    rfl
  · intro ht e he
    simp only [ht, if_true] at he
    exact OnFree_removes _ _ e he

/-- On the sample registry with one live Linear block, `Realloc(Stdlib, p, 0)`
frees the block through the Linear row. -/
theorem C6_Realloc_zero_is_Free_witness :
    ∃ s1 : State Nat, Free sampleEnv sampleStateLive 131088 = .ok s1 ∧
      Realloc sampleEnv sampleStateLive Alloc_Stdlib 131088 0 = .ok (0, s1) ∧
      s1.log = sampleStateLive.log ++
        [Event.stratFree Alloc_Linear 131072, Event.OnFree 131072] ∧
      s1.ms_tracker = [] := by
  obtain ⟨s1, h1, h2, _, h4, h5⟩ :=
    (C6_Realloc_zero_is_Free sampleEnv sampleStateLive Alloc_Stdlib 131088
      (by decide) (by decide)).2 (by decide) (by decide) (by decide)
  refine ⟨s1, h1, h2, ?_, ?_⟩
  · rw [h4]
    decide
  · have h6 : ∃ s2 : State Nat, Free sampleEnv sampleStateLive 131088 = .ok s2 ∧
        s2.ms_tracker = [] := ⟨_, rfl, by decide⟩
    obtain ⟨s2, h7, h8⟩ := h6
    rw [h1] at h7
    cases h7
    exact h8

/-- C7. For every live pointer (non-null, its Header satisfying the Header
invariant `size >= sizeof(Header) + 1`) and every valid kind, `Realloc(kind,
ptr, size)` with `size` equal to the usable size `header.size - sizeof(Header)`
returns the same pointer and leaves the whole state as it was: the call log
gains no strategy call and no tracker notification, and memory (Headers and
payload bytes) is untouched. -/
theorem C7_Realloc_same_size_noop {σ : Type} (env : Env σ) (s : State σ) (type : i32)
    (prev : Nat) (size : i32) (hv : ValidAllocator s type = true) (hp : prev ≠ 0)
    (hlive : (s.mem.hdr (prev - sizeofHeader)).size.val ≥ sizeofHeader + 1)
    (hsz : size.val = (s.mem.hdr (prev - sizeofHeader)).size.val - sizeofHeader) :
    Realloc env s type prev size = .ok (prev, s) := by
  have hS : ((sizeofHeader : Nat) : Int) = 16 := by decide
  rw [hS] at hlive hsz
  have hr := (s.mem.hdr (prev - sizeofHeader)).size.property
  have hval : (i32.sub (s.mem.hdr (prev - sizeofHeader)).size PadBytes).val
      = (s.mem.hdr (prev - sizeofHeader)).size.val - 16 := by
    simp only [i32.sub, i32.ofInt, PadBytes_val]
    exact wrapI32_of_range _ (by omega) (by omega)
  have heq : size = i32.sub (s.mem.hdr (prev - sizeofHeader)).size PadBytes :=
    Subtype.ext (by rw [hval, hsz])
  have h0 : 0 ≤ size.val := by omega
  have h1 : size.val ≠ 0 := by omega
  have hhas : 0 < (i32.sub (s.mem.hdr (prev - sizeofHeader)).size PadBytes).val := by
    rw [hval]; omega
  unfold Realloc
  simp only [hv, h0, hp, h1, Bool.true_eq_false, if_false, ge_iff_le, not_true_eq_false,
    gt_iff_lt, hhas, ne_eq]
  rw [if_neg (not_not.2 heq)]

theorem C7_Realloc_same_size_noop_witness :
    Realloc sampleEnv sampleStateLive Alloc_Linear 131088 32 = .ok (131088, sampleStateLive) :=
  C7_Realloc_same_size_noop sampleEnv sampleStateLive Alloc_Linear 131088 32
    (by decide) (by decide) (by decide) (by decide)

/-- C9. When `Realloc(kind, ptr, bytes)` does not take the fast path (`ptr`
non-null, `bytes > 0`, `bytes` different from the old usable size) and the
caller-supplied kind matches the Header's kind, it calls the realloc of the
strategy named by the Header's kind with the old Header and the padded size
`PadRequest(bytes)`; when the strategy answers with a non-null, aligned block
the call returns its user pointer, with the Header of that block stamped with
`size = PadRequest(bytes)` and `kind` = the old Header's kind. The outcome does
not depend on the caller-supplied kind: every valid kind gives the same
result. -/
theorem C9_Realloc_delegates_by_Header_kind {σ : Type} (env : Env σ) (s : State σ)
    (type : i32) (prev : Nat) (bytes w : i32) (hdr : Nat) (iType : i32) (newHdr : Nat)
    (hhdr : hdr = prev - sizeofHeader) (hiType : iType = (s.mem.hdr hdr).type)
    (hmatch : type = iType)
    (hk : ValidAllocator s iType = true) (hinit : s.ms_init = true ∨ iType = Alloc_Stdlib)
    (hp : prev ≠ 0) (hb : 0 < bytes.val)
    (hhas : 0 < (i32.sub (s.mem.hdr hdr).size PadBytes).val)
    (hne : bytes ≠ i32.sub (s.mem.hdr hdr).size PadBytes)
    (hw : PadRequest bytes = .ok w)
    (hnew : newHdr
      = ((env.ms_tables (row iType)).Realloc (s.ms_allocators (row iType)) s.mem hdr w).1)
    (hnn : newHdr ≠ 0) (hal : IsAligned (newHdr + sizeofHeader) = true) :
    (∃ s1 : State σ, Realloc env s type prev bytes = .ok (newHdr + sizeofHeader, s1) ∧
      s1.log = s.log ++ [Event.stratRealloc iType hdr w, Event.stamp newHdr w iType]
        ++ (if (env.ENABLE_LEAK_TRACKER && (iType != Alloc_Debug)) = true
            then [Event.OnRealloc hdr newHdr w] else []) ∧
      s1.ms_allocators = Function.update s.ms_allocators (row iType)
        ((env.ms_tables (row iType)).Realloc (s.ms_allocators (row iType)) s.mem hdr w).2.1 ∧
      (s1.mem.hdr newHdr).size = w ∧ (s1.mem.hdr newHdr).type = iType) ∧
    (∀ type2 : i32, ValidAllocator s type2 = true →
      Realloc env s type2 prev bytes = Realloc env s type prev bytes) := by
  subst hhdr
  subst hiType
  subst hmatch
  have hE := Realloc_slow_eq env s _ prev bytes w hk hp hb hhas hne hw
  constructor
  · have hD : ∃ s1 : State σ,
        ReallocDispatch env s (prev - sizeofHeader) w = .ok (newHdr + sizeofHeader, s1) ∧
        s1.ms_allocators = Function.update s.ms_allocators
          (row (s.mem.hdr (prev - sizeofHeader)).type)
          ((env.ms_tables (row (s.mem.hdr (prev - sizeofHeader)).type)).Realloc
            (s.ms_allocators (row (s.mem.hdr (prev - sizeofHeader)).type)) s.mem
            (prev - sizeofHeader) w).2.1 := by
      unfold ReallocDispatch
      simp only [← hnew, hk, hinit, hnn, hal, if_false, not_true_eq_false, Bool.true_eq_false]
      exact ⟨_, rfl, rfl⟩
    obtain ⟨s1, hs1, hall⟩ := hD
    obtain ⟨_, _, _, h3, h4, hlog⟩ := ReallocDispatch_ok env s _ w _ s1 hs1
    rw [Nat.add_sub_cancel] at h3 h4 hlog
    exact ⟨s1, by rw [hE, hs1], hlog, hall, h3, h4⟩
  · intro type2 hv2
    rw [hE, Realloc_slow_eq env s type2 prev bytes w hv2 hp hb hhas hne hw]

/-- On the sample registry with one live Linear block, `Realloc(Linear, p, 100)`
goes to the Linear row with the padded size 128. -/
theorem C9_Realloc_delegates_by_Header_kind_witness :
    (∃ s1 : State Nat,
      Realloc sampleEnv sampleStateLive Alloc_Linear 131088 100
        = .ok (131120 + sizeofHeader, s1) ∧
      s1.log = sampleStateLive.log ++
        [Event.stratRealloc Alloc_Linear 131072 128, Event.stamp 131120 128 Alloc_Linear]
        ++ (if (sampleEnv.ENABLE_LEAK_TRACKER && (Alloc_Linear != Alloc_Debug)) = true
            then [Event.OnRealloc 131072 131120 128] else []) ∧
      s1.ms_allocators = Function.update sampleStateLive.ms_allocators (row Alloc_Linear)
        ((sampleEnv.ms_tables (row Alloc_Linear)).Realloc
          (sampleStateLive.ms_allocators (row Alloc_Linear)) sampleStateLive.mem 131072 128).2.1 ∧
      (s1.mem.hdr 131120).size = 128 ∧ (s1.mem.hdr 131120).type = Alloc_Linear) ∧
    (∀ type2 : i32, ValidAllocator sampleStateLive type2 = true →
      Realloc sampleEnv sampleStateLive type2 131088 100
        = Realloc sampleEnv sampleStateLive Alloc_Linear 131088 100) :=
  C9_Realloc_delegates_by_Header_kind sampleEnv sampleStateLive Alloc_Linear 131088 100 128
    131072 Alloc_Linear 131120 (by decide) (by decide) (by decide) (by decide) (by decide)
    (by decide) (by decide) (by decide) (by decide) rfl (by decide) (by decide) (by decide)

/-- C10. `Free(null)` is a no-op in every registry state, initialized or not:
it returns without evaluating an assertion and leaves the whole state (strategy
values, tracker ledger, memory, call log) as it was. -/
theorem C10_Free_null_noop {σ : Type} (env : Env σ) (s : State σ) :
    Free env s 0 = .ok s := by
  simp [Free]

/-! ## Assertions, the Pool and the lifecycle of the registry -/

theorem InRange_iff (t : i32) : InRange t = true ↔ 0 ≤ t.val ∧ t.val < 5 := by
  constructor
  · exact InRange_bounds t
  · intro h
    have h5 : NumAllocators.toU32 = 5 := by decide
    unfold InRange
    rw [h5]
    simp only [decide_eq_true_eq, i32.toU32]
    omega

theorem ValidAllocator_of_init {σ : Type} (s : State σ) (t : i32) (hi : s.ms_init = true)
    (h0 : 0 ≤ t.val) (h5 : t.val < 5) : ValidAllocator s t = true := by
  unfold ValidAllocator
  rw [(InRange_iff t).2 ⟨h0, h5⟩, hi]
  rfl

/-- `Free` fails its first assertion on a misaligned pointer. -/
theorem Free_misaligned {σ : Type} (env : Env σ) (s : State σ) (prev : Nat) (hp : prev ≠ 0)
    (hal : IsAligned prev = false) : Free env s prev = .error Fault.Free_IsAligned := by
  simp [Free, hp, hal]

/-- `Free` fails its second assertion on a Header whose size is not positive. -/
theorem Free_bad_size {σ : Type} (env : Env σ) (s : State σ) (prev : Nat) (hp : prev ≠ 0)
    (hal : IsAligned prev = true) (hsz : ¬ 0 < (s.mem.hdr (prev - sizeofHeader)).size.val) :
    Free env s prev = .error Fault.Free_size := by
  simp only [Free, hp, hal, ne_eq, not_false_eq_true, if_true, Bool.true_eq_false, if_false,
    gt_iff_lt, hsz]

/-- `Free` fails its third assertion on a Header whose kind is not valid. -/
theorem Free_bad_kind {σ : Type} (env : Env σ) (s : State σ) (prev : Nat) (hp : prev ≠ 0)
    (hal : IsAligned prev = true) (hsz : 0 < (s.mem.hdr (prev - sizeofHeader)).size.val)
    (hk : ValidAllocator s (s.mem.hdr (prev - sizeofHeader)).type = false) :
    Free env s prev = .error Fault.Free_ValidAllocator := by
  simp only [Free, hp, hal, ne_eq, not_false_eq_true, if_true, Bool.true_eq_false, if_false,
    gt_iff_lt, hsz, not_true_eq_false, hk]

/-- C11. For every non-null `ptr`, `Free(ptr)` reads the Header that precedes
`ptr` and asserts, in this order, that `ptr` is 16-byte aligned, that the
Header size is `> 0` and that the Header kind is a valid allocator; when the
three hold it calls `Free` of the strategy of the row named by the Header's
kind, and of no other (the other rows keep their value, the call log gains one
strategy call), and, with the tracker compiled in, removes the tracking entry
unless that kind is Debug. For a Header that satisfies the invariant of the
facade (`size >= sizeof(Header) + 1`, kind in `[0, NumAllocators)`), an aligned
pointer and an initialized registry, no assertion fails. -/
theorem C11_Free_dispatches_by_Header_kind {σ : Type} (env : Env σ) (s : State σ)
    (prev : Nat) (hp : prev ≠ 0) :
    (IsAligned prev = false → Free env s prev = .error Fault.Free_IsAligned) ∧
    (IsAligned prev = true → ¬ 0 < (s.mem.hdr (prev - sizeofHeader)).size.val →
      Free env s prev = .error Fault.Free_size) ∧
    (IsAligned prev = true → 0 < (s.mem.hdr (prev - sizeofHeader)).size.val →
      ValidAllocator s (s.mem.hdr (prev - sizeofHeader)).type = false →
      Free env s prev = .error Fault.Free_ValidAllocator) ∧
    (IsAligned prev = true → 0 < (s.mem.hdr (prev - sizeofHeader)).size.val →
      ValidAllocator s (s.mem.hdr (prev - sizeofHeader)).type = true →
      ∃ s1 : State σ, Free env s prev = .ok s1 ∧
        s1.ms_allocators (row (s.mem.hdr (prev - sizeofHeader)).type)
          = ((env.ms_tables (row (s.mem.hdr (prev - sizeofHeader)).type)).Free
              (s.ms_allocators (row (s.mem.hdr (prev - sizeofHeader)).type)) s.mem
              (prev - sizeofHeader)).1 ∧
        (∀ i : Nat, i ≠ row (s.mem.hdr (prev - sizeofHeader)).type →
          s1.ms_allocators i = s.ms_allocators i) ∧
        s1.log = s.log ++ [Event.stratFree (s.mem.hdr (prev - sizeofHeader)).type
            (prev - sizeofHeader)]
          ++ (if (env.ENABLE_LEAK_TRACKER &&
                ((s.mem.hdr (prev - sizeofHeader)).type != Alloc_Debug)) = true
              then [Event.OnFree (prev - sizeofHeader)] else []) ∧
        (env.ENABLE_LEAK_TRACKER = true →
          (s.mem.hdr (prev - sizeofHeader)).type ≠ Alloc_Debug →
          s1.ms_tracker = OnFree s.ms_tracker (prev - sizeofHeader) ∧
            ∀ e ∈ s1.ms_tracker, e.address ≠ prev - sizeofHeader) ∧
        ((s.mem.hdr (prev - sizeofHeader)).type = Alloc_Debug →
          s1.ms_tracker = s.ms_tracker)) ∧
    (s.ms_init = true → IsAligned prev = true →
      (s.mem.hdr (prev - sizeofHeader)).size.val ≥ sizeofHeader + 1 →
      0 ≤ (s.mem.hdr (prev - sizeofHeader)).type.val →
      (s.mem.hdr (prev - sizeofHeader)).type.val < NumAllocators.val →
      ∃ s1 : State σ, Free env s prev = .ok s1) := by
  refine ⟨Free_misaligned env s prev hp, Free_bad_size env s prev hp,
    Free_bad_kind env s prev hp, ?_, ?_⟩
  · intro hal hsz hk
    refine ⟨_, Free_eq_of_asserts env s prev hp hal hsz hk, ?_, ?_, rfl, ?_, ?_⟩
    · simp
    · intro i hi
      simp [Function.update, hi]
    · intro ht hd
      have hb : (env.ENABLE_LEAK_TRACKER &&
          ((s.mem.hdr (prev - sizeofHeader)).type != Alloc_Debug)) = true := by
        simp [ht, hd]
      simp only [hb, if_true]
      exact ⟨trivial, OnFree_removes _ _⟩
    · intro hd
      simp [hd]
  · intro hi hal hsz h0 h5
    have hS : ((sizeofHeader : Nat) : Int) = 16 := by decide
    have hN : NumAllocators.val = 5 := by decide
    rw [hS] at hsz
    rw [hN] at h5
    exact ⟨_, Free_eq_of_asserts env s prev hp hal (by omega)
      (ValidAllocator_of_init s _ hi h0 h5)⟩

/-- On the sample registry with one live Linear block, `Free(p)` goes to the
Linear row and removes the ledger entry; `Free(p + 8)` fails the alignment
assertion. -/
theorem C11_Free_dispatches_by_Header_kind_witness :
    (∃ s1 : State Nat, Free sampleEnv sampleStateLive 131088 = .ok s1 ∧
      s1.log = sampleStateLive.log ++ [Event.stratFree Alloc_Linear 131072]
        ++ [Event.OnFree 131072]) ∧
    Free sampleEnv sampleStateLive 131096 = .error Fault.Free_IsAligned := by
  obtain ⟨s1, h1, _, _, h4, _, _⟩ :=
    (C11_Free_dispatches_by_Header_kind sampleEnv sampleStateLive 131088 (by decide)).2.2.2.1
      (by decide) (by decide) (by decide)
  exact ⟨⟨s1, h1, by rw [h4]; decide⟩,
    (C11_Free_dispatches_by_Header_kind sampleEnv sampleStateLive 131096 (by decide)).1
      (by decide)⟩

/-- C12. `Alloc(kind, bytes)` fails its kind-validity assertion if and only if
`kind` is out of range (negative or `>= NumAllocators = 5`) or the registry is
not initialized and `kind` is neither Stdlib nor Debug; `ValidAllocator(kind)`
is `InRange(kind)` and (initialized or `kind == Stdlib` or `kind == Debug`),
and `InRange(kind)` is `0 <= kind < NumAllocators`. -/
theorem C12_Alloc_kind_assertion {σ : Type} (env : Env σ) (s : State σ) (kind bytes : i32) :
    (Alloc env s kind bytes = .error Fault.Alloc_ValidAllocator ↔
      ((kind.val < 0 ∨ NumAllocators.val ≤ kind.val) ∨
        (s.ms_init = false ∧ kind ≠ Alloc_Stdlib ∧ kind ≠ Alloc_Debug))) ∧
    ValidAllocator s kind
      = (InRange kind && (s.ms_init || (kind == Alloc_Stdlib) || (kind == Alloc_Debug))) ∧
    (InRange kind = true ↔ 0 ≤ kind.val ∧ kind.val < NumAllocators.val) ∧
    NumAllocators.val = 5 := by
  have hN : NumAllocators.val = 5 := by decide
  rw [hN]
  refine ⟨?_, rfl, InRange_iff kind, rfl⟩
  have hvalid : ValidAllocator s kind = false ↔
      ((kind.val < 0 ∨ 5 ≤ kind.val) ∨
        (s.ms_init = false ∧ kind ≠ Alloc_Stdlib ∧ kind ≠ Alloc_Debug)) := by
    unfold ValidAllocator
    by_cases hr : InRange kind = true
    · have hb := (InRange_iff kind).1 hr
      rw [hr]
      simp only [Bool.true_and, Bool.or_eq_false_iff, beq_eq_false_iff_ne, ne_eq]
      constructor
      · rintro ⟨⟨h1, h2⟩, h3⟩
        exact Or.inr ⟨h1, h2, h3⟩
      · rintro (h | ⟨h1, h2, h3⟩)
        · omega
        · exact ⟨⟨h1, h2⟩, h3⟩
    · have hb : ¬ (0 ≤ kind.val ∧ kind.val < 5) := fun h => hr ((InRange_iff kind).2 h)
      rw [Bool.not_eq_true] at hr
      rw [hr]
      simp only [Bool.false_and, true_iff]
      left
      omega
  rw [← hvalid]
  constructor
  · intro h
    by_contra hv
    rw [Bool.not_eq_false] at hv
    unfold Alloc at h
    rw [if_neg (by simp [hv])] at h
    split at h
    · cases h
    · split at h
      · split at h
        · rename_i f hf
          rw [PadRequest_eq] at hf
          split at hf
          · cases hf
          · cases hf
            cases h
        · rename_i w hw
          unfold AllocDispatch at h
          simp only at h
          split at h
          · cases h
          · split at h
            · cases h
            · cases h
      · cases h
  · intro hv
    simp [Alloc, hv]

/-- Past the fast-path test, `Realloc` of a block whose Header names the Debug
kind fails the assertion `ms_init || iType == Alloc_Stdlib` when the registry is
not initialized. -/
theorem Realloc_Debug_uninit {σ : Type} (env : Env σ) (s : State σ) (type : i32) (prev : Nat)
    (bytes w : i32) (hv : ValidAllocator s type = true) (hp : prev ≠ 0) (hb : 0 < bytes.val)
    (hhas : 0 < (i32.sub (s.mem.hdr (prev - sizeofHeader)).size PadBytes).val)
    (hne : bytes ≠ i32.sub (s.mem.hdr (prev - sizeofHeader)).size PadBytes)
    (hw : PadRequest bytes = .ok w)
    (hk : (s.mem.hdr (prev - sizeofHeader)).type = Alloc_Debug) (hi : s.ms_init = false) :
    Realloc env s type prev bytes = .error Fault.Realloc_init_or_Stdlib := by
  rw [Realloc_slow_eq env s type prev bytes w hv hp hb hhas hne hw]
  have hvd : ValidAllocator s Alloc_Debug = true := by
    unfold ValidAllocator
    rw [hi]
    decide
  have hds : Alloc_Debug ≠ Alloc_Stdlib := by decide
  simp [ReallocDispatch, hk, hvd, hi, hds]

/-- C13 (the code at the failing input). The registry is not initialized and
holds one live Debug block of usable size 32 at `p = 327696`. `Alloc(Debug,
17)`, `Free(p)`, `Realloc(Debug, null, 17)`, `Realloc(Debug, p, 0)` and the
same-size `Realloc(Debug, p, 32)` pass every assertion, but the size-changing
`Realloc(Debug, p, 100)` fails the assertion `ms_init || iType ==
Alloc_Stdlib` of line 197. -/
theorem C13_Realloc_Debug_uninitialized_fails :
    sampleStateDebug.ms_init = false ∧
    (sampleStateDebug.mem.hdr (327696 - sizeofHeader)).type = Alloc_Debug ∧
    (∃ s1, Alloc sampleEnv sampleStateDebug Alloc_Debug 17 = .ok (327744, s1)) ∧
    (∃ s1, Free sampleEnv sampleStateDebug 327696 = .ok s1) ∧
    (∃ s1, Realloc sampleEnv sampleStateDebug Alloc_Debug 0 17 = .ok (327744, s1)) ∧
    (∃ s1, Realloc sampleEnv sampleStateDebug Alloc_Debug 327696 0 = .ok (0, s1)) ∧
    Realloc sampleEnv sampleStateDebug Alloc_Debug 327696 32
      = .ok (327696, sampleStateDebug) ∧
    Realloc sampleEnv sampleStateDebug Alloc_Debug 327696 100
      = .error Fault.Realloc_init_or_Stdlib :=
  ⟨rfl, by decide, ⟨_, rfl⟩, ⟨_, rfl⟩, ⟨_, rfl⟩, ⟨_, rfl⟩, rfl,
    Realloc_Debug_uninit sampleEnv sampleStateDebug Alloc_Debug 327696 100 128
      (by decide) (by decide) (by decide) (by decide) (by decide) rfl (by decide) rfl⟩

/-- `AllocDispatch` fails `ASSERT(hdr)` when the strategy answers null. -/
theorem AllocDispatch_null {σ : Type} (env : Env σ) (s : State σ) (type w : i32)
    (h : ((env.ms_tables (row type)).Alloc (s.ms_allocators (row type)) s.mem w).1 = 0) :
    AllocDispatch env s type w = .error Fault.Alloc_hdr := by
  simp [AllocDispatch, h]

/-- `ReallocDispatch` fails `ASSERT(newHdr)` when the strategy answers null. -/
theorem ReallocDispatch_null {σ : Type} (env : Env σ) (s : State σ) (hdr : Nat) (w : i32)
    (hk : ValidAllocator s (s.mem.hdr hdr).type = true)
    (hinit : s.ms_init = true ∨ (s.mem.hdr hdr).type = Alloc_Stdlib)
    (h : ((env.ms_tables (row (s.mem.hdr hdr).type)).Realloc
          (s.ms_allocators (row (s.mem.hdr hdr).type)) s.mem hdr w).1 = 0) :
    ReallocDispatch env s hdr w = .error Fault.Realloc_newHdr := by
  simp [ReallocDispatch, hk, hinit, h]

/-- C14 (as stated, refuted). On the sample registry the Linear row has 4096
bytes; a request of 4096 bytes pads to 4112 and the strategy answers null;
`Alloc(Linear, 4096)` does not return null, it fails `ASSERT(hdr)`; and on the
registry with one live Linear block `Realloc(Linear, p, 4096)` fails
`ASSERT(newHdr)`. -/
theorem C14_counterexample :
    PadRequest 4096 = .ok 4112 ∧
    ((sampleEnv.ms_tables (row Alloc_Linear)).Alloc
      (sampleState.ms_allocators (row Alloc_Linear)) sampleState.mem 4112).1 = 0 ∧
    Alloc sampleEnv sampleState Alloc_Linear 4096 = .error Fault.Alloc_hdr ∧
    ((sampleEnv.ms_tables (row Alloc_Linear)).Realloc
      (sampleStateLive.ms_allocators (row Alloc_Linear)) sampleStateLive.mem 131072 4112).1
      = 0 ∧
    Realloc sampleEnv sampleStateLive Alloc_Linear 131088 4096
      = .error Fault.Realloc_newHdr :=
  ⟨rfl, by decide, rfl, by decide, rfl⟩

/-- C14 (amended). Out-of-capacity is fatal at the facade: for a valid kind
and a request `bytes > 0` that pads to `w`, when the strategy's `Alloc`
answers the padded request with null, `Alloc(kind, bytes)` fails `ASSERT(hdr)`;
and when a `Realloc` that dispatches (Header kind valid, registry initialized
or kind Stdlib) gets null from the strategy's `Realloc`, it fails
`ASSERT(newHdr)`. Neither call returns null to the caller. -/
theorem C14_null_from_strategy_is_fatal {σ : Type} (env : Env σ) (s : State σ)
    (type bytes w : i32) (hv : ValidAllocator s type = true) (hb : 0 < bytes.val)
    (hw : PadRequest bytes = .ok w) :
    (((env.ms_tables (row type)).Alloc (s.ms_allocators (row type)) s.mem w).1 = 0 →
      Alloc env s type bytes = .error Fault.Alloc_hdr) ∧
    (∀ prev : Nat, prev ≠ 0 →
      0 < (i32.sub (s.mem.hdr (prev - sizeofHeader)).size PadBytes).val →
      bytes ≠ i32.sub (s.mem.hdr (prev - sizeofHeader)).size PadBytes →
      ValidAllocator s (s.mem.hdr (prev - sizeofHeader)).type = true →
      (s.ms_init = true ∨ (s.mem.hdr (prev - sizeofHeader)).type = Alloc_Stdlib) →
      ((env.ms_tables (row (s.mem.hdr (prev - sizeofHeader)).type)).Realloc
        (s.ms_allocators (row (s.mem.hdr (prev - sizeofHeader)).type)) s.mem
        (prev - sizeofHeader) w).1 = 0 →
      Realloc env s type prev bytes = .error Fault.Realloc_newHdr) := by
  constructor
  · intro h
    have h0 : 0 ≤ bytes.val := by omega
    have hA : Alloc env s type bytes = AllocDispatch env s type w := by
      simp [Alloc, hv, hb, h0, hw]
    rw [hA, AllocDispatch_null env s type w h]
  · intro prev hp hhas hne hk hinit h
    rw [Realloc_slow_eq env s type prev bytes w hv hp hb hhas hne hw,
      ReallocDispatch_null env s _ w hk hinit h]

theorem C14_null_from_strategy_is_fatal_witness :
    Alloc sampleEnv sampleState Alloc_Linear 4096 = .error Fault.Alloc_hdr :=
  (C14_null_from_strategy_is_fatal sampleEnv sampleState Alloc_Linear 4096 4112
    (by decide) (by decide) rfl).1 (by decide)

/-- `_Free` of a block that passes its three assertions. -/
theorem Pool_Free_eq {H : Type} (ops : HeapOps H) (p : Pool H) (m : Memory) (prev : Nat)
    (h1 : 0 ≤ (m.hdr prev).d.val) (h2 : (m.hdr prev).size.val ≤ (m.hdr prev).c.val)
    (h3 : p.m_memory.begin + (m.hdr prev).d.val.toNat = prev) :
    Pool._Free ops p m prev = .ok
      { p with
        m_heap := ops.Free p.m_heap { offset := (m.hdr prev).d, size := (m.hdr prev).c }
        log := p.log
          ++ [PoolEvent.heapFree { offset := (m.hdr prev).d, size := (m.hdr prev).c }] } := by
  simp [Pool._Free, h1, h2, h3]

/-- `_Alloc` when the free-list has no range for the request. -/
theorem Pool_Alloc_none {H : Type} (ops : HeapOps H) (p : Pool H) (m : Memory) (reqBytes : i32)
    (h : (ops.Alloc p.m_heap reqBytes).1.offset.val = -1) :
    Pool._Alloc ops p m reqBytes =
      (0, { p with
            m_heap := (ops.Alloc p.m_heap reqBytes).2
            log := p.log ++ [PoolEvent.heapAlloc reqBytes (ops.Alloc p.m_heap reqBytes).1] },
        m) := by
  simp [Pool._Alloc, h]

/-- C15. Pool realloc is free-then-alloc. For a block that passes the
assertions of `_Free`, `Pool::Realloc(pOld, reqBytes)` first gives the
committed range `{regionOffset, committedSize}` read from the Header of `pOld`
back to the free-list and only then asks the free-list for `reqBytes`; when
that request fails (offset `-1`) the call returns null, the free-list is the
one that has the old range back, memory is untouched (no Header written, no
payload byte copied) and the call log holds, under the lock, the free, then
the failed request, and no copy. -/
theorem C15_Pool_Realloc_free_then_alloc {H : Type} (ops : HeapOps H) (p : Pool H)
    (m : Memory) (pOld : Nat) (reqBytes : i32)
    (h1 : 0 ≤ (m.hdr pOld).d.val) (h2 : (m.hdr pOld).size.val ≤ (m.hdr pOld).c.val)
    (h3 : p.m_memory.begin + (m.hdr pOld).d.val.toNat = pOld)
    (hfail : (ops.Alloc
        (ops.Free p.m_heap { offset := (m.hdr pOld).d, size := (m.hdr pOld).c })
        reqBytes).1.offset.val = -1) :
    ∃ p1 : Pool H, Pool.Realloc ops p m pOld reqBytes = .ok (0, p1, m) ∧
      p1.m_heap = (ops.Alloc
        (ops.Free p.m_heap { offset := (m.hdr pOld).d, size := (m.hdr pOld).c })
        reqBytes).2 ∧
      p1.log = p.log ++ [PoolEvent.lock,
        PoolEvent.heapFree { offset := (m.hdr pOld).d, size := (m.hdr pOld).c },
        PoolEvent.heapAlloc reqBytes (ops.Alloc
          (ops.Free p.m_heap { offset := (m.hdr pOld).d, size := (m.hdr pOld).c })
          reqBytes).1,
        PoolEvent.unlock] ∧
      p1.m_memory = p.m_memory ∧ p1.m_mutex = p.m_mutex := by
  have hF := Pool_Free_eq ops { p with log := p.log ++ [PoolEvent.lock] } m pOld h1 h2 h3
  have hR : Pool._Realloc ops { p with log := p.log ++ [PoolEvent.lock] } m pOld reqBytes
      = .ok (0,
          { p with
            m_heap := (ops.Alloc
              (ops.Free p.m_heap { offset := (m.hdr pOld).d, size := (m.hdr pOld).c })
              reqBytes).2
            log := p.log ++ [PoolEvent.lock]
              ++ [PoolEvent.heapFree { offset := (m.hdr pOld).d, size := (m.hdr pOld).c }]
              ++ [PoolEvent.heapAlloc reqBytes (ops.Alloc
                (ops.Free p.m_heap { offset := (m.hdr pOld).d, size := (m.hdr pOld).c })
                reqBytes).1] },
          m) := by
    unfold Pool._Realloc
    rw [hF]
    simp only
    rw [Pool_Alloc_none ops _ m reqBytes hfail]
    simp
  have hR2 : Pool.Realloc ops p m pOld reqBytes
      = .ok (0,
          { p with
            m_heap := (ops.Alloc
              (ops.Free p.m_heap { offset := (m.hdr pOld).d, size := (m.hdr pOld).c })
              reqBytes).2
            log := p.log ++ [PoolEvent.lock]
              ++ [PoolEvent.heapFree { offset := (m.hdr pOld).d, size := (m.hdr pOld).c }]
              ++ [PoolEvent.heapAlloc reqBytes (ops.Alloc
                (ops.Free p.m_heap { offset := (m.hdr pOld).d, size := (m.hdr pOld).c })
                reqBytes).1]
              ++ [PoolEvent.unlock] },
          m) := by
    unfold Pool.Realloc
    rw [hR]
  refine ⟨_, hR2, rfl, ?_, rfl, rfl⟩
  simp

/-- On the sample Pool, whose 64 bytes are all handed out as one block, a
realloc to 1000 bytes frees the block and then fails. -/
theorem C15_Pool_Realloc_free_then_alloc_witness :
    ∃ p1 : Pool (List HeapItem),
      Pool.Realloc listHeap samplePool samplePoolMemory 4096 1000
        = .ok (0, p1, samplePoolMemory) ∧
      p1.m_heap = [{ offset := 0, size := 64 }] ∧
      p1.log = [PoolEvent.lock, PoolEvent.heapFree { offset := 0, size := 64 },
        PoolEvent.heapAlloc 1000 { offset := i32.ofInt (-1), size := i32.ofInt (-1) },
        PoolEvent.unlock] := by
  obtain ⟨p1, h1, h2, h3, _⟩ :=
    C15_Pool_Realloc_free_then_alloc listHeap samplePool samplePoolMemory 4096 1000
      (by decide) (by decide) (by decide) (by decide)
  refine ⟨p1, h1, ?_, ?_⟩
  · rw [h2]
    decide
  · rw [h3]
    decide

theorem rows_eq : rows = [0, 1, 2, 3, 4] := by decide

theorem InitRow_ms_init {σ : Type} (env : Env σ) (malloc : Nat → i32 → Nat) (s : State σ)
    (i : Nat) : (InitRow env malloc s i).ms_init = s.ms_init := rfl

theorem ShutdownRow_ms_init {σ : Type} (env : Env σ) (s : State σ) (i : Nat) :
    (ShutdownRow env s i).ms_init = s.ms_init := rfl

theorem UpdateRow_ms_init {σ : Type} (env : Env σ) (s : State σ) (i : Nat) :
    (UpdateRow env s i).ms_init = s.ms_init := by
  unfold UpdateRow
  split <;> rfl

/-- A loop whose body keeps `ms_init` keeps `ms_init`. -/
theorem foldl_ms_init {σ : Type} (f : State σ → Nat → State σ)
    (hf : ∀ s i, (f s i).ms_init = s.ms_init) (l : List Nat) :
    ∀ s : State σ, (l.foldl f s).ms_init = s.ms_init := by
  induction l with
  | nil => intro s; rfl
  | cons i l ih =>
    intro s
    rw [List.foldl_cons, ih, hf]

theorem Init_ok {σ : Type} (env : Env σ) (malloc : Nat → i32 → Nat) (s : State σ)
    (h : s.ms_init = false) :
    Init env malloc s = .ok { rows.foldl (InitRow env malloc) s with ms_init := true } := by
  simp [Init, h]

theorem Init_fails {σ : Type} (env : Env σ) (malloc : Nat → i32 → Nat) (s : State σ)
    (h : s.ms_init = true) : Init env malloc s = .error Fault.Init_ms_init := by
  simp [Init, h]

theorem Update_ok {σ : Type} (env : Env σ) (s : State σ) (h : s.ms_init = true) :
    Update env s = .ok (rows.foldl (UpdateRow env) s) := by
  simp [Update, h]

theorem Update_fails {σ : Type} (env : Env σ) (s : State σ) (h : s.ms_init = false) :
    Update env s = .error Fault.Update_ms_init := by
  simp [Update, h]

theorem Shutdown_fails {σ : Type} (env : Env σ) (s : State σ) (h : s.ms_init = false) :
    Shutdown env s = .error Fault.Shutdown_ms_init := by
  simp [Shutdown, h]

/-- `Shutdown` on an initialized registry. -/
theorem Shutdown_eq {σ : Type} (env : Env σ) (s : State σ) (h : s.ms_init = true) :
    Shutdown env s = .ok
      { rows.foldl (ShutdownRow env) s with
        ms_init := false
        ms_tracker :=
          if env.ENABLE_LEAK_TRACKER = true
          then ListLeaks (rows.foldl (ShutdownRow env) s).ms_tracker
          else (rows.foldl (ShutdownRow env) s).ms_tracker
        log := (rows.foldl (ShutdownRow env) s).log
          ++ (if env.ENABLE_LEAK_TRACKER = true
              then [Event.ListLeaks (rows.foldl (ShutdownRow env) s).ms_tracker] else []) } := by
  simp only [Shutdown, h, not_true_eq_false, if_false]

/-- C16. The registry lifecycle is a two-state machine over `ms_init`. `Init`
is accepted exactly when the registry is not initialized and leaves it
initialized; `Update` is accepted exactly when it is initialized and leaves it
initialized; `Shutdown` is accepted exactly when it is initialized and leaves
it not initialized, a state in which `Init` is accepted again. Every other
call fails its assertion. -/
theorem C16_lifecycle_two_states {σ : Type} (env : Env σ) (malloc : Nat → i32 → Nat)
    (s : State σ) :
    (s.ms_init = false → ∃ s1 : State σ, Init env malloc s = .ok s1 ∧ s1.ms_init = true) ∧
    (s.ms_init = true → Init env malloc s = .error Fault.Init_ms_init) ∧
    (s.ms_init = true → ∃ s1 : State σ, Update env s = .ok s1 ∧ s1.ms_init = true) ∧
    (s.ms_init = false → Update env s = .error Fault.Update_ms_init) ∧
    (s.ms_init = true → ∃ s1 : State σ, Shutdown env s = .ok s1 ∧ s1.ms_init = false ∧
      ∃ s2 : State σ, Init env malloc s1 = .ok s2 ∧ s2.ms_init = true) ∧
    (s.ms_init = false → Shutdown env s = .error Fault.Shutdown_ms_init) := by
  refine ⟨?_, Init_fails env malloc s, ?_, Update_fails env s, ?_, Shutdown_fails env s⟩
  · intro h
    exact ⟨_, Init_ok env malloc s h, rfl⟩
  · intro h
    refine ⟨_, Update_ok env s h, ?_⟩
    rw [foldl_ms_init _ (UpdateRow_ms_init env), h]
  · intro h
    exact ⟨_, Shutdown_eq env s h, rfl, _, Init_ok env malloc _ rfl, rfl⟩

/-- On the sample registry: `Init`, `Update`, `Shutdown`, `Init` are accepted
in this order from the start state; `Update` and `Shutdown` are refused in the
start state and `Init` is refused once initialized. -/
theorem C16_lifecycle_two_states_witness :
    (∃ s1 s2 s3 s4 : State Nat,
      Init sampleEnv sampleMalloc sampleStateStart = .ok s1 ∧ s1.ms_init = true ∧
      Update sampleEnv s1 = .ok s2 ∧ s2.ms_init = true ∧
      Shutdown sampleEnv s2 = .ok s3 ∧ s3.ms_init = false ∧
      Init sampleEnv sampleMalloc s3 = .ok s4 ∧ s4.ms_init = true ∧
      Init sampleEnv sampleMalloc s1 = .error Fault.Init_ms_init) ∧
    Update sampleEnv sampleStateStart = .error Fault.Update_ms_init ∧
    Shutdown sampleEnv sampleStateStart = .error Fault.Shutdown_ms_init := by
  obtain ⟨s1, h1, i1⟩ :=
    (C16_lifecycle_two_states sampleEnv sampleMalloc sampleStateStart).1 rfl
  obtain ⟨s2, h2, i2⟩ := (C16_lifecycle_two_states sampleEnv sampleMalloc s1).2.2.1 i1
  obtain ⟨s3, h3, i3, s4, h4, i4⟩ :=
    (C16_lifecycle_two_states sampleEnv sampleMalloc s2).2.2.2.2.1 i2
  exact ⟨⟨s1, s2, s3, s4, h1, i1, h2, i2, h3, i3, h4, i4,
      (C16_lifecycle_two_states sampleEnv sampleMalloc s1).2.1 i1⟩,
    (C16_lifecycle_two_states sampleEnv sampleMalloc sampleStateStart).2.2.2.1 rfl,
    (C16_lifecycle_two_states sampleEnv sampleMalloc sampleStateStart).2.2.2.2.2 rfl⟩

/-- `Update` on an initialized registry, with the loop unrolled: only row 1 is
flagged per-frame. -/
theorem Update_eq {σ : Type} (env : Env σ) (s : State σ) (h : s.ms_init = true) :
    Update env s = .ok
      { s with
        ms_allocators := Function.update s.ms_allocators 1
          ((env.ms_tables 1).Clear (s.ms_allocators 1) s.mem).1
        mem := ((env.ms_tables 1).Clear (s.ms_allocators 1) s.mem).2
        log := s.log ++ [Event.stratClear 1] } := by
  simp [Update, h, rows_eq, UpdateRow, ms_isPerFrame]

theorem perFrame_rows : rows.filter (fun i => ms_isPerFrame i) = [1] := by decide

theorem perFrame_iff (i : Nat) : ms_isPerFrame i = true ↔ i = 1 := by
  match i with
  | 0 => decide
  | 1 => decide
  | 2 => decide
  | 3 => decide
  | n + 4 => simp [ms_isPerFrame]

/-- C17. On an initialized registry `Update()` calls `Clear` exactly once on
each row whose per-frame flag is set and on no other row: the call log gains
one `Clear` per flagged row and nothing else. The strategy value of every row
that is not flagged is unchanged, in particular those of Stdlib, Debug and the
Pool; the region slots, the initialized flag and the ledger are unchanged. -/
theorem C17_Update_clears_flagged_rows_only {σ : Type} (env : Env σ) (s : State σ)
    (h : s.ms_init = true) :
    ∃ s1 : State σ, Update env s = .ok s1 ∧
      s1.log = s.log ++ (rows.filter (fun i => ms_isPerFrame i)).map Event.stratClear ∧
      (∀ i : Nat, ((rows.filter (fun i => ms_isPerFrame i)).map Event.stratClear).count
          (Event.stratClear i) = if i ∈ rows ∧ ms_isPerFrame i = true then 1 else 0) ∧
      (∀ i : Nat, ms_isPerFrame i = true →
        s1.ms_allocators i = ((env.ms_tables i).Clear (s.ms_allocators i) s.mem).1) ∧
      (∀ i : Nat, ms_isPerFrame i = false → s1.ms_allocators i = s.ms_allocators i) ∧
      s1.ms_allocators (row Alloc_Stdlib) = s.ms_allocators (row Alloc_Stdlib) ∧
      s1.ms_allocators (row Alloc_Debug) = s.ms_allocators (row Alloc_Debug) ∧
      s1.ms_allocators (row Alloc_Pool) = s.ms_allocators (row Alloc_Pool) ∧
      s1.ms_allocations = s.ms_allocations ∧ s1.ms_init = s.ms_init ∧
      s1.ms_tracker = s.ms_tracker := by
  have hpool : row Alloc_Pool = 3 := by decide
  have hstd : row Alloc_Stdlib = 0 := by decide
  have hdbg : row Alloc_Debug = 4 := by decide
  refine ⟨_, Update_eq env s h, ?_, ?_, ?_, ?_, ?_, ?_, ?_, rfl, rfl, rfl⟩
  · rw [perFrame_rows]
    rfl
  · intro i
    rw [perFrame_rows, rows_eq]
    by_cases hi : i = 1
    · subst hi
      decide
    · have h1 : ¬ (i ∈ [0, 1, 2, 3, 4] ∧ ms_isPerFrame i = true) := by
        rintro ⟨_, hp⟩
        exact hi ((perFrame_iff i).1 hp)
      rw [if_neg h1]
      simp only [List.map_cons, List.map_nil]
      rw [List.count_singleton]
      simp only [beq_iff_eq, Event.stratClear.injEq, ite_eq_right_iff, one_ne_zero, imp_false]
      exact fun h2 => hi h2.symm
  · intro i hi
    have := (perFrame_iff i).1 hi
    subst this
    simp
  · intro i hi
    have hne : i ≠ 1 := by
      intro h1
      subst h1
      exact absurd hi (by decide)
    simp [Function.update, hne]
  · rw [hstd]; simp [Function.update]
  · rw [hdbg]; simp [Function.update]
  · rw [hpool]; simp [Function.update]

theorem C17_Update_clears_flagged_rows_only_witness :
    ∃ s1 : State Nat, Update sampleEnv sampleStateLive = .ok s1 ∧
      s1.log = sampleStateLive.log ++ [Event.stratClear 1] ∧
      s1.ms_allocators (row Alloc_Pool) = sampleStateLive.ms_allocators (row Alloc_Pool) := by
  obtain ⟨s1, h1, h2, _, _, _, _, _, h3, _⟩ :=
    C17_Update_clears_flagged_rows_only sampleEnv sampleStateLive (by decide)
  exact ⟨s1, h1, by rw [h2]; decide, h3⟩

/-- C18 (as stated, refuted). Row 2 of `ms_tables` is the Stack strategy and
its per-frame flag is false: on the initialized sample registry `Update()`
calls `Clear` on row 1 (Linear) only, not on the Stack row. -/
theorem C18_counterexample :
    ms_tables_names (row Alloc_Stack) = Strategy.Stack ∧
    ms_isPerFrame (row Alloc_Stack) = false ∧
    ∃ s1 : State Nat, Update sampleEnv sampleState = .ok s1 ∧
      s1.log = [Event.stratClear (row Alloc_Linear)] ∧
      Event.stratClear (row Alloc_Stack) ∉ s1.log :=
  ⟨by decide, by decide, _, Update_eq sampleEnv sampleState (by decide), by decide, by decide⟩

/-- C18 (amended). Only the Linear strategy is designated per-frame in the
registry: the flag of the Linear row is set, the flag of the Stack row is not,
and on an initialized registry `Update()` calls `Clear()` once on the Linear
strategy and does not call it on the Stack strategy, whose value is
unchanged. -/
theorem C18_Update_clears_Linear_not_Stack {σ : Type} (env : Env σ) (s : State σ)
    (h : s.ms_init = true) :
    ms_tables_names (row Alloc_Linear) = Strategy.Linear ∧
    ms_tables_names (row Alloc_Stack) = Strategy.Stack ∧
    ms_isPerFrame (row Alloc_Linear) = true ∧ ms_isPerFrame (row Alloc_Stack) = false ∧
    ∃ s1 : State σ, Update env s = .ok s1 ∧
      s1.log = s.log ++ [Event.stratClear (row Alloc_Linear)] ∧
      s1.ms_allocators (row Alloc_Linear)
        = ((env.ms_tables (row Alloc_Linear)).Clear (s.ms_allocators (row Alloc_Linear))
            s.mem).1 ∧
      s1.ms_allocators (row Alloc_Stack) = s.ms_allocators (row Alloc_Stack) := by
  have hlin : row Alloc_Linear = 1 := by decide
  have hstk : row Alloc_Stack = 2 := by decide
  rw [hlin, hstk]
  refine ⟨by decide, by decide, by decide, by decide, _, Update_eq env s h, rfl, ?_, ?_⟩
  · simp
  · simp [Function.update]

theorem C18_Update_clears_Linear_not_Stack_witness :
    ms_tables_names (row Alloc_Linear) = Strategy.Linear ∧
    ms_tables_names (row Alloc_Stack) = Strategy.Stack ∧
    ms_isPerFrame (row Alloc_Linear) = true ∧ ms_isPerFrame (row Alloc_Stack) = false ∧
    ∃ s1 : State Nat, Update sampleEnv sampleStateLive = .ok s1 ∧
      s1.log = sampleStateLive.log ++ [Event.stratClear (row Alloc_Linear)] ∧
      s1.ms_allocators (row Alloc_Linear)
        = ((sampleEnv.ms_tables (row Alloc_Linear)).Clear
            (sampleStateLive.ms_allocators (row Alloc_Linear)) sampleStateLive.mem).1 ∧
      s1.ms_allocators (row Alloc_Stack) = sampleStateLive.ms_allocators (row Alloc_Stack) :=
  C18_Update_clears_Linear_not_Stack sampleEnv sampleStateLive (by decide)

theorem capacities_val :
    (ms_capacities 0).val = 0 ∧ (ms_capacities 1).val = 1048576 ∧
      (ms_capacities 2).val = 1048576 ∧ (ms_capacities 3).val = 67108864 ∧
      (ms_capacities 4).val = 0 := by decide

/-- The region slots and the call log after the loop of `Init`. -/
theorem Init_loop {σ : Type} (env : Env σ) (malloc : Nat → i32 → Nat) (s : State σ) :
    (rows.foldl (InitRow env malloc) s).ms_allocations =
      Function.update (Function.update (Function.update (Function.update
        (Function.update s.ms_allocations 0 0) 1 (malloc 1 (ms_capacities 1)))
        2 (malloc 2 (ms_capacities 2))) 3 (malloc 3 (ms_capacities 3))) 4 0 ∧
    (rows.foldl (InitRow env malloc) s).log = s.log ++
      [Event.stratInit 0 0 (ms_capacities 0),
        Event.malloc (ms_capacities 1) (malloc 1 (ms_capacities 1)),
        Event.stratInit 1 (malloc 1 (ms_capacities 1)) (ms_capacities 1),
        Event.malloc (ms_capacities 2) (malloc 2 (ms_capacities 2)),
        Event.stratInit 2 (malloc 2 (ms_capacities 2)) (ms_capacities 2),
        Event.malloc (ms_capacities 3) (malloc 3 (ms_capacities 3)),
        Event.stratInit 3 (malloc 3 (ms_capacities 3)) (ms_capacities 3),
        Event.stratInit 4 0 (ms_capacities 4)] := by
  obtain ⟨c0, c1, c2, c3, c4⟩ := capacities_val
  constructor
  · simp [rows_eq, List.foldl, InitRow, c0, c1, c2, c3, c4]
  · simp [rows_eq, List.foldl, InitRow, c0, c1, c2, c3, c4]

/-- The region slots, the ledger and the call log after the loop of
`Shutdown`. -/
theorem Shutdown_loop {σ : Type} (env : Env σ) (s : State σ) :
    (rows.foldl (ShutdownRow env) s).ms_allocations =
      Function.update (Function.update (Function.update (Function.update
        (Function.update s.ms_allocations 0 0) 1 0) 2 0) 3 0) 4 0 ∧
    (rows.foldl (ShutdownRow env) s).ms_tracker = s.ms_tracker ∧
    (rows.foldl (ShutdownRow env) s).log = s.log ++
      rows.flatMap (fun i => [Event.stratShutdown i]
        ++ (if s.ms_allocations i ≠ 0 then [Event.free (s.ms_allocations i)] else [])) := by
  refine ⟨?_, ?_, ?_⟩
  · simp [rows_eq, List.foldl, ShutdownRow]
  · simp [rows_eq, List.foldl, ShutdownRow]
  · simp [rows_eq, List.foldl, ShutdownRow, Function.update, List.flatMap]

theorem mem_rows (i : Nat) : i ∈ rows ↔ i = 0 ∨ i = 1 ∨ i = 2 ∨ i = 3 ∨ i = 4 := by
  rw [rows_eq]
  simp

/-- The strategy values and the memory after the loop of `Init`: row `i` holds
what its `Init` made of its old value, called with the Region and the capacity
of the row on the memory the rows before it left. -/
theorem Init_loop_strategies {σ : Type} (env : Env σ) (malloc : Nat → i32 → Nat)
    (s : State σ) :
    ∃ m1 m2 m3 m4 : Memory,
      (env.ms_tables 0).Init (s.ms_allocators 0) s.mem 0 (ms_capacities 0)
        = ((rows.foldl (InitRow env malloc) s).ms_allocators 0, m1) ∧
      (env.ms_tables 1).Init (s.ms_allocators 1) m1 (malloc 1 (ms_capacities 1))
          (ms_capacities 1)
        = ((rows.foldl (InitRow env malloc) s).ms_allocators 1, m2) ∧
      (env.ms_tables 2).Init (s.ms_allocators 2) m2 (malloc 2 (ms_capacities 2))
          (ms_capacities 2)
        = ((rows.foldl (InitRow env malloc) s).ms_allocators 2, m3) ∧
      (env.ms_tables 3).Init (s.ms_allocators 3) m3 (malloc 3 (ms_capacities 3))
          (ms_capacities 3)
        = ((rows.foldl (InitRow env malloc) s).ms_allocators 3, m4) ∧
      (env.ms_tables 4).Init (s.ms_allocators 4) m4 0 (ms_capacities 4)
        = ((rows.foldl (InitRow env malloc) s).ms_allocators 4,
            (rows.foldl (InitRow env malloc) s).mem) ∧
      ∀ i : Nat, i ∉ rows →
        (rows.foldl (InitRow env malloc) s).ms_allocators i = s.ms_allocators i := by
  obtain ⟨c0, c1, c2, c3, c4⟩ := capacities_val
  obtain ⟨r0, hr0⟩ : ∃ r, r = (env.ms_tables 0).Init (s.ms_allocators 0) s.mem 0
    (ms_capacities 0) := ⟨_, rfl⟩
  obtain ⟨r1, hr1⟩ : ∃ r, r = (env.ms_tables 1).Init (s.ms_allocators 1) r0.2
    (malloc 1 (ms_capacities 1)) (ms_capacities 1) := ⟨_, rfl⟩
  obtain ⟨r2, hr2⟩ : ∃ r, r = (env.ms_tables 2).Init (s.ms_allocators 2) r1.2
    (malloc 2 (ms_capacities 2)) (ms_capacities 2) := ⟨_, rfl⟩
  obtain ⟨r3, hr3⟩ : ∃ r, r = (env.ms_tables 3).Init (s.ms_allocators 3) r2.2
    (malloc 3 (ms_capacities 3)) (ms_capacities 3) := ⟨_, rfl⟩
  obtain ⟨r4, hr4⟩ : ∃ r, r = (env.ms_tables 4).Init (s.ms_allocators 4) r3.2 0
    (ms_capacities 4) := ⟨_, rfl⟩
  have hA : (rows.foldl (InitRow env malloc) s).ms_allocators =
      Function.update (Function.update (Function.update (Function.update
        (Function.update s.ms_allocators 0 r0.1) 1 r1.1) 2 r2.1) 3 r3.1) 4 r4.1 := by
    subst hr4
    subst hr3
    subst hr2
    subst hr1
    subst hr0
    simp [rows_eq, List.foldl, InitRow, c0, c1, c2, c3, c4]
  have hM : (rows.foldl (InitRow env malloc) s).mem = r4.2 := by
    subst hr4
    subst hr3
    subst hr2
    subst hr1
    subst hr0
    simp [rows_eq, List.foldl, InitRow, c0, c1, c2, c3, c4]
  rw [hA, hM]
  refine ⟨r0.2, r1.2, r2.2, r3.2, ?_, ?_, ?_, ?_, ?_, ?_⟩
  · rw [← hr0]
    simp [Function.update]
  · rw [← hr1]
    simp [Function.update]
  · rw [← hr2]
    simp [Function.update]
  · rw [← hr3]
    simp [Function.update]
  · rw [← hr4]
    simp [Function.update]
  · intro i hi
    rw [mem_rows] at hi
    simp only [not_or] at hi
    obtain ⟨h0, h1, h2, h3, h4⟩ := hi
    simp [Function.update, h0, h1, h2, h3, h4]

/-- The strategy values and the memory after the loop of `Shutdown`: row `i`
holds what its `Shutdown` made of its old value, called on the memory the rows
before it left. -/
theorem Shutdown_loop_strategies {σ : Type} (env : Env σ) (s : State σ) :
    ∃ m1 m2 m3 m4 : Memory,
      (env.ms_tables 0).Shutdown (s.ms_allocators 0) s.mem
        = ((rows.foldl (ShutdownRow env) s).ms_allocators 0, m1) ∧
      (env.ms_tables 1).Shutdown (s.ms_allocators 1) m1
        = ((rows.foldl (ShutdownRow env) s).ms_allocators 1, m2) ∧
      (env.ms_tables 2).Shutdown (s.ms_allocators 2) m2
        = ((rows.foldl (ShutdownRow env) s).ms_allocators 2, m3) ∧
      (env.ms_tables 3).Shutdown (s.ms_allocators 3) m3
        = ((rows.foldl (ShutdownRow env) s).ms_allocators 3, m4) ∧
      (env.ms_tables 4).Shutdown (s.ms_allocators 4) m4
        = ((rows.foldl (ShutdownRow env) s).ms_allocators 4,
            (rows.foldl (ShutdownRow env) s).mem) ∧
      ∀ i : Nat, i ∉ rows →
        (rows.foldl (ShutdownRow env) s).ms_allocators i = s.ms_allocators i := by
  obtain ⟨r0, hr0⟩ : ∃ r, r = (env.ms_tables 0).Shutdown (s.ms_allocators 0) s.mem := ⟨_, rfl⟩
  obtain ⟨r1, hr1⟩ : ∃ r, r = (env.ms_tables 1).Shutdown (s.ms_allocators 1) r0.2 := ⟨_, rfl⟩
  obtain ⟨r2, hr2⟩ : ∃ r, r = (env.ms_tables 2).Shutdown (s.ms_allocators 2) r1.2 := ⟨_, rfl⟩
  obtain ⟨r3, hr3⟩ : ∃ r, r = (env.ms_tables 3).Shutdown (s.ms_allocators 3) r2.2 := ⟨_, rfl⟩
  obtain ⟨r4, hr4⟩ : ∃ r, r = (env.ms_tables 4).Shutdown (s.ms_allocators 4) r3.2 := ⟨_, rfl⟩
  have hA : (rows.foldl (ShutdownRow env) s).ms_allocators =
      Function.update (Function.update (Function.update (Function.update
        (Function.update s.ms_allocators 0 r0.1) 1 r1.1) 2 r2.1) 3 r3.1) 4 r4.1 := by
    subst hr4
    subst hr3
    subst hr2
    subst hr1
    subst hr0
    simp [rows_eq, List.foldl, ShutdownRow]
  have hM : (rows.foldl (ShutdownRow env) s).mem = r4.2 := by
    subst hr4
    subst hr3
    subst hr2
    subst hr1
    subst hr0
    simp [rows_eq, List.foldl, ShutdownRow]
  rw [hA, hM]
  refine ⟨r0.2, r1.2, r2.2, r3.2, ?_, ?_, ?_, ?_, ?_, ?_⟩
  · rw [← hr0]
    simp [Function.update]
  · rw [← hr1]
    simp [Function.update]
  · rw [← hr2]
    simp [Function.update]
  · rw [← hr3]
    simp [Function.update]
  · rw [← hr4]
    simp [Function.update]
  · intro i hi
    rw [mem_rows] at hi
    simp only [not_or] at hi
    obtain ⟨h0, h1, h2, h3, h4⟩ := hi
    simp [Function.update, h0, h1, h2, h3, h4]

/-- C19. On a registry that is not initialized `Init()` handles the five rows
in order: for a row of capacity `> 0` it asks the platform allocator for that
many bytes, for a row of capacity 0 it takes the null Region; it stores the
Region in the row's slot and calls the row's `Init` with (Region, capacity),
once per row: afterwards the strategy value of each row is the one its `Init`
returned for the old value, the Region in the row's slot and the capacity of
the row, on the memory the rows before it left, and the memory is the one the
last row left. The capacities are 0 for Stdlib and Debug (both rows hold the
Stdlib strategy), 1 MiB for Linear and Stack and 64 MiB for the Pool; when the
platform allocator answers non-null, a slot is null if and only if the
capacity of its row is 0. -/
theorem C19_Init_regions {σ : Type} (env : Env σ) (malloc : Nat → i32 → Nat) (s : State σ)
    (h : s.ms_init = false) :
    ∃ s1 : State σ, Init env malloc s = .ok s1 ∧
      (∀ i ∈ rows, s1.ms_allocations i
        = if (ms_capacities i).val > 0 then malloc i (ms_capacities i) else 0) ∧
      s1.log = s.log ++
        [Event.stratInit (row Alloc_Stdlib) 0 (ms_capacities (row Alloc_Stdlib)),
          Event.malloc (ms_capacities (row Alloc_Linear))
            (s1.ms_allocations (row Alloc_Linear)),
          Event.stratInit (row Alloc_Linear) (s1.ms_allocations (row Alloc_Linear))
            (ms_capacities (row Alloc_Linear)),
          Event.malloc (ms_capacities (row Alloc_Stack)) (s1.ms_allocations (row Alloc_Stack)),
          Event.stratInit (row Alloc_Stack) (s1.ms_allocations (row Alloc_Stack))
            (ms_capacities (row Alloc_Stack)),
          Event.malloc (ms_capacities (row Alloc_Pool)) (s1.ms_allocations (row Alloc_Pool)),
          Event.stratInit (row Alloc_Pool) (s1.ms_allocations (row Alloc_Pool))
            (ms_capacities (row Alloc_Pool)),
          Event.stratInit (row Alloc_Debug) 0 (ms_capacities (row Alloc_Debug))] ∧
      (ms_capacities (row Alloc_Stdlib)).val = 0 ∧
      (ms_capacities (row Alloc_Debug)).val = 0 ∧
      (ms_capacities (row Alloc_Linear)).val = 1048576 ∧
      (ms_capacities (row Alloc_Stack)).val = 1048576 ∧
      (ms_capacities (row Alloc_Pool)).val = 64 * 1048576 ∧
      ms_tables_names (row Alloc_Stdlib) = Strategy.Stdlib ∧
      ms_tables_names (row Alloc_Debug) = Strategy.Stdlib ∧
      s1.ms_allocations (row Alloc_Stdlib) = 0 ∧ s1.ms_allocations (row Alloc_Debug) = 0 ∧
      ((∀ i ∈ rows, (ms_capacities i).val > 0 → malloc i (ms_capacities i) ≠ 0) →
        ∀ i ∈ rows, (s1.ms_allocations i = 0 ↔ (ms_capacities i).val = 0)) ∧
      (∃ m1 m2 m3 m4 : Memory,
        (env.ms_tables (row Alloc_Stdlib)).Init (s.ms_allocators (row Alloc_Stdlib)) s.mem
            (s1.ms_allocations (row Alloc_Stdlib)) (ms_capacities (row Alloc_Stdlib))
          = (s1.ms_allocators (row Alloc_Stdlib), m1) ∧
        (env.ms_tables (row Alloc_Linear)).Init (s.ms_allocators (row Alloc_Linear)) m1
            (s1.ms_allocations (row Alloc_Linear)) (ms_capacities (row Alloc_Linear))
          = (s1.ms_allocators (row Alloc_Linear), m2) ∧
        (env.ms_tables (row Alloc_Stack)).Init (s.ms_allocators (row Alloc_Stack)) m2
            (s1.ms_allocations (row Alloc_Stack)) (ms_capacities (row Alloc_Stack))
          = (s1.ms_allocators (row Alloc_Stack), m3) ∧
        (env.ms_tables (row Alloc_Pool)).Init (s.ms_allocators (row Alloc_Pool)) m3
            (s1.ms_allocations (row Alloc_Pool)) (ms_capacities (row Alloc_Pool))
          = (s1.ms_allocators (row Alloc_Pool), m4) ∧
        (env.ms_tables (row Alloc_Debug)).Init (s.ms_allocators (row Alloc_Debug)) m4
            (s1.ms_allocations (row Alloc_Debug)) (ms_capacities (row Alloc_Debug))
          = (s1.ms_allocators (row Alloc_Debug), s1.mem)) ∧
      (∀ i : Nat, i ∉ rows → s1.ms_allocators i = s.ms_allocators i) := by
  obtain ⟨c0, c1, c2, c3, c4⟩ := capacities_val
  obtain ⟨hA, hL⟩ := Init_loop env malloc s
  obtain ⟨m1, m2, m3, m4, i0, i1, i2, i3, i4, iother⟩ := Init_loop_strategies env malloc s
  have hstd : row Alloc_Stdlib = 0 := by decide
  have hlin : row Alloc_Linear = 1 := by decide
  have hstk : row Alloc_Stack = 2 := by decide
  have hpool : row Alloc_Pool = 3 := by decide
  have hdbg : row Alloc_Debug = 4 := by decide
  have hslots : ∀ i ∈ rows, (rows.foldl (InitRow env malloc) s).ms_allocations i
      = if (ms_capacities i).val > 0 then malloc i (ms_capacities i) else 0 := by
    intro i hi
    rw [hA]
    rcases (mem_rows i).1 hi with rfl | rfl | rfl | rfl | rfl <;>
      simp [Function.update, c0, c1, c2, c3, c4]
  have a0 : (rows.foldl (InitRow env malloc) s).ms_allocations 0 = 0 := by
    rw [hA]
    simp [Function.update]
  have a1 : (rows.foldl (InitRow env malloc) s).ms_allocations 1
      = malloc 1 (ms_capacities 1) := by
    rw [hA]
    simp [Function.update]
  have a2 : (rows.foldl (InitRow env malloc) s).ms_allocations 2
      = malloc 2 (ms_capacities 2) := by
    rw [hA]
    simp [Function.update]
  have a3 : (rows.foldl (InitRow env malloc) s).ms_allocations 3
      = malloc 3 (ms_capacities 3) := by
    rw [hA]
    simp [Function.update]
  have a4 : (rows.foldl (InitRow env malloc) s).ms_allocations 4 = 0 := by
    rw [hA]
    simp [Function.update]
  rw [hstd, hlin, hstk, hpool, hdbg]
  refine ⟨_, Init_ok env malloc s h, hslots, ?_, c0, c4, c1, c2, c3, by decide, by decide,
    a0, a4, ?_, ?_, iother⟩
  · show (rows.foldl (InitRow env malloc) s).log = _
    rw [hL, a1, a2, a3]
  · intro hm i hi
    show (rows.foldl (InitRow env malloc) s).ms_allocations i = 0 ↔ _
    rw [hslots i hi]
    by_cases hc : (ms_capacities i).val > 0
    · rw [if_pos hc]
      constructor
      · intro h0
        exact absurd h0 (hm i hi hc)
      · intro h0
        omega
    · rw [if_neg hc]
      have hr := (ms_capacities i).property
      rcases (mem_rows i).1 hi with rfl | rfl | rfl | rfl | rfl <;> simp_all
  · refine ⟨m1, m2, m3, m4, ?_, ?_, ?_, ?_, ?_⟩
    · show (env.ms_tables 0).Init (s.ms_allocators 0) s.mem
        ((rows.foldl (InitRow env malloc) s).ms_allocations 0) (ms_capacities 0) = _
      rw [a0]
      exact i0
    · show (env.ms_tables 1).Init (s.ms_allocators 1) m1
        ((rows.foldl (InitRow env malloc) s).ms_allocations 1) (ms_capacities 1) = _
      rw [a1]
      exact i1
    · show (env.ms_tables 2).Init (s.ms_allocators 2) m2
        ((rows.foldl (InitRow env malloc) s).ms_allocations 2) (ms_capacities 2) = _
      rw [a2]
      exact i2
    · show (env.ms_tables 3).Init (s.ms_allocators 3) m3
        ((rows.foldl (InitRow env malloc) s).ms_allocations 3) (ms_capacities 3) = _
      rw [a3]
      exact i3
    · show (env.ms_tables 4).Init (s.ms_allocators 4) m4
        ((rows.foldl (InitRow env malloc) s).ms_allocations 4) (ms_capacities 4) = _
      rw [a4]
      exact i4

/-- On the sample registry, `Init` from the start state stores the Regions the
sample platform allocator answers with; on the registry of recording
strategies, every strategy value is, after `Init`, the Region and the capacity
its `Init` was called with. -/
theorem C19_Init_regions_witness :
    (∃ s1 : State Nat, Init sampleEnv sampleMalloc sampleStateStart = .ok s1 ∧
      s1.ms_allocations 0 = 0 ∧ s1.ms_allocations 1 = 131072 ∧
      s1.ms_allocations 2 = 196608 ∧ s1.ms_allocations 3 = 262144 ∧
      s1.ms_allocations 4 = 0 ∧
      ∀ i ∈ rows, (s1.ms_allocations i = 0 ↔ (ms_capacities i).val = 0)) ∧
    (∃ s1 : State (Nat × i32), Init regionEnv sampleMalloc regionStateStart = .ok s1 ∧
      regionStateStart.ms_allocators 3 = (7, 7) ∧
      s1.ms_allocators 0 = (0, ms_capacities 0) ∧
      s1.ms_allocators 1 = (131072, ms_capacities 1) ∧
      s1.ms_allocators 2 = (196608, ms_capacities 2) ∧
      s1.ms_allocators 3 = (262144, ms_capacities 3) ∧
      s1.ms_allocators 4 = (0, ms_capacities 4)) := by
  constructor
  · obtain ⟨s1, h1, h2, _, _, _, _, _, _, _, _, _, _, h3, _⟩ :=
      C19_Init_regions sampleEnv sampleMalloc sampleStateStart rfl
    refine ⟨s1, h1, ?_, ?_, ?_, ?_, ?_, h3 ?_⟩
    · rw [h2 0 (by decide)]; decide
    · rw [h2 1 (by decide)]; decide
    · rw [h2 2 (by decide)]; decide
    · rw [h2 3 (by decide)]; decide
    · rw [h2 4 (by decide)]; decide
    · intro i _ _
      simp [sampleMalloc]
  · obtain ⟨s1, h1, h2, _, _, _, _, _, _, _, _, _, _, _, ⟨m1, m2, m3, m4, i0, i1, i2, i3, i4⟩, _⟩ :=
      C19_Init_regions regionEnv sampleMalloc regionStateStart rfl
    have e0 := h2 0 (by decide)
    have e1 := h2 1 (by decide)
    have e2 := h2 2 (by decide)
    have e3 := h2 3 (by decide)
    have e4 := h2 4 (by decide)
    have r0 : row Alloc_Stdlib = 0 := by decide
    have r1 : row Alloc_Linear = 1 := by decide
    have r2 : row Alloc_Stack = 2 := by decide
    have r3 : row Alloc_Pool = 3 := by decide
    have r4 : row Alloc_Debug = 4 := by decide
    rw [r0, e0] at i0
    rw [r1, e1] at i1
    rw [r2, e2] at i2
    rw [r3, e3] at i3
    rw [r4, e4] at i4
    refine ⟨s1, h1, rfl, ?_, ?_, ?_, ?_, ?_⟩
    · rw [← (Prod.mk.inj i0).1]
      decide
    · rw [← (Prod.mk.inj i1).1]
      decide
    · rw [← (Prod.mk.inj i2).1]
      decide
    · rw [← (Prod.mk.inj i3).1]
      decide
    · rw [← (Prod.mk.inj i4).1]
      decide

/-- The registry of recording strategies once initialized by hand: every row
holds its Region and its capacity. -/
theorem regionInit_eq :
    ∃ s1 : State (Nat × i32), Init regionEnv sampleMalloc regionStateStart = .ok s1 ∧
      s1.ms_init = true ∧ s1.ms_allocators 3 = (262144, ms_capacities 3) :=
  ⟨_, rfl, rfl, by decide⟩

/-- C20. On an initialized registry `Shutdown()` handles the five rows in
order: it calls the row's `Shutdown` (afterwards the strategy value of each row
is the one its `Shutdown` returned for the old value, on the memory the rows
before it left), and releases the row's Region when it is not null, once;
afterwards every region slot is null and the registry is not initialized (and,
with the tracker compiled in, the leaks are listed). Hence from a state that is
not initialized and whose slots are null, `Init` followed by `Shutdown` brings
the slots and the initialized flag back to their values before `Init`. -/
theorem C20_Shutdown_releases_regions {σ : Type} (env : Env σ) (malloc : Nat → i32 → Nat)
    (s : State σ) :
    (s.ms_init = true →
      ∃ s1 : State σ, Shutdown env s = .ok s1 ∧ s1.ms_init = false ∧
        (∀ i ∈ rows, s1.ms_allocations i = 0) ∧
        s1.log = s.log ++
          rows.flatMap (fun i => [Event.stratShutdown i]
            ++ (if s.ms_allocations i ≠ 0 then [Event.free (s.ms_allocations i)] else []))
          ++ (if env.ENABLE_LEAK_TRACKER = true then [Event.ListLeaks s.ms_tracker] else []) ∧
        (∃ m1 m2 m3 m4 : Memory,
          (env.ms_tables (row Alloc_Stdlib)).Shutdown (s.ms_allocators (row Alloc_Stdlib)) s.mem
            = (s1.ms_allocators (row Alloc_Stdlib), m1) ∧
          (env.ms_tables (row Alloc_Linear)).Shutdown (s.ms_allocators (row Alloc_Linear)) m1
            = (s1.ms_allocators (row Alloc_Linear), m2) ∧
          (env.ms_tables (row Alloc_Stack)).Shutdown (s.ms_allocators (row Alloc_Stack)) m2
            = (s1.ms_allocators (row Alloc_Stack), m3) ∧
          (env.ms_tables (row Alloc_Pool)).Shutdown (s.ms_allocators (row Alloc_Pool)) m3
            = (s1.ms_allocators (row Alloc_Pool), m4) ∧
          (env.ms_tables (row Alloc_Debug)).Shutdown (s.ms_allocators (row Alloc_Debug)) m4
            = (s1.ms_allocators (row Alloc_Debug), s1.mem)) ∧
        (∀ i : Nat, i ∉ rows → s1.ms_allocators i = s.ms_allocators i)) ∧
    (s.ms_init = false → (∀ i ∈ rows, s.ms_allocations i = 0) →
      ∃ s1 s2 : State σ, Init env malloc s = .ok s1 ∧ Shutdown env s1 = .ok s2 ∧
        s2.ms_init = s.ms_init ∧ s2.ms_allocations = s.ms_allocations) := by
  constructor
  · intro h
    obtain ⟨hA, hT, hL⟩ := Shutdown_loop env s
    obtain ⟨m1, m2, m3, m4, i0, i1, i2, i3, i4, iother⟩ := Shutdown_loop_strategies env s
    refine ⟨_, Shutdown_eq env s h, rfl, ?_, ?_, ⟨m1, m2, m3, m4, i0, i1, i2, i3, i4⟩, iother⟩
    · intro i hi
      show (rows.foldl (ShutdownRow env) s).ms_allocations i = 0
      rw [hA]
      rcases (mem_rows i).1 hi with rfl | rfl | rfl | rfl | rfl <;> simp [Function.update]
    · show (rows.foldl (ShutdownRow env) s).log ++ _ = _
      rw [hL, hT]
  · intro h hz
    obtain ⟨hA, _⟩ := Init_loop env malloc s
    obtain ⟨hA2, _, _⟩ := Shutdown_loop env
      { rows.foldl (InitRow env malloc) s with ms_init := true }
    refine ⟨_, _, Init_ok env malloc s h, Shutdown_eq env _ rfl, h.symm, ?_⟩
    show (rows.foldl (ShutdownRow env)
      { rows.foldl (InitRow env malloc) s with ms_init := true }).ms_allocations = _
    rw [hA2]
    show Function.update (Function.update (Function.update (Function.update (Function.update
      (rows.foldl (InitRow env malloc) s).ms_allocations 0 0) 1 0) 2 0) 3 0) 4 0 = _
    rw [hA]
    funext i
    have h0 := hz 0 (by decide)
    have h1 := hz 1 (by decide)
    have h2 := hz 2 (by decide)
    have h3 := hz 3 (by decide)
    have h4 := hz 4 (by decide)
    simp only [Function.update, eq_rec_constant, dite_eq_ite]
    split_ifs <;> simp_all

/-- On the sample registry: `Shutdown` of the initialized state with one live
block calls the `Shutdown` of the Linear row, whose cursor goes from 48 back to
0; `Init` followed by `Shutdown` from the start state. On the registry of
recording strategies, `Shutdown` after `Init` makes the Pool row forget the
Region it held. -/
theorem C20_Shutdown_releases_regions_witness :
    (∃ s1 : State Nat, Shutdown sampleEnv sampleStateLive = .ok s1 ∧ s1.ms_init = false ∧
      (∀ i ∈ rows, s1.ms_allocations i = 0) ∧
      s1.log = sampleStateLive.log ++
        [Event.stratShutdown 0, Event.free 65536, Event.stratShutdown 1, Event.free 131072,
          Event.stratShutdown 2, Event.free 196608, Event.stratShutdown 3, Event.free 262144,
          Event.stratShutdown 4, Event.free 327680,
          Event.ListLeaks [{ address := 131072, size := 48 }]] ∧
      sampleStateLive.ms_allocators 1 = 48 ∧ s1.ms_allocators 1 = 0) ∧
    (∃ s1 s2 : State Nat, Init sampleEnv sampleMalloc sampleStateStart = .ok s1 ∧
      Shutdown sampleEnv s1 = .ok s2 ∧ s2.ms_init = sampleStateStart.ms_init ∧
      s2.ms_allocations = sampleStateStart.ms_allocations) ∧
    (∃ s1 s2 : State (Nat × i32), Init regionEnv sampleMalloc regionStateStart = .ok s1 ∧
      s1.ms_allocators 3 = (262144, ms_capacities 3) ∧
      Shutdown regionEnv s1 = .ok s2 ∧ s2.ms_allocators 3 = (0, 0)) := by
  refine ⟨?_, ?_, ?_⟩
  · obtain ⟨s1, h1, h2, h3, h4, ⟨m1, m2, m3, m4, _, i1, _⟩, _⟩ :=
      (C20_Shutdown_releases_regions sampleEnv sampleMalloc sampleStateLive).1 (by decide)
    refine ⟨s1, h1, h2, h3, by rw [h4]; decide, by decide, ?_⟩
    have r1 : row Alloc_Linear = 1 := by decide
    rw [r1] at i1
    rw [← (Prod.mk.inj i1).1]
  · exact (C20_Shutdown_releases_regions sampleEnv sampleMalloc sampleStateStart).2 rfl
      (fun _ _ => rfl)
  · obtain ⟨s1, h1, hi, ha⟩ := regionInit_eq
    obtain ⟨s2, h2, _, _, _, ⟨m1, m2, m3, m4, _, _, _, i3, _⟩, _⟩ :=
      (C20_Shutdown_releases_regions regionEnv sampleMalloc s1).1 hi
    have r3 : row Alloc_Pool = 3 := by decide
    rw [r3] at i3
    refine ⟨s1, s2, h1, ha, h2, ?_⟩
    rw [← (Prod.mk.inj i3).1]

/-! ## Tracker notifications and the Pool -/

/-- The ledger a successful `AllocDispatch` leaves behind. -/
theorem AllocDispatch_tracker {σ : Type} (env : Env σ) (s : State σ) (type w : i32) (p : Nat)
    (s1 : State σ) (h : AllocDispatch env s type w = .ok (p, s1)) :
    s1.ms_tracker = if (env.ENABLE_LEAK_TRACKER && (type != Alloc_Debug)) = true
      then OnAlloc s.ms_tracker (p - sizeofHeader) w else s.ms_tracker := by
  unfold AllocDispatch at h
  simp only at h
  split at h
  · cases h
  · split at h
    · cases h
    · simp only [Except.ok.injEq, Prod.mk.injEq] at h
      obtain ⟨hp, hs⟩ := h
      subst hp
      subst hs
      rw [Nat.add_sub_cancel]

/-- The ledger a successful `ReallocDispatch` leaves behind. -/
theorem ReallocDispatch_tracker {σ : Type} (env : Env σ) (s : State σ) (hdr : Nat) (w : i32)
    (p : Nat) (s1 : State σ) (h : ReallocDispatch env s hdr w = .ok (p, s1)) :
    s1.ms_tracker =
      if (env.ENABLE_LEAK_TRACKER && ((s.mem.hdr hdr).type != Alloc_Debug)) = true
      then OnRealloc s.ms_tracker hdr (p - sizeofHeader) w else s.ms_tracker := by
  unfold ReallocDispatch at h
  simp only at h
  split at h
  · cases h
  · split at h
    · cases h
    · split at h
      · cases h
      · split at h
        · cases h
        · simp only [Except.ok.injEq, Prod.mk.injEq] at h
          obtain ⟨hp, hs⟩ := h
          subst hp
          subst hs
          rw [Nat.add_sub_cancel]

/-- The ledger a successful `Free` of a non-null pointer leaves behind. -/
theorem Free_tracker {σ : Type} (env : Env σ) (s : State σ) (prev : Nat) (s1 : State σ)
    (hp : prev ≠ 0) (h : Free env s prev = .ok s1) :
    s1.ms_tracker =
      if (env.ENABLE_LEAK_TRACKER &&
          ((s.mem.hdr (prev - sizeofHeader)).type != Alloc_Debug)) = true
      then OnFree s.ms_tracker (prev - sizeofHeader) else s.ms_tracker := by
  unfold Free at h
  rw [if_pos hp] at h
  split at h
  · cases h
  · simp only at h
    split at h
    · cases h
    · split at h
      · cases h
      · simp only [Except.ok.injEq] at h
        subst h
        rfl

theorem tracked_of_ne (b : Bool) (t : i32) (hb : b = true) (ht : t ≠ Alloc_Debug) :
    (b && (t != Alloc_Debug)) = true := by
  simp [hb, ht]

theorem untracked_of_eq (b : Bool) (t : i32) (ht : t = Alloc_Debug) :
    (b && (t != Alloc_Debug)) = false := by
  simp [ht]

/-- C21. With the tracker compiled in, the facade notifies it on a successful
`Alloc`, on a `Realloc` that dispatches and on a `Free` of a non-null pointer
if and only if the kind of the block is not Debug (the caller's kind for
`Alloc`, the Header's kind for `Realloc` and `Free`). When the assertions of
the call pass (for `Alloc` and `Realloc`: the strategy answers with a non-null,
aligned block), the call returns and the call log gains `OnAlloc(header, padded
size)`, `OnRealloc(old header, new header, padded size)`, `OnFree(header)` and
the ledger is updated accordingly; for a Debug block the call returns, the log
gains no notification and the ledger is unchanged. The same holds of every such
call that returns. -/
theorem C21_tracker_notified_unless_Debug {σ : Type} (env : Env σ) (s : State σ)
    (htr : env.ENABLE_LEAK_TRACKER = true) :
    (∀ (type bytes w : i32) (hdr : Nat), ValidAllocator s type = true → 0 < bytes.val →
      PadRequest bytes = .ok w →
      ((env.ms_tables (row type)).Alloc (s.ms_allocators (row type)) s.mem w).1 = hdr →
      hdr ≠ 0 → IsAligned (hdr + sizeofHeader) = true →
      ∃ s1 : State σ, Alloc env s type bytes = .ok (hdr + sizeofHeader, s1) ∧
        (type ≠ Alloc_Debug →
          s1.log = s.log ++ [Event.stratAlloc type w, Event.stamp hdr w type,
            Event.OnAlloc hdr w] ∧
          s1.ms_tracker = OnAlloc s.ms_tracker hdr w) ∧
        (type = Alloc_Debug →
          s1.log = s.log ++ [Event.stratAlloc type w, Event.stamp hdr w type] ∧
          s1.ms_tracker = s.ms_tracker)) ∧
    (∀ (type : i32) (prev : Nat) (bytes w : i32) (newHdr : Nat),
      ValidAllocator s type = true → prev ≠ 0 → 0 < bytes.val →
      0 < (i32.sub (s.mem.hdr (prev - sizeofHeader)).size PadBytes).val →
      bytes ≠ i32.sub (s.mem.hdr (prev - sizeofHeader)).size PadBytes →
      PadRequest bytes = .ok w →
      ValidAllocator s (s.mem.hdr (prev - sizeofHeader)).type = true →
      (s.ms_init = true ∨ (s.mem.hdr (prev - sizeofHeader)).type = Alloc_Stdlib) →
      ((env.ms_tables (row (s.mem.hdr (prev - sizeofHeader)).type)).Realloc
        (s.ms_allocators (row (s.mem.hdr (prev - sizeofHeader)).type)) s.mem
        (prev - sizeofHeader) w).1 = newHdr →
      newHdr ≠ 0 → IsAligned (newHdr + sizeofHeader) = true →
      ∃ s1 : State σ, Realloc env s type prev bytes = .ok (newHdr + sizeofHeader, s1) ∧
        ((s.mem.hdr (prev - sizeofHeader)).type ≠ Alloc_Debug →
          s1.log = s.log ++
            [Event.stratRealloc (s.mem.hdr (prev - sizeofHeader)).type (prev - sizeofHeader) w,
              Event.stamp newHdr w (s.mem.hdr (prev - sizeofHeader)).type,
              Event.OnRealloc (prev - sizeofHeader) newHdr w] ∧
          s1.ms_tracker = OnRealloc s.ms_tracker (prev - sizeofHeader) newHdr w) ∧
        ((s.mem.hdr (prev - sizeofHeader)).type = Alloc_Debug →
          s1.log = s.log ++
            [Event.stratRealloc (s.mem.hdr (prev - sizeofHeader)).type (prev - sizeofHeader) w,
              Event.stamp newHdr w (s.mem.hdr (prev - sizeofHeader)).type] ∧
          s1.ms_tracker = s.ms_tracker)) ∧
    (∀ (prev : Nat), prev ≠ 0 → IsAligned prev = true →
      0 < (s.mem.hdr (prev - sizeofHeader)).size.val →
      ValidAllocator s (s.mem.hdr (prev - sizeofHeader)).type = true →
      ∃ s1 : State σ, Free env s prev = .ok s1 ∧
        ((s.mem.hdr (prev - sizeofHeader)).type ≠ Alloc_Debug →
          s1.log = s.log ++
            [Event.stratFree (s.mem.hdr (prev - sizeofHeader)).type (prev - sizeofHeader),
              Event.OnFree (prev - sizeofHeader)] ∧
          s1.ms_tracker = OnFree s.ms_tracker (prev - sizeofHeader)) ∧
        ((s.mem.hdr (prev - sizeofHeader)).type = Alloc_Debug →
          s1.log = s.log ++
            [Event.stratFree (s.mem.hdr (prev - sizeofHeader)).type (prev - sizeofHeader)] ∧
          s1.ms_tracker = s.ms_tracker)) ∧
    (∀ (type bytes : i32) (p : Nat) (s1 : State σ), 0 < bytes.val →
      Alloc env s type bytes = .ok (p, s1) →
      ∃ w : i32, PadRequest bytes = .ok w ∧
        (type ≠ Alloc_Debug →
          s1.log = s.log ++ [Event.stratAlloc type w, Event.stamp (p - sizeofHeader) w type,
            Event.OnAlloc (p - sizeofHeader) w] ∧
          s1.ms_tracker = OnAlloc s.ms_tracker (p - sizeofHeader) w) ∧
        (type = Alloc_Debug →
          s1.log = s.log ++ [Event.stratAlloc type w, Event.stamp (p - sizeofHeader) w type] ∧
          s1.ms_tracker = s.ms_tracker)) ∧
    (∀ (type : i32) (prev : Nat) (bytes : i32) (p : Nat) (s1 : State σ), prev ≠ 0 →
      0 < bytes.val → bytes ≠ i32.sub (s.mem.hdr (prev - sizeofHeader)).size PadBytes →
      Realloc env s type prev bytes = .ok (p, s1) →
      ∃ w : i32, PadRequest bytes = .ok w ∧
        ((s.mem.hdr (prev - sizeofHeader)).type ≠ Alloc_Debug →
          s1.log = s.log ++
            [Event.stratRealloc (s.mem.hdr (prev - sizeofHeader)).type (prev - sizeofHeader) w,
              Event.stamp (p - sizeofHeader) w (s.mem.hdr (prev - sizeofHeader)).type,
              Event.OnRealloc (prev - sizeofHeader) (p - sizeofHeader) w] ∧
          s1.ms_tracker
            = OnRealloc s.ms_tracker (prev - sizeofHeader) (p - sizeofHeader) w) ∧
        ((s.mem.hdr (prev - sizeofHeader)).type = Alloc_Debug →
          s1.log = s.log ++
            [Event.stratRealloc (s.mem.hdr (prev - sizeofHeader)).type (prev - sizeofHeader) w,
              Event.stamp (p - sizeofHeader) w (s.mem.hdr (prev - sizeofHeader)).type] ∧
          s1.ms_tracker = s.ms_tracker)) ∧
    (∀ (prev : Nat) (s1 : State σ), prev ≠ 0 → Free env s prev = .ok s1 →
      ((s.mem.hdr (prev - sizeofHeader)).type ≠ Alloc_Debug →
        s1.log = s.log ++
          [Event.stratFree (s.mem.hdr (prev - sizeofHeader)).type (prev - sizeofHeader),
            Event.OnFree (prev - sizeofHeader)] ∧
        s1.ms_tracker = OnFree s.ms_tracker (prev - sizeofHeader)) ∧
      ((s.mem.hdr (prev - sizeofHeader)).type = Alloc_Debug →
        s1.log = s.log ++
          [Event.stratFree (s.mem.hdr (prev - sizeofHeader)).type (prev - sizeofHeader)] ∧
        s1.ms_tracker = s.ms_tracker)) := by
  have cond :
      (∀ (type bytes : i32) (p : Nat) (s1 : State σ), 0 < bytes.val →
        Alloc env s type bytes = .ok (p, s1) →
        ∃ w : i32, PadRequest bytes = .ok w ∧
          (type ≠ Alloc_Debug →
            s1.log = s.log ++ [Event.stratAlloc type w, Event.stamp (p - sizeofHeader) w type,
              Event.OnAlloc (p - sizeofHeader) w] ∧
            s1.ms_tracker = OnAlloc s.ms_tracker (p - sizeofHeader) w) ∧
          (type = Alloc_Debug →
            s1.log = s.log ++ [Event.stratAlloc type w, Event.stamp (p - sizeofHeader) w type] ∧
            s1.ms_tracker = s.ms_tracker)) ∧
      (∀ (type : i32) (prev : Nat) (bytes : i32) (p : Nat) (s1 : State σ), prev ≠ 0 →
        0 < bytes.val → bytes ≠ i32.sub (s.mem.hdr (prev - sizeofHeader)).size PadBytes →
        Realloc env s type prev bytes = .ok (p, s1) →
        ∃ w : i32, PadRequest bytes = .ok w ∧
          ((s.mem.hdr (prev - sizeofHeader)).type ≠ Alloc_Debug →
            s1.log = s.log ++
              [Event.stratRealloc (s.mem.hdr (prev - sizeofHeader)).type (prev - sizeofHeader) w,
                Event.stamp (p - sizeofHeader) w (s.mem.hdr (prev - sizeofHeader)).type,
                Event.OnRealloc (prev - sizeofHeader) (p - sizeofHeader) w] ∧
            s1.ms_tracker
              = OnRealloc s.ms_tracker (prev - sizeofHeader) (p - sizeofHeader) w) ∧
          ((s.mem.hdr (prev - sizeofHeader)).type = Alloc_Debug →
            s1.log = s.log ++
              [Event.stratRealloc (s.mem.hdr (prev - sizeofHeader)).type (prev - sizeofHeader) w,
                Event.stamp (p - sizeofHeader) w (s.mem.hdr (prev - sizeofHeader)).type] ∧
            s1.ms_tracker = s.ms_tracker)) ∧
      (∀ (prev : Nat) (s1 : State σ), prev ≠ 0 → Free env s prev = .ok s1 →
        ((s.mem.hdr (prev - sizeofHeader)).type ≠ Alloc_Debug →
          s1.log = s.log ++
            [Event.stratFree (s.mem.hdr (prev - sizeofHeader)).type (prev - sizeofHeader),
              Event.OnFree (prev - sizeofHeader)] ∧
          s1.ms_tracker = OnFree s.ms_tracker (prev - sizeofHeader)) ∧
        ((s.mem.hdr (prev - sizeofHeader)).type = Alloc_Debug →
          s1.log = s.log ++
            [Event.stratFree (s.mem.hdr (prev - sizeofHeader)).type (prev - sizeofHeader)] ∧
          s1.ms_tracker = s.ms_tracker)) := by
    refine ⟨?_, ?_, ?_⟩
    · intro type bytes p s1 hb h
      obtain ⟨_, hc⟩ := Alloc_ok_cases env s type bytes p s1 h
      rcases hc with ⟨h0, _, _⟩ | ⟨_, w, hw, hd⟩
      · omega
      · obtain ⟨_, _, _, _, hlog⟩ := AllocDispatch_ok env s type w p s1 hd
        have htk := AllocDispatch_tracker env s type w p s1 hd
        refine ⟨w, hw, ?_, ?_⟩
        · intro hne
          rw [tracked_of_ne _ _ htr hne] at hlog htk
          rw [hlog, htk]
          simp
        · intro heq
          rw [untracked_of_eq _ _ heq] at hlog htk
          rw [hlog, htk]
          simp
    · intro type prev bytes p s1 hp hb hne h
      rcases Realloc_ok_cases env s type prev bytes p s1 h with
        ⟨h0, _⟩ | ⟨_, h0, _, _⟩ | ⟨_, _, h0, _, _⟩ | ⟨_, _, _, w, hw, hd⟩
      · exact absurd h0 hp
      · omega
      · exact absurd h0 hne
      · obtain ⟨_, _, _, _, _, hlog⟩ := ReallocDispatch_ok env s _ w p s1 hd
        have htk := ReallocDispatch_tracker env s _ w p s1 hd
        refine ⟨w, hw, ?_, ?_⟩
        · intro hk
          rw [tracked_of_ne _ _ htr hk] at hlog htk
          rw [hlog, htk]
          simp
        · intro hk
          rw [untracked_of_eq _ _ hk] at hlog htk
          rw [hlog, htk]
          simp
    · intro prev s1 hp h
      have htk := Free_tracker env s prev s1 hp h
      rcases Free_ok_cases env s prev s1 h with ⟨h0, _⟩ | ⟨_, hlog⟩
      · exact absurd h0 hp
      · refine ⟨?_, ?_⟩
        · intro hk
          rw [tracked_of_ne _ _ htr hk] at hlog htk
          rw [hlog, htk]
          simp
        · intro hk
          rw [untracked_of_eq _ _ hk] at hlog htk
          rw [hlog, htk]
          simp
  obtain ⟨cA, cR, cF⟩ := cond
  refine ⟨?_, ?_, ?_, cA, cR, cF⟩
  · intro type bytes w hdr hv hb hw hstrat hnn hal
    obtain ⟨s1, hs1, _⟩ := AllocDispatch_eq env s type w hdr hstrat hnn hal
    have hA : Alloc env s type bytes = .ok (hdr + sizeofHeader, s1) := by
      rw [Alloc_pos_eq env s type bytes w hv hb hw, hs1]
    obtain ⟨w2, hw2, h1, h2⟩ := cA type bytes (hdr + sizeofHeader) s1 hb hA
    rw [hw] at hw2
    cases hw2
    rw [Nat.add_sub_cancel] at h1 h2
    exact ⟨s1, hA, h1, h2⟩
  · intro type prev bytes w newHdr hv hp hb hhas hne hw hk hinit hnew hnn hal
    obtain ⟨s1, hs1, _⟩ := ReallocDispatch_eq env s _ w newHdr hk hinit hnew hnn hal
    have hR : Realloc env s type prev bytes = .ok (newHdr + sizeofHeader, s1) := by
      rw [Realloc_slow_eq env s type prev bytes w hv hp hb hhas hne hw, hs1]
    obtain ⟨w2, hw2, h1, h2⟩ := cR type prev bytes (newHdr + sizeofHeader) s1 hp hb hne hR
    rw [hw] at hw2
    cases hw2
    rw [Nat.add_sub_cancel] at h1 h2
    exact ⟨s1, hR, h1, h2⟩
  · intro prev hp hal hsz hk
    have hF := Free_eq_of_asserts env s prev hp hal hsz hk
    obtain ⟨h1, h2⟩ := cF prev _ hp hF
    exact ⟨_, hF, h1, h2⟩

/-- On the sample registry (tracker compiled in). `Alloc(Linear, 17)` logs
`OnAlloc`, `Alloc(Debug, 17)` does not; `Realloc(Linear, p, 100)` of the live
Linear block logs `OnRealloc`, `Realloc(Debug, p, 100)` of the live Debug block
does not; `Free(p)` of the Linear block logs `OnFree` and removes the ledger
entry, `Free(p)` of the Debug block does not notify. -/
theorem C21_tracker_notified_unless_Debug_witness :
    (∃ s1 : State Nat, Alloc sampleEnv sampleState Alloc_Linear 17 = .ok (131088, s1) ∧
      s1.log = [Event.stratAlloc Alloc_Linear 48, Event.stamp 131072 48 Alloc_Linear,
        Event.OnAlloc 131072 48] ∧
      s1.ms_tracker = [{ address := 131072, size := 48 }]) ∧
    (∃ s1 : State Nat, Alloc sampleEnv sampleState Alloc_Debug 17 = .ok (327696, s1) ∧
      s1.log = [Event.stratAlloc Alloc_Debug 48, Event.stamp 327680 48 Alloc_Debug] ∧
      s1.ms_tracker = []) ∧
    (∃ s1 : State Nat,
      Realloc sampleEnv sampleStateLive Alloc_Linear 131088 100 = .ok (131136, s1) ∧
      s1.log = sampleStateLive.log ++ [Event.stratRealloc Alloc_Linear 131072 128,
        Event.stamp 131120 128 Alloc_Linear, Event.OnRealloc 131072 131120 128] ∧
      s1.ms_tracker = [{ address := 131120, size := 128 }]) ∧
    (∃ s1 : State Nat,
      Realloc sampleEnv sampleStateDebugLive Alloc_Debug 327696 100 = .ok (327744, s1) ∧
      s1.log = sampleStateDebugLive.log ++ [Event.stratRealloc Alloc_Debug 327680 128,
        Event.stamp 327728 128 Alloc_Debug] ∧
      s1.ms_tracker = []) ∧
    (∃ s1 : State Nat, Free sampleEnv sampleStateLive 131088 = .ok s1 ∧
      s1.log = sampleStateLive.log ++ [Event.stratFree Alloc_Linear 131072,
        Event.OnFree 131072] ∧
      sampleStateLive.ms_tracker = [{ address := 131072, size := 48 }] ∧
      s1.ms_tracker = []) ∧
    (∃ s1 : State Nat, Free sampleEnv sampleStateDebugLive 327696 = .ok s1 ∧
      s1.log = sampleStateDebugLive.log ++ [Event.stratFree Alloc_Debug 327680] ∧
      s1.ms_tracker = []) := by
  refine ⟨?_, ?_, ?_, ?_, ?_, ?_⟩
  · obtain ⟨s1, h, h1, _⟩ := (C21_tracker_notified_unless_Debug sampleEnv sampleState rfl).1
      Alloc_Linear 17 48 131072
      (by decide) (by decide) rfl rfl (by decide) (by decide)
    exact ⟨s1, h, (h1 (by decide)).1, (h1 (by decide)).2⟩
  · obtain ⟨s1, h, _, h2⟩ := (C21_tracker_notified_unless_Debug sampleEnv sampleState rfl).1
      Alloc_Debug 17 48 327680
      (by decide) (by decide) rfl rfl (by decide) (by decide)
    exact ⟨s1, h, (h2 rfl).1, (h2 rfl).2⟩
  · obtain ⟨s1, h, h1, _⟩ := (C21_tracker_notified_unless_Debug sampleEnv sampleStateLive rfl).2.1
      Alloc_Linear 131088 100
      128 131120 (by decide) (by decide) (by decide) (by decide) (by decide) rfl (by decide)
      (by decide) rfl (by decide) (by decide)
    exact ⟨s1, h, (h1 (by decide)).1, by rw [(h1 (by decide)).2]; decide⟩
  · obtain ⟨s1, h, _, h2⟩ := (C21_tracker_notified_unless_Debug sampleEnv sampleStateDebugLive
      rfl).2.1 Alloc_Debug 327696
      100 128 327728 (by decide) (by decide) (by decide) (by decide) (by decide) rfl (by decide)
      (by decide) rfl (by decide) (by decide)
    exact ⟨s1, h, (h2 (by decide)).1, (h2 (by decide)).2⟩
  · obtain ⟨s1, h, h1, _⟩ := (C21_tracker_notified_unless_Debug sampleEnv sampleStateLive
      rfl).2.2.1 131088
      (by decide) (by decide) (by decide) (by decide)
    exact ⟨s1, h, (h1 (by decide)).1, by decide, by rw [(h1 (by decide)).2]; decide⟩
  · obtain ⟨s1, h, _, h2⟩ := (C21_tracker_notified_unless_Debug sampleEnv sampleStateDebugLive
      rfl).2.2.1 327696
      (by decide) (by decide) (by decide) (by decide)
    exact ⟨s1, h, (h2 (by decide)).1, (h2 (by decide)).2⟩

/-- `_Alloc` when the free-list answers with a range. -/
theorem Pool_Alloc_some {H : Type} (ops : HeapOps H) (p : Pool H) (m : Memory) (reqBytes : i32)
    (h : (ops.Alloc p.m_heap reqBytes).1.offset.val ≠ -1) :
    Pool._Alloc ops p m reqBytes =
      (p.m_memory.begin + (ops.Alloc p.m_heap reqBytes).1.offset.val.toNat,
        { p with
          m_heap := (ops.Alloc p.m_heap reqBytes).2
          log := p.log ++ [PoolEvent.heapAlloc reqBytes (ops.Alloc p.m_heap reqBytes).1] },
        { m with
          hdr := Function.update m.hdr
            (p.m_memory.begin + (ops.Alloc p.m_heap reqBytes).1.offset.val.toNat)
            { m.hdr (p.m_memory.begin + (ops.Alloc p.m_heap reqBytes).1.offset.val.toNat) with
              size := (ops.Alloc p.m_heap reqBytes).1.size
              c := (ops.Alloc p.m_heap reqBytes).1.size
              d := (ops.Alloc p.m_heap reqBytes).1.offset } }) := by
  simp [Pool._Alloc, h, Slice.Subslice, Slice.begin]

/-- The locked `Alloc`, by the unlocked one. -/
theorem Pool_Alloc_locked {H : Type} (ops : HeapOps H) (p : Pool H) (m : Memory)
    (reqBytes : i32) :
    (Pool.Alloc ops p m reqBytes).1 = (Pool._Alloc ops p m reqBytes).1 ∧
    (Pool.Alloc ops p m reqBytes).2.2 = (Pool._Alloc ops p m reqBytes).2.2 ∧
    (Pool.Alloc ops p m reqBytes).2.1.m_heap = (ops.Alloc p.m_heap reqBytes).2 ∧
    (Pool.Alloc ops p m reqBytes).2.1.m_memory = p.m_memory ∧
    (Pool.Alloc ops p m reqBytes).2.1.log = p.log ++
      [PoolEvent.lock, PoolEvent.heapAlloc reqBytes (ops.Alloc p.m_heap reqBytes).1,
        PoolEvent.unlock] := by
  by_cases h : (ops.Alloc p.m_heap reqBytes).1.offset.val = -1
  · simp [Pool.Alloc, Pool._Alloc, h]
  · simp [Pool.Alloc, Pool._Alloc, h]

/-- C22. On a Pool whose region is not null, `Pool::Alloc(reqBytes)` returns
null if and only if the free-list search yields no range (offset `-1`), and
then writes no Header; otherwise it returns the Header located at region base
+ offset of the chosen range and stamps into it `size = committedSize` = the
size of the range and `regionOffset` = the offset of the range, leaving the
kind of that Header and every other Header as they were. -/
theorem C22_Pool_Alloc_null_iff_no_range {H : Type} (ops : HeapOps H) (p : Pool H)
    (m : Memory) (reqBytes : i32) (hbase : p.m_memory.begin ≠ 0) :
    ((Pool.Alloc ops p m reqBytes).1 = 0 ↔ (ops.Alloc p.m_heap reqBytes).1.offset.val = -1) ∧
    ((ops.Alloc p.m_heap reqBytes).1.offset.val = -1 →
      (Pool.Alloc ops p m reqBytes).2.2 = m) ∧
    ((ops.Alloc p.m_heap reqBytes).1.offset.val ≠ -1 →
      (Pool.Alloc ops p m reqBytes).1
        = p.m_memory.begin + (ops.Alloc p.m_heap reqBytes).1.offset.val.toNat ∧
      ((Pool.Alloc ops p m reqBytes).2.2.hdr (Pool.Alloc ops p m reqBytes).1).size
        = (ops.Alloc p.m_heap reqBytes).1.size ∧
      ((Pool.Alloc ops p m reqBytes).2.2.hdr (Pool.Alloc ops p m reqBytes).1).c
        = (ops.Alloc p.m_heap reqBytes).1.size ∧
      ((Pool.Alloc ops p m reqBytes).2.2.hdr (Pool.Alloc ops p m reqBytes).1).d
        = (ops.Alloc p.m_heap reqBytes).1.offset ∧
      ((Pool.Alloc ops p m reqBytes).2.2.hdr (Pool.Alloc ops p m reqBytes).1).type
        = (m.hdr (Pool.Alloc ops p m reqBytes).1).type ∧
      (∀ a : Nat, a ≠ (Pool.Alloc ops p m reqBytes).1 →
        (Pool.Alloc ops p m reqBytes).2.2.hdr a = m.hdr a) ∧
      (Pool.Alloc ops p m reqBytes).2.2.byte = m.byte) := by
  obtain ⟨h1, h2, _, _, _⟩ := Pool_Alloc_locked ops p m reqBytes
  rw [h1, h2]
  refine ⟨?_, ?_, ?_⟩
  · constructor
    · intro h0
      by_contra hne
      rw [Pool_Alloc_some ops p m reqBytes hne] at h0
      simp only at h0
      omega
    · intro h
      rw [Pool_Alloc_none ops p m reqBytes h]
  · intro h
    rw [Pool_Alloc_none ops p m reqBytes h]
  · intro hne
    rw [Pool_Alloc_some ops p m reqBytes hne]
    refine ⟨rfl, ?_, ?_, ?_, ?_, ?_, rfl⟩
    · simp
    · simp
    · simp
    · simp
    · intro a ha
      simp [Function.update, ha]

/-- On the sample Pools: with the 64 bytes free, `Alloc(48)` returns the Header
at the region base, stamped with the whole range; with nothing free it returns
null. -/
theorem C22_Pool_Alloc_null_iff_no_range_witness :
    ((Pool.Alloc listHeap samplePoolFree samplePoolMemory 48).1 = 4096 + 0 ∧
      ((Pool.Alloc listHeap samplePoolFree samplePoolMemory 48).2.2.hdr
        (Pool.Alloc listHeap samplePoolFree samplePoolMemory 48).1).size = 64 ∧
      ((Pool.Alloc listHeap samplePoolFree samplePoolMemory 48).2.2.hdr
        (Pool.Alloc listHeap samplePoolFree samplePoolMemory 48).1).c = 64 ∧
      ((Pool.Alloc listHeap samplePoolFree samplePoolMemory 48).2.2.hdr
        (Pool.Alloc listHeap samplePoolFree samplePoolMemory 48).1).d = 0) ∧
    (Pool.Alloc listHeap samplePool samplePoolMemory 48).1 = 0 := by
  obtain ⟨h1, h2, h3, h4, _⟩ :=
    (C22_Pool_Alloc_null_iff_no_range listHeap samplePoolFree samplePoolMemory 48
      (by decide)).2.2 (by decide)
  exact ⟨⟨h1, h2, h3, h4⟩,
    (C22_Pool_Alloc_null_iff_no_range listHeap samplePool samplePoolMemory 48
      (by decide)).1.2 (by decide)⟩

/-- The locked `Free` of a block that passes the assertions of `_Free`. -/
theorem Pool_Free_locked {H : Type} (ops : HeapOps H) (p : Pool H) (m : Memory) (prev : Nat)
    (h1 : 0 ≤ (m.hdr prev).d.val) (h2 : (m.hdr prev).size.val ≤ (m.hdr prev).c.val)
    (h3 : p.m_memory.begin + (m.hdr prev).d.val.toNat = prev) :
    Pool.Free ops p m prev = .ok
      { p with
        m_heap := ops.Free p.m_heap { offset := (m.hdr prev).d, size := (m.hdr prev).c }
        log := p.log ++ [PoolEvent.lock,
          PoolEvent.heapFree { offset := (m.hdr prev).d, size := (m.hdr prev).c },
          PoolEvent.unlock] } := by
  unfold Pool.Free
  rw [Pool_Free_eq ops { p with log := p.log ++ [PoolEvent.lock] } m prev h1 h2 h3]
  simp

/-- C23. Pool alloc/free round trip. Let `Pool::Alloc` hand out the block of
the free-list range `{offset, size}` (offset `>= 0`). A later `Pool::Free` of
that block, on any state of the Pool over the same region and any memory in
which the Header still holds the committed size and region offset and a
logical size `<=` the committed size, passes the three assertions of `_Free`
and gives exactly `{offset, size}` back to the free-list. This is so in
particular right after the facade has stamped the Header with a padded size
`<=` the committed size and a kind. -/
theorem C23_Pool_Alloc_Free_round_trip {H : Type} (ops : HeapOps H) (p : Pool H)
    (m : Memory) (reqBytes : i32) (hoff : 0 ≤ (ops.Alloc p.m_heap reqBytes).1.offset.val) :
    (∀ (p2 : Pool H) (m2 : Memory), p2.m_memory = p.m_memory →
      (m2.hdr (Pool.Alloc ops p m reqBytes).1).c = (ops.Alloc p.m_heap reqBytes).1.size →
      (m2.hdr (Pool.Alloc ops p m reqBytes).1).d = (ops.Alloc p.m_heap reqBytes).1.offset →
      (m2.hdr (Pool.Alloc ops p m reqBytes).1).size.val
        ≤ (ops.Alloc p.m_heap reqBytes).1.size.val →
      Pool.Free ops p2 m2 (Pool.Alloc ops p m reqBytes).1 = .ok
        { p2 with
          m_heap := ops.Free p2.m_heap (ops.Alloc p.m_heap reqBytes).1
          log := p2.log ++ [PoolEvent.lock,
            PoolEvent.heapFree (ops.Alloc p.m_heap reqBytes).1, PoolEvent.unlock] }) ∧
    (∀ (want kind : i32), want.val ≤ (ops.Alloc p.m_heap reqBytes).1.size.val →
      Pool.Free ops (Pool.Alloc ops p m reqBytes).2.1
        ((Pool.Alloc ops p m reqBytes).2.2.stamp (Pool.Alloc ops p m reqBytes).1 want kind)
        (Pool.Alloc ops p m reqBytes).1 = .ok
        { (Pool.Alloc ops p m reqBytes).2.1 with
          m_heap := ops.Free (Pool.Alloc ops p m reqBytes).2.1.m_heap
            (ops.Alloc p.m_heap reqBytes).1
          log := (Pool.Alloc ops p m reqBytes).2.1.log ++ [PoolEvent.lock,
            PoolEvent.heapFree (ops.Alloc p.m_heap reqBytes).1, PoolEvent.unlock] }) := by
  have hne : (ops.Alloc p.m_heap reqBytes).1.offset.val ≠ -1 := by omega
  obtain ⟨e1, e2, _, e4, _⟩ := Pool_Alloc_locked ops p m reqBytes
  have hnew : (Pool.Alloc ops p m reqBytes).1
      = p.m_memory.begin + (ops.Alloc p.m_heap reqBytes).1.offset.val.toNat := by
    rw [e1, Pool_Alloc_some ops p m reqBytes hne]
  have hgen : ∀ (p2 : Pool H) (m2 : Memory), p2.m_memory = p.m_memory →
      (m2.hdr (Pool.Alloc ops p m reqBytes).1).c = (ops.Alloc p.m_heap reqBytes).1.size →
      (m2.hdr (Pool.Alloc ops p m reqBytes).1).d = (ops.Alloc p.m_heap reqBytes).1.offset →
      (m2.hdr (Pool.Alloc ops p m reqBytes).1).size.val
        ≤ (ops.Alloc p.m_heap reqBytes).1.size.val →
      Pool.Free ops p2 m2 (Pool.Alloc ops p m reqBytes).1 = .ok
        { p2 with
          m_heap := ops.Free p2.m_heap (ops.Alloc p.m_heap reqBytes).1
          log := p2.log ++ [PoolEvent.lock,
            PoolEvent.heapFree (ops.Alloc p.m_heap reqBytes).1, PoolEvent.unlock] } := by
    intro p2 m2 hp2 hc hd hsz
    rw [Pool_Free_locked ops p2 m2 _ (by rw [hd]; exact hoff) (by rw [hc]; exact hsz)
      (by rw [hd, hp2]; exact hnew.symm), hc, hd]
  refine ⟨hgen, ?_⟩
  intro want kind hw
  refine hgen _ _ e4 ?_ ?_ ?_
  · rw [e2, Pool_Alloc_some ops p m reqBytes hne, hnew]
    simp [Memory.stamp]
  · rw [e2, Pool_Alloc_some ops p m reqBytes hne, hnew]
    simp [Memory.stamp]
  · rw [(stamp_hdr_same _ _ _ _).1]
    exact hw

/-- On the sample Pool with its 64 bytes free: `Alloc(48)`, the stamp of the
facade (48, Pool), then `Free` gives `{0, 64}` back. -/
theorem C23_Pool_Alloc_Free_round_trip_witness :
    ∃ p1 : Pool (List HeapItem),
      Pool.Free listHeap (Pool.Alloc listHeap samplePoolFree samplePoolMemory 48).2.1
        ((Pool.Alloc listHeap samplePoolFree samplePoolMemory 48).2.2.stamp
          (Pool.Alloc listHeap samplePoolFree samplePoolMemory 48).1 48 Alloc_Pool)
        (Pool.Alloc listHeap samplePoolFree samplePoolMemory 48).1 = .ok p1 ∧
      p1.m_heap = [{ offset := 0, size := 64 }] ∧
      p1.log = [PoolEvent.lock, PoolEvent.heapAlloc 48 { offset := 0, size := 64 },
        PoolEvent.unlock, PoolEvent.lock, PoolEvent.heapFree { offset := 0, size := 64 },
        PoolEvent.unlock] :=
  ⟨_, (C23_Pool_Alloc_Free_round_trip listHeap samplePoolFree samplePoolMemory 48
      (by decide)).2 48 Alloc_Pool (by decide), by decide, by decide⟩

/-- A locked `Realloc` that returns is an unlocked one that returns the same
block and the same memory. -/
theorem Pool_Realloc_locked_ok {H : Type} (ops : HeapOps H) (p : Pool H) (m : Memory)
    (pOld : Nat) (reqBytes : i32) (pNew : Nat) (p1 : Pool H) (m1 : Memory)
    (hok : Pool.Realloc ops p m pOld reqBytes = .ok (pNew, p1, m1)) :
    ∃ p2 : Pool H, Pool._Realloc ops { p with log := p.log ++ [PoolEvent.lock] } m pOld reqBytes
      = .ok (pNew, p2, m1) ∧ p1.log = p2.log ++ [PoolEvent.unlock] := by
  unfold Pool.Realloc at hok
  split at hok
  · cases hok
  · rename_i r hr
    simp only [Except.ok.injEq, Prod.mk.injEq] at hok
    obtain ⟨e1, e2, e3⟩ := hok
    subst e1
    subst e2
    subst e3
    exact ⟨r.2.1, hr, rfl⟩

/-- The call log of a locked `Realloc` that returns: the lock, then events
that are free-list calls or copies, then the unlock. -/
theorem Pool_Realloc_log {H : Type} (ops : HeapOps H) (p : Pool H) (m : Memory) (pOld : Nat)
    (reqBytes : i32) (pNew : Nat) (p1 : Pool H) (m1 : Memory)
    (hok : Pool.Realloc ops p m pOld reqBytes = .ok (pNew, p1, m1)) :
    ∃ mid : List PoolEvent, p1.log = p.log ++ [PoolEvent.lock] ++ mid ++ [PoolEvent.unlock] ∧
      PoolEvent.lock ∉ mid ∧ PoolEvent.unlock ∉ mid ∧
      PoolEvent.heapFree { offset := (m.hdr pOld).d, size := (m.hdr pOld).c } ∈ mid := by
  obtain ⟨p2, h2, hlog⟩ := Pool_Realloc_locked_ok ops p m pOld reqBytes pNew p1 m1 hok
  rw [hlog]
  unfold Pool._Realloc at h2
  split at h2
  · cases h2
  · rename_i pf hpf
    have hpflog : pf.log = p.log ++ [PoolEvent.lock]
        ++ [PoolEvent.heapFree { offset := (m.hdr pOld).d, size := (m.hdr pOld).c }] := by
      unfold Pool._Free at hpf
      simp only at hpf
      split at hpf
      · cases hpf
      · split at hpf
        · cases hpf
        · split at hpf
          · cases hpf
          · simp only [Except.ok.injEq] at hpf
            subst hpf
            rfl
    have halog : (Pool._Alloc ops pf m reqBytes).2.1.log
        = pf.log ++ [PoolEvent.heapAlloc reqBytes (ops.Alloc pf.m_heap reqBytes).1] := by
      unfold Pool._Alloc
      simp only
      split <;> rfl
    simp only at h2
    split at h2
    · simp only [Except.ok.injEq, Prod.mk.injEq] at h2
      obtain ⟨_, e2, _⟩ := h2
      subst e2
      rw [halog, hpflog]
      exact ⟨[PoolEvent.heapFree { offset := (m.hdr pOld).d, size := (m.hdr pOld).c },
        PoolEvent.heapAlloc reqBytes (ops.Alloc pf.m_heap reqBytes).1], by simp, by simp,
        by simp, by simp⟩
    · split at h2
      · split at h2
        · simp only [Except.ok.injEq, Prod.mk.injEq] at h2
          obtain ⟨_, e2, _⟩ := h2
          subst e2
          simp only
          rw [halog, hpflog]
          generalize hev : PoolEvent.memmove _ _ _ = ev
          have hl : PoolEvent.lock ≠ ev := by rw [← hev]; simp
          have hu : PoolEvent.unlock ≠ ev := by rw [← hev]; simp
          exact ⟨[PoolEvent.heapFree { offset := (m.hdr pOld).d, size := (m.hdr pOld).c },
            PoolEvent.heapAlloc reqBytes (ops.Alloc pf.m_heap reqBytes).1, ev], by simp,
            by simp [hl], by simp [hu], by simp⟩
        · split at h2
          · cases h2
          simp only [Except.ok.injEq, Prod.mk.injEq] at h2
          obtain ⟨_, e2, _⟩ := h2
          subst e2
          simp only
          rw [halog, hpflog]
          generalize hev : PoolEvent.memcpy _ _ _ = ev
          have hl : PoolEvent.lock ≠ ev := by rw [← hev]; simp
          have hu : PoolEvent.unlock ≠ ev := by rw [← hev]; simp
          exact ⟨[PoolEvent.heapFree { offset := (m.hdr pOld).d, size := (m.hdr pOld).c },
            PoolEvent.heapAlloc reqBytes (ops.Alloc pf.m_heap reqBytes).1, ev], by simp,
            by simp [hl], by simp [hu], by simp⟩
      · simp only [Except.ok.injEq, Prod.mk.injEq] at h2
        obtain ⟨_, e2, _⟩ := h2
        subst e2
        rw [halog, hpflog]
        exact ⟨[PoolEvent.heapFree { offset := (m.hdr pOld).d, size := (m.hdr pOld).c },
          PoolEvent.heapAlloc reqBytes (ops.Alloc pf.m_heap reqBytes).1], by simp, by simp,
          by simp, by simp⟩

/-- The call log of a locked `Free` that returns. -/
theorem Pool_Free_log {H : Type} (ops : HeapOps H) (p : Pool H) (m : Memory) (prev : Nat)
    (p1 : Pool H) (hok : Pool.Free ops p m prev = .ok p1) :
    p1.log = p.log ++ [PoolEvent.lock,
      PoolEvent.heapFree { offset := (m.hdr prev).d, size := (m.hdr prev).c },
      PoolEvent.unlock] := by
  unfold Pool.Free at hok
  split at hok
  · cases hok
  · rename_i pf hpf
    simp only [Except.ok.injEq] at hok
    subst hok
    unfold Pool._Free at hpf
    simp only at hpf
    split at hpf
    · cases hpf
    · split at hpf
      · cases hpf
      · split at hpf
        · cases hpf
        · simp only [Except.ok.injEq] at hpf
          subst hpf
          simp

/-- C25 (as stated, refuted). On the sample Pool `Init` reaches the free-list
(`m_heap.Init`) and `Shutdown` reaches it (`m_heap.Reset`) without taking the
mutex: neither call log holds a lock. -/
theorem C25_counterexample :
    (Pool.Init listHeap 7 samplePool 4096 64).log
      = [PoolEvent.mutexOpen 7, PoolEvent.heapInit 64] ∧
    PoolEvent.lock ∉ (Pool.Init listHeap 7 samplePool 4096 64).log ∧
    (Pool.Shutdown listHeap [] samplePool).log
      = [PoolEvent.heapReset, PoolEvent.mutexClose 0] ∧
    PoolEvent.lock ∉ (Pool.Shutdown listHeap [] samplePool).log := by
  decide

/-- C25 (amended). `Clear`, `Alloc`, `Free` and `Realloc` of the Pool take the
mutex before they reach the free-list and release it after their last access:
what each adds to the call log starts with the lock, ends with the unlock and
holds the free-list calls in between. `Init` and `Shutdown` take no lock:
`Init` opens the mutex and `Shutdown` closes it. -/
theorem C25_Pool_locking {H : Type} (ops : HeapOps H) (p : Pool H) (m : Memory) :
    (Pool.Clear ops p).log
      = p.log ++ [PoolEvent.lock, PoolEvent.heapClear, PoolEvent.unlock] ∧
    (∀ reqBytes : i32, (Pool.Alloc ops p m reqBytes).2.1.log = p.log ++
      [PoolEvent.lock, PoolEvent.heapAlloc reqBytes (ops.Alloc p.m_heap reqBytes).1,
        PoolEvent.unlock]) ∧
    (∀ (prev : Nat) (p1 : Pool H), Pool.Free ops p m prev = .ok p1 →
      p1.log = p.log ++ [PoolEvent.lock,
        PoolEvent.heapFree { offset := (m.hdr prev).d, size := (m.hdr prev).c },
        PoolEvent.unlock]) ∧
    (∀ (pOld : Nat) (reqBytes : i32) (pNew : Nat) (p1 : Pool H) (m1 : Memory),
      Pool.Realloc ops p m pOld reqBytes = .ok (pNew, p1, m1) →
      ∃ mid : List PoolEvent,
        p1.log = p.log ++ [PoolEvent.lock] ++ mid ++ [PoolEvent.unlock] ∧
        PoolEvent.lock ∉ mid ∧ PoolEvent.unlock ∉ mid ∧
        PoolEvent.heapFree { offset := (m.hdr pOld).d, size := (m.hdr pOld).c } ∈ mid) ∧
    (∀ (handle memory : Nat) (bytes : i32), (Pool.Init ops handle p memory bytes).log
      = p.log ++ [PoolEvent.mutexOpen handle, PoolEvent.heapInit bytes]) ∧
    (∀ zero : H, (Pool.Shutdown ops zero p).log
      = p.log ++ [PoolEvent.heapReset, PoolEvent.mutexClose 0]) := by
  refine ⟨rfl, ?_, ?_, ?_, ?_, ?_⟩
  · intro reqBytes
    exact (Pool_Alloc_locked ops p m reqBytes).2.2.2.2
  · intro prev p1 h
    exact Pool_Free_log ops p m prev p1 h
  · intro pOld reqBytes pNew p1 m1 h
    exact Pool_Realloc_log ops p m pOld reqBytes pNew p1 m1 h
  · intro handle memory bytes
    rfl
  · intro zero
    simp [Pool.Shutdown]

/-- On the sample Pool: the free of its one block is done under the lock. -/
theorem C25_Pool_locking_witness :
    ∃ p1 : Pool (List HeapItem), Pool.Free listHeap samplePool samplePoolMemory 4096 = .ok p1 ∧
      p1.log = [PoolEvent.lock, PoolEvent.heapFree { offset := 0, size := 64 },
        PoolEvent.unlock] := by
  have h : ∃ p1 : Pool (List HeapItem),
      Pool.Free listHeap samplePool samplePoolMemory 4096 = .ok p1 := ⟨_, rfl⟩
  obtain ⟨p1, h1⟩ := h
  refine ⟨p1, h1, ?_⟩
  rw [(C25_Pool_locking listHeap samplePool samplePoolMemory).2.2.1 4096 p1 h1]
  decide

/-- `Shutdown` closes the zeroed mutex member. -/
theorem Pool_Shutdown_eq {H : Type} (ops : HeapOps H) (zero : H) (p : Pool H) :
    Pool.Shutdown ops zero p =
      { m_mutex := 0
        m_memory := { ptr := 0, len := 0 }
        m_heap := zero
        log := p.log ++ [PoolEvent.heapReset, PoolEvent.mutexClose 0] } := by
  simp [Pool.Shutdown]

/-- C27 (the code at the failing input). `Init` of the sample Pool opens the
mutex and stores the handle 7; `Shutdown` of the Pool so initialized resets the
free-list, but the `memset` zeroes the mutex member before `m_mutex.Close()`:
`Close` receives 0, not the handle 7 that `Open` produced. -/
theorem C27_Pool_Shutdown_closes_zeroed_mutex :
    (Pool.Init listHeap 7 samplePool 4096 64).m_mutex = 7 ∧
    (Pool.Shutdown listHeap [] (Pool.Init listHeap 7 samplePool 4096 64)).log
      = [PoolEvent.mutexOpen 7, PoolEvent.heapInit 64, PoolEvent.heapReset,
        PoolEvent.mutexClose 0] ∧
    PoolEvent.mutexClose 7
      ∉ (Pool.Shutdown listHeap [] (Pool.Init listHeap 7 samplePool 4096 64)).log := by
  decide

theorem AllocDispatch_ms_init {σ : Type} (env : Env σ) (s : State σ) (type w : i32) (p : Nat)
    (s1 : State σ) (h : AllocDispatch env s type w = .ok (p, s1)) :
    s1.ms_init = s.ms_init := by
  unfold AllocDispatch at h
  simp only at h
  split at h
  · cases h
  · split at h
    · cases h
    · simp only [Except.ok.injEq, Prod.mk.injEq] at h
      obtain ⟨_, hs⟩ := h
      subst hs
      rfl

theorem ValidAllocator_congr {σ : Type} (s s1 : State σ) (t : i32)
    (h : s1.ms_init = s.ms_init) : ValidAllocator s1 t = ValidAllocator s t := by
  unfold ValidAllocator
  rw [h]

/-- `Realloc` of a live block returns the pointer with the state unchanged
exactly when the request is the usable size the Header records. -/
theorem Realloc_fast_iff {σ : Type} (env : Env σ) (s : State σ) (type : i32) (prev : Nat)
    (bytes : i32) (hv : ValidAllocator s type = true) (hp : prev ≠ 0) (hb : 0 < bytes.val)
    (hlive : 17 ≤ (s.mem.hdr (prev - sizeofHeader)).size.val) :
    Realloc env s type prev bytes = .ok (prev, s) ↔
      bytes.val = (s.mem.hdr (prev - sizeofHeader)).size.val - 16 := by
  have hval := has_val (s.mem.hdr (prev - sizeofHeader)).size hlive
  have h0 : 0 ≤ bytes.val := by omega
  have h1 : bytes.val ≠ 0 := by omega
  have hhas : 0 < (i32.sub (s.mem.hdr (prev - sizeofHeader)).size PadBytes).val := by
    rw [hval]; omega
  constructor
  · intro h
    rcases Realloc_ok_cases env s type prev bytes prev s h with
      ⟨h2, _⟩ | ⟨_, h2, _, _⟩ | ⟨_, _, h2, _, _⟩ | ⟨_, _, _, w, _, hd⟩
    · exact absurd h2 hp
    · exact absurd h2 h1
    · rw [h2, hval]
    · exact absurd hd (ReallocDispatch_ne env s _ w prev)
  · intro h
    have heq : bytes = i32.sub (s.mem.hdr (prev - sizeofHeader)).size PadBytes :=
      Subtype.ext (by rw [hval, h])
    unfold Realloc
    simp only [hv, h0, hp, h1, Bool.true_eq_false, if_false, ge_iff_le, not_true_eq_false,
      gt_iff_lt, hhas, ne_eq]
    rw [if_neg (not_not.2 heq)]

/-- A valid kind on a registry that is not initialized, other than Stdlib, is
Debug. -/
theorem Debug_of_valid_uninit {σ : Type} (s : State σ) (kind : i32)
    (hv : ValidAllocator s kind = true) (h : ¬ (s.ms_init = true ∨ kind = Alloc_Stdlib)) :
    kind = Alloc_Debug := by
  simp only [not_or] at h
  obtain ⟨h1, h2⟩ := h
  unfold ValidAllocator at hv
  simp only [Bool.and_eq_true, Bool.or_eq_true, beq_iff_eq] at hv
  rcases hv.2 with (h3 | h3) | h3
  · exact absurd h3 h1
  · exact absurd h3 h2
  · exact h3

/-- `ReallocDispatch` of a block whose valid kind is neither initialized nor
Stdlib fails the assertion of line 197. -/
theorem ReallocDispatch_uninit {σ : Type} (env : Env σ) (s : State σ) (hdr : Nat) (w : i32)
    (hk : ValidAllocator s (s.mem.hdr hdr).type = true)
    (h : ¬ (s.ms_init = true ∨ (s.mem.hdr hdr).type = Alloc_Stdlib)) :
    ReallocDispatch env s hdr w = .error Fault.Realloc_init_or_Stdlib := by
  unfold ReallocDispatch
  simp only [hk, Bool.true_eq_false, if_false, h, not_false_eq_true, if_true]

/-- C26 (the code, with the failing case). For every kind and every `n > 0`,
if `Alloc(kind, n)` returns `p` (so the kind is valid and the padding does not
overflow), then the usable size the Header of `p` records is `n` rounded up to
a multiple of 16, and `Realloc(kind, p, n)` takes the no-op fast path (returns
`p`, state unchanged, no strategy called) if and only if `n` is a multiple of
16. For every other `n` the recorded usable size differs from the unpadded
request and the call goes on with the padded size `w`: when the registry is
initialized or the kind is Stdlib it calls the realloc of the strategy of that
kind with the Header of `p` and `w` (it fails `ASSERT(newHdr)` on a null
answer, `ASSERT(IsAligned(newHdr + 1))` on a misaligned one, and otherwise
returns the user pointer of the answer, the strategy value of the row being the
one that call left); otherwise the kind is Debug, the registry is not
initialized, and the call fails `ASSERT(ms_init || iType == Alloc_Stdlib)` of
line 197 before any strategy is called. -/
theorem C26_same_size_Realloc_fast_path_iff {σ : Type} (env : Env σ) (s : State σ)
    (kind n : i32) (p : Nat) (s1 : State σ) (hn : 0 < n.val)
    (hA : Alloc env s kind n = .ok (p, s1)) :
    (i32.sub (s1.mem.hdr (p - sizeofHeader)).size PadBytes).val = (n.val + 15) / 16 * 16 ∧
    (Realloc env s1 kind p n = .ok (p, s1) ↔ n.val % 16 = 0) ∧
    (n.val % 16 ≠ 0 →
      ∃ w : i32, PadRequest n = .ok w ∧
        Realloc env s1 kind p n = ReallocDispatch env s1 (p - sizeofHeader) w ∧
        Realloc env s1 kind p n ≠ .ok (p, s1) ∧
        ((s1.ms_init = true ∨ kind = Alloc_Stdlib) →
          (((env.ms_tables (row kind)).Realloc (s1.ms_allocators (row kind)) s1.mem
              (p - sizeofHeader) w).1 = 0 →
            Realloc env s1 kind p n = .error Fault.Realloc_newHdr) ∧
          (((env.ms_tables (row kind)).Realloc (s1.ms_allocators (row kind)) s1.mem
              (p - sizeofHeader) w).1 ≠ 0 →
            IsAligned (((env.ms_tables (row kind)).Realloc (s1.ms_allocators (row kind)) s1.mem
              (p - sizeofHeader) w).1 + sizeofHeader) = false →
            Realloc env s1 kind p n = .error Fault.Realloc_IsAligned) ∧
          (((env.ms_tables (row kind)).Realloc (s1.ms_allocators (row kind)) s1.mem
              (p - sizeofHeader) w).1 ≠ 0 →
            IsAligned (((env.ms_tables (row kind)).Realloc (s1.ms_allocators (row kind)) s1.mem
              (p - sizeofHeader) w).1 + sizeofHeader) = true →
            ∃ s2 : State σ,
              Realloc env s1 kind p n
                = .ok (((env.ms_tables (row kind)).Realloc (s1.ms_allocators (row kind)) s1.mem
                    (p - sizeofHeader) w).1 + sizeofHeader, s2) ∧
              s2.ms_allocators = Function.update s1.ms_allocators (row kind)
                ((env.ms_tables (row kind)).Realloc (s1.ms_allocators (row kind)) s1.mem
                  (p - sizeofHeader) w).2.1 ∧
              Event.stratRealloc kind (p - sizeofHeader) w ∈ s2.log)) ∧
        (¬ (s1.ms_init = true ∨ kind = Alloc_Stdlib) →
          kind = Alloc_Debug ∧
          Realloc env s1 kind p n = .error Fault.Realloc_init_or_Stdlib)) := by
  obtain ⟨hv, hc⟩ := Alloc_ok_cases env s kind n p s1 hA
  rcases hc with ⟨h0, _, _⟩ | ⟨_, w, hw, hd⟩
  · omega
  · obtain ⟨hp, _, hsz, hty, _⟩ := AllocDispatch_ok env s kind w p s1 hd
    have hi := AllocDispatch_ms_init env s kind w p s1 hd
    have hv1 : ValidAllocator s1 kind = true := by
      rw [ValidAllocator_congr s s1 kind hi]; exact hv
    obtain ⟨_, hwv⟩ := PadRequest_ok_inv n w hn hw
    have hp0 : p ≠ 0 := by
      rw [hp]
      have : sizeofHeader = 16 := rfl
      omega
    have hlive : 17 ≤ (s1.mem.hdr (p - sizeofHeader)).size.val := by
      rw [hsz, hwv]; omega
    have hval := has_val (s1.mem.hdr (p - sizeofHeader)).size hlive
    have hfast := Realloc_fast_iff env s1 kind p n hv1 hp0 hn hlive
    rw [hsz] at hval hfast
    rw [hsz]
    refine ⟨by rw [hval, hwv]; omega, ?_, ?_⟩
    · rw [hfast, hwv]
      omega
    · intro hnm
      have hne : n ≠ i32.sub w PadBytes := by
        intro he
        have := congrArg Subtype.val he
        rw [hval, hwv] at this
        omega
      have hhas : 0 < (i32.sub (s1.mem.hdr (p - sizeofHeader)).size PadBytes).val := by
        rw [hsz, hval, hwv]; omega
      have hE := Realloc_slow_eq env s1 kind p n w hv1 hp0 hn hhas (by rw [hsz]; exact hne) hw
      have hk : ValidAllocator s1 (s1.mem.hdr (p - sizeofHeader)).type = true := by
        rw [hty]; exact hv1
      refine ⟨w, hw, hE, by rw [hE]; exact ReallocDispatch_ne env s1 _ w p, ?_, ?_⟩
      · intro hinit
        have hinit2 : s1.ms_init = true ∨ (s1.mem.hdr (p - sizeofHeader)).type = Alloc_Stdlib := by
          rw [hty]; exact hinit
        obtain ⟨f1, f2⟩ := ReallocDispatch_faults env s1 (p - sizeofHeader) w hk hinit2
        rw [hty] at f1 f2
        refine ⟨fun h => by rw [hE]; exact f1 h, fun h1 h2 => by rw [hE]; exact f2 h1 h2, ?_⟩
        intro hnn hal
        obtain ⟨s2, hs2, hall⟩ := ReallocDispatch_eq env s1 (p - sizeofHeader) w _ hk hinit2 rfl
          (by rw [hty]; exact hnn) (by rw [hty]; exact hal)
        obtain ⟨_, _, _, _, _, hlog⟩ := ReallocDispatch_ok env s1 _ w _ s2 hs2
        rw [hty] at hs2 hall hlog
        refine ⟨s2, by rw [hE]; exact hs2, hall, ?_⟩
        rw [hlog]
        simp
      · intro hno
        refine ⟨Debug_of_valid_uninit s1 kind hv1 hno, ?_⟩
        rw [hE]
        exact ReallocDispatch_uninit env s1 _ w hk (by rw [hty]; exact hno)

/-- On the sample registry. Initialized: after `Alloc(Linear, 32)` the
same-size `Realloc` is a no-op; after `Alloc(Linear, 17)` it calls the realloc
of the Linear row with the padded size 48 and returns the block that row
answers with. Not initialized: after `Alloc(Debug, 17)` the same-size
`Realloc(Debug, p, 17)` fails the assertion of line 197 and calls no
strategy. -/
theorem C26_same_size_Realloc_fast_path_iff_witness :
    (∃ s1 : State Nat, Alloc sampleEnv sampleState Alloc_Linear 32 = .ok (131088, s1) ∧
      Realloc sampleEnv s1 Alloc_Linear 131088 32 = .ok (131088, s1)) ∧
    (∃ s1 s2 : State Nat, Alloc sampleEnv sampleState Alloc_Linear 17 = .ok (131088, s1) ∧
      Realloc sampleEnv s1 Alloc_Linear 131088 17 = .ok (131136, s2) ∧
      s2.ms_allocators 1 = 96 ∧
      Event.stratRealloc Alloc_Linear 131072 48 ∈ s2.log) ∧
    (∃ s1 : State Nat, sampleStateStart.ms_init = false ∧
      ValidAllocator sampleStateStart Alloc_Debug = true ∧
      Alloc sampleEnv sampleStateStart Alloc_Debug 17 = .ok (327696, s1) ∧
      Realloc sampleEnv s1 Alloc_Debug 327696 17 = .error Fault.Realloc_init_or_Stdlib) := by
  have h32 : ∃ s1 : State Nat,
      Alloc sampleEnv sampleState Alloc_Linear 32 = .ok (131088, s1) := ⟨_, rfl⟩
  have h17 : ∃ s1 : State Nat,
      Alloc sampleEnv sampleState Alloc_Linear 17 = .ok (131088, s1) ∧
      s1.ms_init = true ∧
      ((sampleEnv.ms_tables (row Alloc_Linear)).Realloc (s1.ms_allocators (row Alloc_Linear))
        s1.mem (131088 - sizeofHeader) 48).1 = 131120 ∧
      ((sampleEnv.ms_tables (row Alloc_Linear)).Realloc (s1.ms_allocators (row Alloc_Linear))
        s1.mem (131088 - sizeofHeader) 48).2.1 = 96 := ⟨_, rfl, rfl, by decide, by decide⟩
  have hD : ∃ s1 : State Nat,
      Alloc sampleEnv sampleStateStart Alloc_Debug 17 = .ok (327696, s1) ∧
      s1.ms_init = false := ⟨_, rfl, rfl⟩
  obtain ⟨sa, ha⟩ := h32
  obtain ⟨sb, hb, hbi, hb1, hb2⟩ := h17
  obtain ⟨sd, hd, hdi⟩ := hD
  refine ⟨⟨sa, ha, ?_⟩, ?_, ⟨sd, rfl, by decide, hd, ?_⟩⟩
  · exact (C26_same_size_Realloc_fast_path_iff sampleEnv sampleState Alloc_Linear 32 131088 sa (by
      decide) ha).2.1.2
      (by decide)
  · obtain ⟨w, hw, _, _, hdisp, _⟩ :=
      (C26_same_size_Realloc_fast_path_iff sampleEnv sampleState Alloc_Linear 17 131088 sb (by
          decide) hb).2.2 (by decide)
    have e : PadRequest 17 = .ok 48 := rfl
    rw [e] at hw
    cases hw
    obtain ⟨_, _, h3⟩ := hdisp (Or.inl hbi)
    obtain ⟨s2, hs2, hall, hlog⟩ := h3 (by rw [hb1]; decide) (by rw [hb1]; decide)
    rw [hb1] at hs2
    rw [hb2] at hall
    refine ⟨sb, s2, hb, hs2, ?_, hlog⟩
    rw [hall]
    have r1 : row Alloc_Linear = 1 := by decide
    rw [r1, Function.update_same]
  · obtain ⟨w, _, _, _, _, hfail⟩ :=
      (C26_same_size_Realloc_fast_path_iff sampleEnv sampleStateStart Alloc_Debug 17 327696 sd (by
          decide) hd).2.2 (by decide)
    exact (hfail (by rw [hdi]; decide)).2

end Allocator

/-! # Claims about `src/math/scalar.h` -/

namespace Scalar

open Allocator

/-! ## `i1_abs` and `i1_distance` -/

theorem mask_toU32 : (0x7fffffff : i32).toU32 = 2 ^ 31 - 1 := by decide

/-- `i1_abs` on a value that is not negative. -/
theorem i1_abs_nonneg (x : i32) (h : 0 ≤ x.val) : (i1_abs x).val = x.val := by
  have hr := x.property
  unfold i1_abs i32_and
  rw [mask_toU32, Nat.and_pow_two_sub_one_eq_mod]
  have hu : x.toU32 = x.val.toNat := by
    unfold i32.toU32
    congr 1
    omega
  rw [hu]
  show wrapI32 _ = _
  have hm : x.val.toNat % 2 ^ 31 = x.val.toNat := Nat.mod_eq_of_lt (by omega)
  rw [hm]
  rw [wrapI32_of_range _ (by simp) (by simp; omega)]
  simp [h]

/-- `i1_abs` on a negative value: the sign bit is cleared, the other bits of
the two's complement representation stay. -/
theorem i1_abs_neg (x : i32) (h : x.val < 0) : (i1_abs x).val = x.val + 2147483648 := by
  have hr := x.property
  unfold i1_abs i32_and
  rw [mask_toU32, Nat.and_pow_two_sub_one_eq_mod]
  have hu : x.toU32 = (x.val + 4294967296).toNat := by
    unfold i32.toU32
    congr 1
    omega
  rw [hu]
  show wrapI32 _ = _
  have hm : (x.val + 4294967296).toNat % 2 ^ 31 = (x.val + 2147483648).toNat := by omega
  rw [hm]
  rw [wrapI32_of_range _ (by simp) (by simp; omega)]
  simp
  omega

/-- C29 (the code at the failing input). `i1_abs(-1)` is `0x7fffffff`, not 1:
`x & 0x7fffffff` clears the sign bit of the two's complement representation
and leaves the other bits. Likewise `i1_distance(1, 0) = i1_abs(-1)` is
`0x7fffffff`, not 1. -/
theorem C29_i1_abs_minus_one :
    (i32.ofInt (-1)).val = -1 ∧ (i1_abs (i32.ofInt (-1))).val = 2147483647 ∧
    (i1_distance 1 0).val = 2147483647 ∧ (i1_abs 1).val = 1 := by
  decide

/-! ## `i1_log2` -/

/-- Division of a value in `[P, P * P)` by a positive `P` lands in `[1, P)`. -/
theorem div_window (q P : Nat) (hP : 0 < P) (h : P ≤ q) (hB : q < P * P) :
    1 ≤ q / P ∧ q / P < P := by
  constructor
  · exact (Nat.le_div_iff_mul_le hP).2 (by rw [Nat.one_mul]; exact h)
  · exact (Nat.div_lt_iff_lt_mul hP).2 hB

/-- The arithmetic shift of a non-negative `i32` by `k` is the quotient by
`2 ^ k`. -/
theorem i32_shr_nonneg (x : i32) (k q : Nat) (hx : x.val = (q : Int)) :
    (i32_shr x k).val = ((q / 2 ^ k : Nat) : Int) := by
  have hr := x.property
  have e : x.val / 2 ^ k = ((q / 2 ^ k : Nat) : Int) := by
    rw [hx]
    push_cast
    rfl
  show wrapI32 (x.val / 2 ^ k) = _
  rw [e]
  have hb : q / 2 ^ k ≤ q := Nat.div_le_self _ _
  generalize q / 2 ^ k = r at hb
  exact wrapI32_of_range _ (by omega) (by omega)

/-- Adding a small step to a small `i32` does not wrap. -/
theorem i32_add_small (y : i32) (Y k : Nat) (hY : y.val = (Y : Int)) (hYb : Y + k ≤ 31) :
    (i32.add y (i32.ofInt (k : Int))).val = ((Y + k : Nat) : Int) := by
  have e : (i32.ofInt (k : Int)).val = k := by
    show wrapI32 (k : Int) = k
    exact wrapI32_of_range _ (by omega) (by omega)
  show wrapI32 (y.val + (i32.ofInt (k : Int)).val) = _
  rw [e, hY, wrapI32_of_range _ (by omega) (by omega)]
  push_cast
  rfl

/-- One step of the cascade keeps the invariant: `y` counts the bits shifted out
of the argument `X`, the current `x` is `X / 2 ^ y`, and it is below
`2 ^ (2 * k)` before the step and below `2 ^ k` after it. -/
theorem log2_step_inv (k : Nat) (hk : (1 <<< k : Int) = 2 ^ k) (yx : i32 × i32)
    (X Y : Nat) (hY : yx.1.val = Y) (hYb : Y + k ≤ 31)
    (hx : yx.2.val = ((X / 2 ^ Y : Nat) : Int)) (h1 : 1 ≤ X / 2 ^ Y)
    (hB : X / 2 ^ Y < 2 ^ (2 * k)) :
    ∃ Y2 : Nat, (log2_step k yx).1.val = Y2 ∧ Y ≤ Y2 ∧ Y2 ≤ Y + k ∧
      (log2_step k yx).2.val = ((X / 2 ^ Y2 : Nat) : Int) ∧ 1 ≤ X / 2 ^ Y2 ∧
      X / 2 ^ Y2 < 2 ^ k := by
  have hdiv : X / 2 ^ (Y + k) = X / 2 ^ Y / 2 ^ k := by
    rw [pow_add, Nat.div_div_eq_div_mul]
  have hsq : 2 ^ (2 * k) = 2 ^ k * 2 ^ k := by rw [two_mul, pow_add]
  have hpos : 0 < 2 ^ k := Nat.two_pow_pos k
  have hcast : ((2 : Int) ^ k) = ((2 ^ k : Nat) : Int) := by
    push_cast
    rfl
  rw [hsq] at hB
  unfold log2_step
  rw [hk, hcast, hx]
  by_cases hc : 2 ^ k ≤ X / 2 ^ Y
  · rw [if_pos (Int.ofNat_le.2 hc)]
    have hw := div_window _ _ hpos hc hB
    refine ⟨Y + k, i32_add_small yx.1 Y k hY hYb, Nat.le_add_right _ _, le_refl _, ?_, ?_, ?_⟩
    · rw [hdiv]
      exact i32_shr_nonneg yx.2 k _ hx
    · rw [hdiv]
      exact hw.1
    · rw [hdiv]
      exact hw.2
  · rw [if_neg (fun h => hc (Int.ofNat_le.1 h))]
    exact ⟨Y, hY, le_refl _, Nat.le_add_right _ _, hx, h1, Nat.lt_of_not_le hc⟩

theorem shl_pow16 : (1 <<< 16 : Int) = 2 ^ 16 := by decide
theorem shl_pow8 : (1 <<< 8 : Int) = 2 ^ 8 := by decide
theorem shl_pow4 : (1 <<< 4 : Int) = 2 ^ 4 := by decide
theorem shl_pow2 : (1 <<< 2 : Int) = 2 ^ 2 := by decide
theorem shl_pow1 : (1 <<< 1 : Int) = 2 ^ 1 := by decide

/-- The start value of `y` in `i1_log2` for a non-zero argument. -/
theorem i1_log2_y0 (x : i32) (hx : 0 < x.val) :
    (i32_neg (if x.val = 0 then 1 else 0)).val = ((0 : Nat) : Int) := by
  rw [if_neg (Int.ne_of_gt hx)]
  decide

/-- `i1_log2` on a positive argument: the result `y` satisfies
`x / 2 ^ y = 1`. -/
theorem i1_log2_div (x : i32) (hx : 0 < x.val) :
    ∃ Y : Nat, (i1_log2 x).val = Y ∧ Y ≤ 30 ∧ x.val.toNat / 2 ^ Y = 1 := by
  have hr := x.property
  have hX : x.val.toNat < 2 ^ 31 := by
    have e : (2 : Nat) ^ 31 = 2147483648 := by decide
    rw [e]
    omega
  have hx0 : x.val = ((x.val.toNat / 2 ^ 0 : Nat) : Int) := by
    rw [pow_zero, Nat.div_one]
    omega
  have h10 : 1 ≤ x.val.toNat / 2 ^ 0 := by
    rw [pow_zero, Nat.div_one]
    omega
  have hB0 : x.val.toNat / 2 ^ 0 < 2 ^ (2 * 16) := by
    rw [pow_zero, Nat.div_one]
    exact lt_trans hX (by decide)
  obtain ⟨Y1, a1, _, c1, d1, e1, f1⟩ := log2_step_inv 16 shl_pow16
    (i32_neg (if x.val = 0 then 1 else 0), x) x.val.toNat 0 (i1_log2_y0 x hx) (by decide)
    hx0 h10 hB0
  obtain ⟨Y2, a2, _, c2, d2, e2, f2⟩ := log2_step_inv 8 shl_pow8 _
    x.val.toNat Y1 a1 (by omega) d1 e1 f1
  obtain ⟨Y3, a3, _, c3, d3, e3, f3⟩ := log2_step_inv 4 shl_pow4 _
    x.val.toNat Y2 a2 (by omega) d2 e2 f2
  obtain ⟨Y4, a4, _, c4, d4, e4, f4⟩ := log2_step_inv 2 shl_pow2 _
    x.val.toNat Y3 a3 (by omega) d3 e3 f3
  obtain ⟨Y5, a5, _, c5, d5, e5, f5⟩ := log2_step_inv 1 shl_pow1 _
    x.val.toNat Y4 a4 (by omega) d4 e4 f4
  have hY31 : Y5 ≤ 31 := by omega
  have hone : x.val.toNat / 2 ^ Y5 = 1 := by
    rw [pow_one] at f5
    exact Nat.le_antisymm (Nat.le_of_lt_succ f5) e5
  have hY30 : Y5 ≤ 30 := by
    by_contra hcon
    have h31 : Y5 = 31 := by omega
    rw [h31, Nat.div_eq_of_lt hX] at hone
    exact absurd hone (by decide)
  exact ⟨Y5, a5, hY30, hone⟩

/-- C30. For every 32-bit signed `x > 0`, `i1_log2(x)` is `floor(log2(x))`:
it lies in `[0, 30]`, it satisfies `2^y <= x < 2^(y+1)`, it is the only `y`
that does, and it equals `Nat.log 2 x`; and `i1_log2(0) = -1`. -/
theorem C30_i1_log2_is_floor_log2 :
    (∀ x : i32, 0 < x.val →
      0 ≤ (i1_log2 x).val ∧ (i1_log2 x).val ≤ 30 ∧
      (2 : Int) ^ (i1_log2 x).val.toNat ≤ x.val ∧
      x.val < (2 : Int) ^ ((i1_log2 x).val.toNat + 1) ∧
      (∀ y : Nat, (2 : Int) ^ y ≤ x.val → x.val < (2 : Int) ^ (y + 1) →
        (y : Int) = (i1_log2 x).val) ∧
      (i1_log2 x).val = (Nat.log 2 x.val.toNat : Int)) ∧
    (i1_log2 0).val = -1 := by
  refine ⟨?_, by decide⟩
  intro x hx
  obtain ⟨Y, hY, hY30, hdiv⟩ := i1_log2_div x hx
  have hpos : 0 < 2 ^ Y := Nat.two_pow_pos Y
  have hlo : 2 ^ Y ≤ x.val.toNat := by
    have h := (Nat.le_div_iff_mul_le hpos).1 (le_of_eq hdiv.symm)
    rw [Nat.one_mul] at h
    exact h
  have hhi : x.val.toNat < 2 ^ (Y + 1) := by
    have h := (Nat.div_lt_iff_lt_mul hpos).1 (show x.val.toNat / 2 ^ Y < 2 by rw [hdiv]; decide)
    rw [pow_succ, Nat.mul_comm]
    exact h
  have hxN : x.val = (x.val.toNat : Int) := (Int.toNat_of_nonneg (le_of_lt hx)).symm
  have hlog : Nat.log 2 x.val.toNat = Y := Nat.log_eq_of_pow_le_of_lt_pow hlo hhi
  have cast_le : ∀ a : Nat, 2 ^ a ≤ x.val.toNat ↔ (2 : Int) ^ a ≤ x.val := by
    intro a
    rw [hxN, Int.toNat_ofNat]
    constructor
    · intro h
      exact_mod_cast h
    · intro h
      exact_mod_cast h
  have cast_lt : ∀ a : Nat, x.val.toNat < 2 ^ a ↔ x.val < (2 : Int) ^ a := by
    intro a
    rw [hxN, Int.toNat_ofNat]
    constructor
    · intro h
      exact_mod_cast h
    · intro h
      exact_mod_cast h
  rw [hY, Int.toNat_ofNat]
  refine ⟨Int.ofNat_nonneg Y, by exact_mod_cast hY30, (cast_le Y).1 hlo, (cast_lt (Y + 1)).1 hhi,
    ?_, by rw [hlog]⟩
  intro y h1 h2
  have h := Nat.log_eq_of_pow_le_of_lt_pow ((cast_le y).2 h1) ((cast_lt (y + 1)).2 h2)
  rw [hlog] at h
  rw [h]

/-- `i1_log2(1000000) = 19`: `2^19 = 524288 <= 1000000 < 1048576 = 2^20`. -/
theorem C30_i1_log2_is_floor_log2_witness :
    (i1_log2 1000000).val = 19 ∧
    (2 : Int) ^ (i1_log2 1000000).val.toNat ≤ (1000000 : i32).val ∧
    (1000000 : i32).val < (2 : Int) ^ ((i1_log2 1000000).val.toNat + 1) :=
  ⟨by decide, (C30_i1_log2_is_floor_log2.1 1000000 (by decide)).2.2.1,
    (C30_i1_log2_is_floor_log2.1 1000000 (by decide)).2.2.2.1⟩

end Scalar

/-! # Claims about `src/common/cmd.c` -/

namespace Cmd

open Allocator

/-- C28 (the code at the failing input). The buffer holds "ab" (length 2) and
the text is "x": `cbuf_pushfront` reserves 4 bytes, moves the old content to
offset `bufLen = 2` instead of `textLen = 1`, and leaves "xba", not "xab".
With the buffer "abc" and the text "x" it reserves 5 bytes and the move writes
the bytes at offsets 3, 4 and 5, the last one outside the bytes reserved. When
the two lengths are equal ("ab" and "xy") the result is the concatenation. -/
theorem C28_cbuf_pushfront_moves_to_wrong_offset :
    cbuf_pushfront 63 sampleBuf [120]
      = .ok { ptr := some [120, 98, 97, 0], length := 3, allocator := 0 } ∧
    cbuf_pushfront 63 sampleBuf3 [120] = .error CFault.out_of_bounds ∧
    cbuf_pushfront 63 sampleBuf [120, 121]
      = .ok { ptr := some [120, 121, 97, 98, 0], length := 4, allocator := 0 } :=
  ⟨rfl, rfl, rfl⟩

end Cmd
